import Mathlib

/-!
Verification development for the semantic middle-end of the fcc compiler:
the type algebra, the expression analyzer (analyzer-value.c), the statement
analyzer (analyzer.c) and the parser token helpers (parser-helpers.c),
embedded shallowly.  C pointer-and-mutation code is rendered as pure
functions: an analyzer pass takes a node and returns the updated node
together with the computed type, the number of diagnostics emitted and the
diagnostic lines themselves (the C code prints each line and increments
`ctx->errors`; the embedding accumulates both).  Deep cloning of
value-semantic type descriptors (`typeDeepDuplicate`, `typeDeriveFrom`) is
the identity on values.
-/

set_option linter.unreachableTactic false
set_option linter.unusedTactic false
set_option linter.unusedVariables false

namespace Fcc

/-- Symbol kinds, from the data model (sym.h is not in src/; the kinds are
those the sources dispatch on: `symType`, `symStruct`, `symEnum` in
`tokenIsDecl`, and the spec's `Scope`, `Id`, `Param`). -/
inductive symClass where
  | symScope | symType | symStruct | symEnum | symId | symParam
deriving DecidableEq, Repr

mutual

/-- Type descriptors.  Modelled from the spec: type.h/type.c are not in
src/.  Variants per spec 3.4: `Basic(symbol)`, `Pointer(base)`,
`Array(base, length)`, `Function(return, paramCount)` (parameter types live
on the `Param` symbols of the function symbol), and `Invalid`. -/
inductive type where
  | basic (basicSym : sym)
  | ptr (base : type)
  | array (base : type) (size : Int)
  | func (returnType : type) (params : Nat)
  | invalid

/-- Symbols.  Modelled from the spec: sym.h/sym.c are not in src/.  A
symbol has a kind, an identifier, a data type (C: a possibly-null `type*`;
a symbol that carries no type is modelled with `type.invalid`) and an
owned, ordered list of children (C: `firstChild`/`nextSibling` chain). -/
inductive sym where
  | mk (cls : symClass) (ident : String) (dt : type) (children : List sym)

end

def sym.cls : sym → symClass
  | .mk c _ _ _ => c

def sym.ident : sym → String
  | .mk _ i _ _ => i

def sym.dt : sym → type
  | .mk _ _ d _ => d

def sym.children : sym → List sym
  | .mk _ _ _ ch => ch

/-- Modelled from the spec: `symChild` looks a field up as a child of the
record's defining symbol (first child whose identifier matches). -/
def symChild (s : sym) (look : String) : Option sym :=
  s.children.find? (fun c => c.ident == look)

mutual

/-- Structural equality of type descriptors (the C code compares `sym*`
pointers; in the value model the same symbol is the same value). -/
def typeEqb : type → type → Bool
  | .basic l, .basic r => symEqb l r
  | .ptr l, .ptr r => typeEqb l r
  | .array lb ln, .array rb rn => typeEqb lb rb && ln == rn
  | .func lr lp, .func rr rp => typeEqb lr rr && lp == rp
  | .invalid, .invalid => true
  | _, _ => false

def symEqb : sym → sym → Bool
  | .mk lc li ld lch, .mk rc ri rd rch =>
      lc == rc && li == ri && typeEqb ld rd && symListEqb lch rch

def symListEqb : List sym → List sym → Bool
  | [], [] => true
  | l :: ls, r :: rs => symEqb l r && symListEqb ls rs
  | _, _ => false

end

/-! ## Type predicates

Modelled from the spec (4.2.2 and 3.4): type.c is not in src/.  Per spec
3.4 every predicate listed there returns `true` for `Invalid` ("silent
propagation"); the comma handler's source comment confirms this:
"typeXXX functions always respond positively when provided with invalids."
The numeric family is `Basic` over the built-in `Type` symbols `int`,
`char`, `bool`. -/

def symIsNumericType (s : sym) : Bool :=
  s.cls == .symType && (s.ident == "int" || s.ident == "char" || s.ident == "bool")

def symIsVoidType (s : sym) : Bool :=
  s.cls == .symType && s.ident == "void"

def typeIsInvalid : type → Bool
  | .invalid => true
  | _ => false

def typeIsBasic : type → Bool
  | .basic _ => true
  | .invalid => true
  | _ => false

def typeIsPtr : type → Bool
  | .ptr _ => true
  | .invalid => true
  | _ => false

def typeIsArray : type → Bool
  | .array _ _ => true
  | .invalid => true
  | _ => false

def typeIsFunction : type → Bool
  | .func _ _ => true
  | .invalid => true
  | _ => false

def typeIsNumeric : type → Bool
  | .basic s => symIsNumericType s
  | .invalid => true
  | _ => false

/-- ordinal = numeric or pointer (spec 4.2.2). -/
def typeIsOrdinal (t : type) : Bool :=
  typeIsNumeric t || (match t with | .ptr _ => true | _ => false)

/-- equality = ordinal or pointer (spec 4.2.2). -/
def typeIsEquality (t : type) : Bool :=
  typeIsOrdinal t || (match t with | .ptr _ => true | _ => false)

/-- condition = equality (spec 4.2.2). -/
def typeIsCondition (t : type) : Bool :=
  typeIsEquality t

/-- callable = Function, Pointer-to-Function, Invalid (spec 4.2.2). -/
def typeIsCallable : type → Bool
  | .func _ _ => true
  | .ptr (.func _ _) => true
  | .invalid => true
  | _ => false

/-- assignment = any non-Function, non-void type; Invalid (spec 4.2.2). -/
def typeIsAssignment : type → Bool
  | .func _ _ => false
  | .basic s => !symIsVoidType s
  | _ => true

/-- record = Basic whose symbol kind is Struct (C unions also use the
Struct symbol kind); Invalid (spec 4.2.2). -/
def typeIsRecord : type → Bool
  | .basic s => s.cls == .symStruct
  | .invalid => true
  | _ => false

/-- void = Basic{void}; and Invalid, per spec 3.4's blanket rule, which is
what makes the comma handler's explicit Invalid test meaningful. -/
def typeIsVoid : type → Bool
  | .basic s => symIsVoidType s
  | .invalid => true
  | _ => false

/-- Compatibility, modelled from spec 4.2.1. -/
def typeIsCompatible : type → type → Bool
  | .invalid, _ => true
  | _, .invalid => true
  | .basic l, .basic r =>
      symEqb l r || (symIsNumericType l && symIsNumericType r)
  | .ptr lb, .ptr rb =>
      typeIsCompatible lb rb
        || (match lb with | .basic s => symIsVoidType s | _ => false)
        || (match rb with | .basic s => symIsVoidType s | _ => false)
  | .array lb _, .ptr rb => typeIsCompatible lb rb
  | .ptr lb, .array rb _ => typeIsCompatible lb rb
  | _, _ => false

/-! ## Derivations (modelled from spec 3.4 and 4.2.3) -/

def typeCreateInvalid : type := .invalid

def typeCreateBasic (s : sym) : type := .basic s

/-- Deep clone: the identity on value-semantic descriptors. -/
def typeDeepDuplicate (t : type) : type := t

/-- `deriveFrom(T)`: structural deep clone; identity on values. -/
def typeDeriveFrom (t : type) : type := t

def typeDerivePtr (t : type) : type := .ptr t

/-- `deriveBase`: base of Pointer or Array; else Invalid (spec 3.4). -/
def typeDeriveBase : type → type
  | .ptr b => b
  | .array b _ => b
  | _ => .invalid

def typeDeriveArray (elem : type) (n : Int) : type := .array elem n

/-- `deriveReturn`: return of a Function, following one level of pointer
indirection transparently (spec 4.2.3); else Invalid. -/
def typeDeriveReturn : type → type
  | .func r _ => r
  | .ptr (.func r _) => r
  | _ => .invalid

/-- Numeric widening rank: int > char > bool (spec 4.2.3). -/
def typeNumericRank : type → Nat
  | .basic s => if s.ident == "int" then 3 else if s.ident == "char" then 2
                else if s.ident == "bool" then 1 else 0
  | _ => 0

/-- `deriveFromTwo(L,R)`: if either is a pointer, the pointer (deep
cloned); else the numeric with wider rank (spec 4.2.3).  An Invalid
operand propagates to Invalid. -/
def typeDeriveFromTwo (l r : type) : type :=
  if typeIsInvalid l || typeIsInvalid r then .invalid
  else match l, r with
    | .ptr b, _ => .ptr b
    | _, .ptr b => .ptr b
    | _, _ => if typeNumericRank r > typeNumericRank l then r else l

/-- `deriveUnified(L,R)`: ternary result unification, same rule as
`deriveFromTwo` (spec 4.2.3). -/
def typeDeriveUnified (l r : type) : type := typeDeriveFromTwo l r

/-- Modelled from the spec (4.2.4): type.c's `typeToStr` renders a C-style
declaration, used exclusively in diagnostics. -/
def typeToStr : type → String → String
  | .basic s, suffix => s.ident ++ suffix
  | .ptr b, suffix => typeToStr b ("*" ++ suffix)
  | .array b n, suffix => typeToStr b (suffix ++ "[" ++ toString n ++ "]")
  | .func r _, suffix => typeToStr r (suffix ++ "()")
  | .invalid, suffix => "<invalid>" ++ suffix

/-- Raw field read `T->base` (C accesses the field directly after a
`typeIsPtr` test; for an Invalid descriptor the silent-propagation model
yields Invalid). -/
def type.base : type → type
  | .ptr b => b
  | .array b _ => b
  | _ => .invalid

/-- Raw field read `T->basic` (the defining symbol of a Basic type). -/
def type.basicField : type → Option sym
  | .basic s => some s
  | _ => none

/-- Raw field read `T->params` (parameter count of a Function type). -/
def type.params : type → Nat
  | .func _ n => n
  | _ => 0

/-- Raw field read `T->returnType` (return type of a Function type). -/
def type.returnTypeField : type → type
  | .func r _ => r
  | _ => .invalid

/-! ## AST (data model of spec 3.5; ast.h is not in src/) -/

inductive astClass where
  | astModule | astFnImpl | astDecl | astDeclStruct | astStruct | astUnion
  | astCode | astBranch | astLoop | astIter | astReturn | astBreak
  | astBOP | astUOP | astTOP | astIndex | astCall | astLiteral
  | astEmpty | astInvalid
deriving DecidableEq, Repr

inductive literalClass where
  | literalInt | literalBool | literalIdent | literalStr | literalArray | literalInit
deriving DecidableEq, Repr

/-- AST node: one concrete shape for all constructs (spec 3.5).  The C
node stores a `firstChild`/`nextSibling` chain plus a count `children`;
the embedding stores the list, and the count is its length.  `l`/`r` are
optional distinguished slots, `symbol` a weak symbol reference, `dt` the
analyzer-owned derived type (null before analysis). -/
inductive ast where
  | mk (cls : astClass) (o : String) (litCls : literalClass)
       (children : List ast) (l : Option ast) (r : Option ast)
       (symbol : Option sym) (dt : Option type)
       (literal : String) (line : Nat) (col : Nat)

def ast.cls : ast → astClass
  | .mk c _ _ _ _ _ _ _ _ _ _ => c

def ast.o : ast → String
  | .mk _ o _ _ _ _ _ _ _ _ _ => o

def ast.litCls : ast → literalClass
  | .mk _ _ lc _ _ _ _ _ _ _ _ => lc

def ast.children : ast → List ast
  | .mk _ _ _ ch _ _ _ _ _ _ _ => ch

def ast.l : ast → Option ast
  | .mk _ _ _ _ l _ _ _ _ _ _ => l

def ast.r : ast → Option ast
  | .mk _ _ _ _ _ r _ _ _ _ _ => r

def ast.symbol : ast → Option sym
  | .mk _ _ _ _ _ _ s _ _ _ _ => s

def ast.dt : ast → Option type
  | .mk _ _ _ _ _ _ _ d _ _ _ => d

def ast.literal : ast → String
  | .mk _ _ _ _ _ _ _ _ lit _ _ => lit

def ast.line : ast → Nat
  | .mk _ _ _ _ _ _ _ _ _ li _ => li

def ast.col : ast → Nat
  | .mk _ _ _ _ _ _ _ _ _ _ co => co

def ast.setDt (n : ast) (t : type) : ast :=
  match n with
  | .mk c o lc ch l r s _ lit li co => .mk c o lc ch l r s (some t) lit li co

def ast.setSymbol (n : ast) (s' : Option sym) : ast :=
  match n with
  | .mk c o lc ch l r _ d lit li co => .mk c o lc ch l r s' d lit li co

def ast.setL (n : ast) (l' : Option ast) : ast :=
  match n with
  | .mk c o lc ch _ r s d lit li co => .mk c o lc ch l' r s d lit li co

def ast.setR (n : ast) (r' : Option ast) : ast :=
  match n with
  | .mk c o lc ch l _ s d lit li co => .mk c o lc ch l r' s d lit li co

def ast.setChildren (n : ast) (ch' : List ast) : ast :=
  match n with
  | .mk c o lc _ l r s d lit li co => .mk c o lc ch' l r s d lit li co

/-! ## Analyzer context and result shapes

The C analyzer prints each diagnostic immediately and increments
`ctx->errors`; nothing in the analyzer ever reads the counter or the
produced text, so the embedding returns, for each pass, the number of
diagnostics it emitted and the diagnostic lines, alongside the updated
node and the computed type (`analyzerValue` returns a borrow of the `dt`
it stored). -/

/-- The built-in `Type` symbols, `ctx->types` indexed by the Builtin enum
(spec 6.2); only int and bool are read by the sources in src/. -/
structure builtins where
  intSym : sym
  boolSym : sym

/-- analyzer.c `analyzerCtx` (errors/warnings are modelled as outputs;
`returnType` is the field set by `analyzerFnImpl`, null outside a
function body, modelled as Invalid). -/
structure analyzerCtx where
  types : builtins
  returnType : type

/-- Result of `analyzerValue`: updated node, its computed type, the
number of diagnostics emitted and their lines. -/
structure vres where
  node : ast
  dt : type
  errors : Nat
  out : List String

/-- Result of analyzing an optional (`ast*`, possibly null) operand. -/
structure ores where
  node : Option ast
  dt : type
  errors : Nat
  out : List String

/-- Result of analyzing `Node->firstChild` within its sibling list. -/
structure hres where
  children : List ast
  dt : type
  errors : Nat
  out : List String

/-- Result of the call-argument/parameter lockstep walk. -/
structure ares where
  children : List ast
  errors : Nat
  out : List String

/-! ## Diagnostics (analyzer.c lines 23..97)

`analyzerError` prints `error(LINE:COL): ` then the message and a bare
newline (no trailing period, unlike the parser's `error`), and increments
`ctx->errors` by one.  Each helper below returns that single line and the
increment 1. -/

def astLocLine : Option ast → Nat
  | some n => n.line
  | none => 0

def astLocCol : Option ast → Nat
  | some n => n.col
  | none => 0

/-- analyzer.c `analyzerError`.  The node argument is the `Node` whose
location is printed; C dereferences it (a null argument, possible only in
dead branches, is modelled as location 0:0). -/
def analyzerError (node : Option ast) (msg : String) : Nat × List String :=
  (1, ["error(" ++ toString (astLocLine node) ++ ":" ++ toString (astLocCol node) ++ "): " ++ msg])

def analyzerErrorExpected (node : Option ast) (wher expected : String) (found : type) : Nat × List String :=
  analyzerError node (wher ++ " expected " ++ expected ++ ", found " ++ typeToStr found "")

def analyzerErrorExpectedType (node : Option ast) (wher : String) (expected found : type) : Nat × List String :=
  analyzerErrorExpected node wher (typeToStr expected "") found

def analyzerErrorOp (o desc : String) (operand : Option ast) (dt : type) : Nat × List String :=
  analyzerError operand (o ++ " requires " ++ desc ++ ", found " ++ typeToStr dt "")

def analyzerErrorMismatch (node : ast) (o : String) (l r : type) : Nat × List String :=
  analyzerError (some node) ("type mismatch between " ++ typeToStr l "" ++ " and " ++ typeToStr r "" ++ " for " ++ o)

def analyzerErrorDegree (node : ast) (thing : String) (expected found : Nat) (wher : String) : Nat × List String :=
  analyzerError (some node) (toString expected ++ " " ++ thing ++ " expected, " ++ toString found ++ " given to " ++ wher)

def analyzerErrorParamMismatch (node : ast) (n : Nat) (expected found : type) : Nat × List String :=
  analyzerError (some node)
    ("type mismatch at parameter " ++ toString n ++ " of "
      ++ (match node.symbol with | some s => s.ident | none => "") ++ ": expected "
      ++ typeToStr expected "" ++ ", found " ++ typeToStr found "")

def analyzerErrorMember (o : String) (node : Option ast) (record : type) : Nat × List String :=
  analyzerError node
    (o ++ " expected field of " ++ typeToStr record "" ++ ", found "
      ++ (match node with | some n => n.literal | none => ""))

/-! ## Operator classifiers (analyzer-value.c lines 27..83) -/

def isNumericBOP (o : String) : Bool :=
     o == "+" || o == "-" || o == "*" || o == "/" || o == "%"
  || o == "&" || o == "|" || o == "^" || o == "<<" || o == ">>"
  || o == "+=" || o == "-=" || o == "*=" || o == "/=" || o == "%="
  || o == "&=" || o == "|=" || o == "^=" || o == "<<=" || o == ">>="

def isOrdinalBOP (o : String) : Bool :=
  o == ">" || o == "<" || o == ">=" || o == "<="

def isEqualityBOP (o : String) : Bool :=
  o == "==" || o == "!="

def isAssignmentBOP (o : String) : Bool :=
     o == "="
  || o == "+=" || o == "-=" || o == "*=" || o == "/=" || o == "%="
  || o == "&=" || o == "|=" || o == "^=" || o == "<<=" || o == ">>="

def isMemberBOP (o : String) : Bool :=
  o == "." || o == "->"

def isDerefBOP (o : String) : Bool :=
  o == "->"

def isCommaBOP (o : String) : Bool :=
  o == ","

/-! ## Size lemmas for termination -/

theorem ast.sizeOf_l_lt (n : ast) : sizeOf n.l < sizeOf n := by
  cases n
  simp [ast.l]
  omega

theorem ast.sizeOf_r_lt (n : ast) : sizeOf n.r < sizeOf n := by
  cases n
  simp [ast.r]
  omega

theorem ast.sizeOf_children_lt (n : ast) : sizeOf n.children < sizeOf n := by
  cases n
  simp [ast.children]
  omega

/-! ## Expression analysis (analyzer-value.c lines 85..465)

Each C handler first evaluates its operand subexpressions recursively and
then computes checks and the result type.  In the embedding the recursive
operand evaluations are hoisted into the `analyzerValue` dispatcher (so
that the recursion is structural over the tree); each named handler keeps
the remainder of its C function: the checks of the source in source
order, the node update, and the diagnostics in emission order. -/

/-- analyzer-value.c `analyzerBOP` (lines 132..176), numeric and
assignment operators; `Lr`/`Rr` are the hoisted evaluations of
`Node->l`/`Node->r`.  The lvalue check on L is stubbed `if (false)` in
the source and emits nothing. -/
def analyzerBOP (ctx : analyzerCtx) (node : ast) (Lr Rr : ores) : vres :=
  let L := Lr.dt
  let R := Rr.dt
  let numChk : Nat × List String :=
    if isNumericBOP node.o then
      if !typeIsNumeric L || !typeIsNumeric R then
        analyzerErrorOp node.o "numeric type"
          (if !typeIsNumeric L then Lr.node else Rr.node)
          (if !typeIsNumeric L then L else R)
      else (0, [])
    else (0, [])
  let asgChk : Nat × List String :=
    if isAssignmentBOP node.o then
      if !typeIsAssignment L || !typeIsAssignment R then
        analyzerErrorOp node.o "assignable type"
          (if !typeIsAssignment L then Lr.node else Rr.node)
          (if !typeIsAssignment L then L else R)
      else (0, [])
    else (0, [])
  let resPair : type × (Nat × List String) :=
    if typeIsCompatible L R then
      (if isAssignmentBOP node.o then typeDeriveFrom R else typeDeriveFromTwo L R, (0, []))
    else
      (typeCreateInvalid, analyzerErrorMismatch node node.o L R)
  let newDt := resPair.1
  ⟨((node.setL Lr.node).setR Rr.node).setDt newDt, newDt,
   Lr.errors + Rr.errors + numChk.1 + asgChk.1 + resPair.2.1,
   Lr.out ++ Rr.out ++ numChk.2 ++ asgChk.2 ++ resPair.2.2⟩

/-- analyzer-value.c `analyzerComparisonBOP` (lines 178..211): ordinal
and equality comparison operators. -/
def analyzerComparisonBOP (ctx : analyzerCtx) (node : ast) (Lr Rr : ores) : vres :=
  let L := Lr.dt
  let R := Rr.dt
  let chk : Nat × List String :=
    if isOrdinalBOP node.o then
      if !typeIsOrdinal L || !typeIsOrdinal R then
        analyzerErrorOp node.o "comparable type"
          (if !typeIsOrdinal L then Lr.node else Rr.node)
          (if !typeIsOrdinal L then L else R)
      else (0, [])
    else
      if !typeIsEquality L || !typeIsEquality R then
        analyzerErrorOp node.o "comparable type"
          (if !typeIsEquality L then Lr.node else Rr.node)
          (if !typeIsEquality L then L else R)
      else (0, [])
  let resPair : type × (Nat × List String) :=
    if typeIsCompatible L R then
      (typeDeriveFromTwo L R, (0, []))
    else
      (typeCreateInvalid, analyzerErrorMismatch node node.o L R)
  let newDt := resPair.1
  ⟨((node.setL Lr.node).setR Rr.node).setDt newDt, newDt,
   Lr.errors + Rr.errors + chk.1 + resPair.2.1,
   Lr.out ++ Rr.out ++ chk.2 ++ resPair.2.2⟩

/-- analyzer-value.c `analyzerMemberBOP` (lines 213..252): `.` and `->`.
The right operand is a field-name literal and is never analyzed; the
field symbol is looked up as a child of the record's defining symbol and
stored in the node's `symbol`. -/
def analyzerMemberBOP (ctx : analyzerCtx) (node : ast) (Lr : ores) : vres :=
  let L := Lr.dt
  let opChk : Nat × List String :=
    if isDerefBOP node.o then
      if !typeIsPtr L then
        analyzerErrorOp node.o "pointer" Lr.node L
      else if !typeIsRecord L.base then
        analyzerErrorOp node.o "structure pointer" Lr.node L
      else (0, [])
    else
      if !typeIsRecord L then
        analyzerErrorOp node.o "structure type" Lr.node L
      else (0, [])
  let fieldName : String := match node.r with | some rn => rn.literal | none => ""
  let newSym : Option sym :=
    if typeIsBasic L then
      match L.basicField with
      | some s => symChild s fieldName
      | none => none
    else if typeIsPtr L && typeIsBasic L.base then
      match L.base.basicField with
      | some s => symChild s fieldName
      | none => none
    else
      node.symbol
  let resPair : type × (Nat × List String) :=
    match newSym with
    | some s => (typeDeepDuplicate s.dt, (0, []))
    | none => (typeCreateInvalid, analyzerErrorMember node.o node.r L)
  let newDt := resPair.1
  ⟨((node.setL Lr.node).setSymbol newSym).setDt newDt, newDt,
   Lr.errors + opChk.1 + resPair.2.1,
   Lr.out ++ opChk.2 ++ resPair.2.2⟩

/-- analyzer-value.c `analyzerCommaBOP` (lines 254..273): only the RHS is
analyzed; the explicit `typeIsInvalid` test lets an Invalid RHS through
the void check without a diagnostic. -/
def analyzerCommaBOP (ctx : analyzerCtx) (node : ast) (Rr : ores) : vres :=
  let R := Rr.dt
  let resPair : type × (Nat × List String) :=
    if !typeIsVoid R || typeIsInvalid R then
      (typeDeepDuplicate R, (0, []))
    else
      (typeCreateInvalid, analyzerErrorOp node.o "non-void" Rr.node R)
  let newDt := resPair.1
  ⟨(node.setR Rr.node).setDt newDt, newDt,
   Rr.errors + resPair.2.1,
   Rr.out ++ resPair.2.2⟩

/-- analyzer-value.c `analyzerUOP` (lines 275..332).  The lvalue checks
for `++`/`--` and `&` are stubbed `if (true)` in the source, so they
derive their result without a diagnostic. -/
def analyzerUOP (ctx : analyzerCtx) (node : ast) (Rr : ores) : vres :=
  let R := Rr.dt
  let resPair : type × (Nat × List String) :=
    if node.o == "+" || node.o == "-" || node.o == "++" || node.o == "--"
        || node.o == "!" || node.o == "~" then
      if !typeIsNumeric R then
        (typeCreateInvalid, analyzerErrorOp node.o "numeric type" Rr.node R)
      else if node.o == "++" || node.o == "--" then
        (typeDeriveFrom R, (0, []))
      else
        (typeDeriveFrom R, (0, []))
    else if node.o == "*" then
      if typeIsPtr R then
        (typeDeriveBase R, (0, []))
      else
        (typeCreateInvalid, analyzerErrorOp node.o "pointer" Rr.node R)
    else if node.o == "&" then
      (typeDerivePtr R, (0, []))
    else
      (typeCreateInvalid, (0, []))
  let newDt := resPair.1
  ⟨(node.setR Rr.node).setDt newDt, newDt,
   Rr.errors + resPair.2.1,
   Rr.out ++ resPair.2.2⟩

/-- analyzer-value.c `analyzerTernary` (lines 334..359): the condition is
`firstChild` (`Cr`), the arms are `l` and `r`. -/
def analyzerTernary (ctx : analyzerCtx) (node : ast) (Cr : hres) (Lr Rr : ores) : vres :=
  let condChk : Nat × List String :=
    if !typeIsCondition Cr.dt then
      analyzerErrorOp "ternary ?:" "condition value" node.children.head? Cr.dt
    else (0, [])
  let resPair : type × (Nat × List String) :=
    if typeIsCompatible Lr.dt Rr.dt then
      (typeDeriveUnified Lr.dt Rr.dt, (0, []))
    else
      (typeCreateInvalid, analyzerErrorMismatch node "ternary ?:" Lr.dt Rr.dt)
  let newDt := resPair.1
  ⟨(((node.setChildren Cr.children).setL Lr.node).setR Rr.node).setDt newDt, newDt,
   Cr.errors + Lr.errors + Rr.errors + condChk.1 + resPair.2.1,
   Cr.out ++ Lr.out ++ Rr.out ++ condChk.2 ++ resPair.2.2⟩

/-- analyzer-value.c `analyzerIndex` (lines 361..381). -/
def analyzerIndex (ctx : analyzerCtx) (node : ast) (Lr Rr : ores) : vres :=
  let L := Lr.dt
  let R := Rr.dt
  let idxChk : Nat × List String :=
    if !typeIsNumeric R then
      analyzerErrorOp "[]" "numeric index" Rr.node R
    else (0, [])
  let resPair : type × (Nat × List String) :=
    if typeIsArray L || typeIsPtr L then
      (typeDeriveBase L, (0, []))
    else
      (typeCreateInvalid, analyzerErrorOp "[]" "array or pointer" Lr.node L)
  let newDt := resPair.1
  ⟨((node.setL Lr.node).setR Rr.node).setDt newDt, newDt,
   Lr.errors + Rr.errors + idxChk.1 + resPair.2.1,
   Lr.out ++ Rr.out ++ idxChk.2 ++ resPair.2.2⟩

/-- analyzer-value.c `analyzerCall` (lines 383..426).  If the callee type
is callable, the result type is always the derived return of the called
symbol's type; the argument walk `argsRes` (hoisted, see
`analyzerCallArgs`) is consulted only when the arity check passes, so on
a degree mismatch the argument nodes stay unvisited. -/
def analyzerCall (ctx : analyzerCtx) (node : ast) (Lr : ores) (argsRes : ares) : vres :=
  let L := Lr.dt
  let symDt : type := match node.symbol with | some s => s.dt | none => typeCreateInvalid
  if !typeIsCallable L then
    let chk := analyzerErrorOp "()" "function" node.children.head? symDt
    ⟨(node.setL Lr.node).setDt typeCreateInvalid, typeCreateInvalid,
     Lr.errors + chk.1, Lr.out ++ chk.2⟩
  else
    let newDt := typeDeepDuplicate (typeDeriveReturn symDt)
    let expected : Nat := if typeIsPtr L then L.base.params else L.params
    if expected != node.children.length then
      let symIdent : String := match node.symbol with | some s => s.ident | none => ""
      let chk := analyzerErrorDegree node "parameters" expected node.children.length symIdent
      ⟨(node.setL Lr.node).setDt newDt, newDt,
       Lr.errors + chk.1, Lr.out ++ chk.2⟩
    else
      ⟨((node.setL Lr.node).setChildren argsRes.children).setDt newDt, newDt,
       Lr.errors + argsRes.errors, Lr.out ++ argsRes.out⟩

/-- analyzer-value.c `analyzerLiteral` (lines 428..448): int and bool
literals take the built-in basic types; identifier literals deep-clone
their parse-bound symbol's type (a null symbol would be dereferenced by
C; modelled as Invalid). -/
def analyzerLiteral (ctx : analyzerCtx) (node : ast) : vres :=
  let newDt : type :=
    if node.litCls == .literalInt then
      typeCreateBasic ctx.types.intSym
    else if node.litCls == .literalBool then
      typeCreateBasic ctx.types.boolSym
    else if node.litCls == .literalIdent then
      match node.symbol with
      | some s => typeDeepDuplicate s.dt
      | none => typeCreateInvalid
    else
      typeCreateInvalid
  ⟨node.setDt newDt, newDt, 0, []⟩

/-- analyzer-value.c `analyzerArrayLiteral` (lines 450..465): only the
first element is analyzed (`Hr`; element type checking is a source
TODO); the result is an array of the first element's type with length
`Node->children`. -/
def analyzerArrayLiteral (ctx : analyzerCtx) (node : ast) (Hr : hres) : vres :=
  let newDt := typeDeriveArray Hr.dt (node.children.length : Int)
  ⟨(node.setChildren Hr.children).setDt newDt, newDt, Hr.errors, Hr.out⟩

mutual

/-- analyzer-value.c `analyzerValue` (lines 85..130): dispatch on AST
class and, for binary operators, on the operator text; the operand
evaluations of the C handlers are performed here (hoisted).  The
`debugErrorUnhandled` branches only log; they set `dt` to Invalid. -/
def analyzerValue (ctx : analyzerCtx) : ast → vres
  | node@(.mk cls o litCls children l r symbol dt literal line col) =>
    if cls == .astBOP then
      if isNumericBOP o || isAssignmentBOP o then
        analyzerBOP ctx node (analyzerValueOpt ctx l) (analyzerValueOpt ctx r)
      else if isOrdinalBOP o || isEqualityBOP o then
        analyzerComparisonBOP ctx node (analyzerValueOpt ctx l) (analyzerValueOpt ctx r)
      else if isMemberBOP o then
        analyzerMemberBOP ctx node (analyzerValueOpt ctx l)
      else if isCommaBOP o then
        analyzerCommaBOP ctx node (analyzerValueOpt ctx r)
      else
        ⟨node.setDt typeCreateInvalid, typeCreateInvalid, 0, []⟩
    else if cls == .astUOP then
      analyzerUOP ctx node (analyzerValueOpt ctx r)
    else if cls == .astTOP then
      analyzerTernary ctx node (analyzerValueHead ctx children)
        (analyzerValueOpt ctx l) (analyzerValueOpt ctx r)
    else if cls == .astIndex then
      analyzerIndex ctx node (analyzerValueOpt ctx l) (analyzerValueOpt ctx r)
    else if cls == .astCall then
      analyzerCall ctx node (analyzerValueOpt ctx l)
        (analyzerCallArgs ctx node (match symbol with | some s => s.children | none => []) children 0)
    else if cls == .astLiteral then
      if litCls == .literalArray then
        analyzerArrayLiteral ctx node (analyzerValueHead ctx children)
      else
        analyzerLiteral ctx node
    else if cls == .astInvalid then
      ⟨node.setDt typeCreateInvalid, typeCreateInvalid, 0, []⟩
    else
      ⟨node.setDt typeCreateInvalid, typeCreateInvalid, 0, []⟩

/-- Analysis of a possibly-null operand pointer.  The C handlers
dereference their operands unconditionally; parser-produced nodes carry
them, and a missing operand is modelled as contributing Invalid and no
diagnostics. -/
def analyzerValueOpt (ctx : analyzerCtx) : Option ast → ores
  | some n =>
      let res := analyzerValue ctx n
      ⟨some res.node, res.dt, res.errors, res.out⟩
  | none => ⟨none, typeCreateInvalid, 0, []⟩

/-- Analysis of `Node->firstChild` inside the child list (the C code
dereferences a null `firstChild`; an empty list is modelled as
contributing Invalid and no diagnostics). -/
def analyzerValueHead (ctx : analyzerCtx) : List ast → hres
  | c :: rest =>
      let res := analyzerValue ctx c
      ⟨res.node :: rest, res.dt, res.errors, res.out⟩
  | [] => ⟨[], typeCreateInvalid, 0, []⟩

/-- The argument/parameter lockstep loop of `analyzerCall` (lines
412..419): leaves once either list ends; remaining argument nodes are
left untouched.  `callNode` is the Call node, used for the location and
callee name of param-mismatch diagnostics. -/
def analyzerCallArgs (ctx : analyzerCtx) (callNode : ast) (params : List sym) :
    List ast → Nat → ares
  | a :: restArgs, n =>
      match params with
      | p :: restParams =>
          let r := analyzerValue ctx a
          let chk : Nat × List String :=
            if !typeIsCompatible r.dt p.dt then
              analyzerErrorParamMismatch callNode n p.dt r.dt
            else (0, [])
          let rest := analyzerCallArgs ctx callNode restParams restArgs (n + 1)
          ⟨r.node :: rest.children, r.errors + chk.1 + rest.errors, r.out ++ chk.2 ++ rest.out⟩
      | [] => ⟨a :: restArgs, 0, []⟩
  | [], _ => ⟨[], 0, []⟩

end

/-! ## Statement-level analysis (analyzer.c lines 112..291)

As with the expression analyzer, the statement-level recursion (walks of
child statements) is hoisted into the `analyzerNode` dispatcher; each
named handler keeps the remaining logic of its C function.  Expression
evaluation (`analyzerValue` and companions) is already defined, so the
handlers call it directly, as the C functions do. -/

/-- Result of a statement-level analysis pass. -/
structure nres where
  node : ast
  errors : Nat
  out : List String

/-- Result of walking a sibling list statement by statement. -/
structure lres where
  children : List ast
  errors : Nat
  out : List String

/-- Modelled from the spec: ast.c is not in src/.  The value classes are
the expression classes `analyzerValue` dispatches on (spec 3.5/4.3.1);
`astEmpty` and `astInvalid` are tested for separately by `analyzerNode`
before this predicate is consulted. -/
def astIsValueClass (c : astClass) : Bool :=
  c == .astBOP || c == .astUOP || c == .astTOP || c == .astIndex
    || c == .astCall || c == .astLiteral

/-- Modelled from the spec: analyzer-decl.c is not in src/ and the spec's
statement rules (4.3.3) prescribe no analyzer check for declarations
(symbols and their types are bound at parse time, spec 4.1.5); the
declaration visit is modelled as a traversal performing no checks. -/
def analyzerDecl (ctx : analyzerCtx) (node : ast) : nres :=
  ⟨node, 0, []⟩

/-- Modelled from the spec: analyzer-decl.c is not in src/; as for
`analyzerDecl`, no checks are prescribed for struct declarations. -/
def analyzerDeclStruct (ctx : analyzerCtx) (node : ast) : nres :=
  ⟨node, 0, []⟩

/-- analyzer.c `analyzerFnImpl` (lines 175..185): analyze the declarator
(`Node->l`), then walk the body (`Node->r`) with `ctx->returnType` set
from the function symbol's type; `bres` is that hoisted body walk. -/
def analyzerFnImpl (ctx : analyzerCtx) (node : ast) (bres : Option ast × Nat × List String) : nres :=
  let dres : Option ast × Nat × List String :=
    match node.l with
    | some ln =>
        let d := analyzerDecl ctx ln
        (some d.node, d.errors, d.out)
    | none => (none, 0, [])
  ⟨(node.setL dres.1).setR bres.1, dres.2.1 + bres.2.1, dres.2.2 ++ bres.2.2⟩

/-- The `returnType` installed by `analyzerFnImpl` for the body walk:
`Node->symbol->dt->returnType`. -/
def fnImplReturnType (node : ast) : type :=
  match node.symbol with
  | some s => s.dt.returnTypeField
  | none => typeCreateInvalid

/-- analyzer.c `analyzerCode` (lines 187..196); `lsRes` is the hoisted
walk of the children. -/
def analyzerCode (ctx : analyzerCtx) (node : ast) (lsRes : lres) : nres :=
  ⟨node.setChildren lsRes.children, lsRes.errors, lsRes.out⟩

/-- analyzer.c `analyzerBranch` (lines 198..217): the condition is
`firstChild`; then the `l` arm and, when present, the `r` arm (`lRes`,
`rRes` are those hoisted statement walks). -/
def analyzerBranch (ctx : analyzerCtx) (node : ast)
    (lRes rRes : Option ast × Nat × List String) : nres :=
  let condRes := analyzerValueHead ctx node.children
  let chk : Nat × List String :=
    if !typeIsCondition condRes.dt then
      analyzerErrorExpected node.children.head? "if" "condition" condRes.dt
    else (0, [])
  ⟨((node.setChildren condRes.children).setL lRes.1).setR rRes.1,
   condRes.errors + chk.1 + lRes.2.1 + rRes.2.1,
   condRes.out ++ chk.2 ++ lRes.2.2 ++ rRes.2.2⟩

/-- Whether a Loop node is a do-while: its `l` is the body (`astCode`);
C reads `Node->l->class`. -/
def loopIsDo (node : ast) : Bool :=
  match node.l with
  | some ln => ln.cls == .astCode
  | none => false

/-- analyzer.c `analyzerLoop` (lines 219..239): condition and body picked
by `loopIsDo`; the condition is evaluated as an expression here, the body
walk `codeRes` is hoisted. -/
def analyzerLoop (ctx : analyzerCtx) (node : ast)
    (codeRes : Option ast × Nat × List String) : nres :=
  let isDo := loopIsDo node
  let condRes := if isDo then analyzerValueOpt ctx node.r else analyzerValueOpt ctx node.l
  let chk : Nat × List String :=
    if !typeIsCondition condRes.dt then
      analyzerErrorExpected (if isDo then node.r else node.l) "do loop" "condition" condRes.dt
    else (0, [])
  let newL := if isDo then codeRes.1 else condRes.node
  let newR := if isDo then condRes.node else codeRes.1
  ⟨(node.setL newL).setR newR,
   condRes.errors + chk.1 + codeRes.2.1,
   condRes.out ++ chk.2 ++ codeRes.2.2⟩

/-- analyzer.c `analyzerIter` (lines 241..275): header children in order
init, cond, iter (C dereferences the three sibling pointers; a header
with fewer children, which the parser never produces, is modelled as
unwalked), then the body in `l`.  A declaration init is walked as a
statement — `headStmt` is that hoisted walk of the first child — while a
non-empty expression init is evaluated here; `codeRes` is the hoisted
body walk. -/
def analyzerIter (ctx : analyzerCtx) (node : ast) (headStmt : lres)
    (codeRes : Option ast × Nat × List String) : nres :=
  let hdr : lres :=
    match node.children with
    | init :: cond :: iter :: rest =>
        let initRes : ast × Nat × List String :=
          if init.cls == .astDecl then
            match headStmt.children with
            | i :: _ => (i, headStmt.errors, headStmt.out)
            | [] => (init, 0, [])
          else if init.cls != .astEmpty then
            let r := analyzerValue ctx init
            (r.node, r.errors, r.out)
          else (init, 0, [])
        let condRes : ast × Nat × List String :=
          if cond.cls != .astEmpty then
            let r := analyzerValue ctx cond
            let chk : Nat × List String :=
              if !typeIsCondition r.dt then
                analyzerErrorExpected (some cond) "for loop" "condition" r.dt
              else (0, [])
            (r.node, r.errors + chk.1, r.out ++ chk.2)
          else (cond, 0, [])
        let iterRes : ast × Nat × List String :=
          if iter.cls != .astEmpty then
            let r := analyzerValue ctx iter
            (r.node, r.errors, r.out)
          else (iter, 0, [])
        ⟨initRes.1 :: condRes.1 :: iterRes.1 :: rest,
         initRes.2.1 + condRes.2.1 + iterRes.2.1,
         initRes.2.2 ++ condRes.2.2 ++ iterRes.2.2⟩
    | other => ⟨other, 0, []⟩
  ⟨(node.setChildren hdr.children).setL codeRes.1,
   hdr.errors + codeRes.2.1,
   hdr.out ++ codeRes.2.2⟩

/-- analyzer.c `analyzerReturn` (lines 277..291): the returned
expression's type, or Invalid when absent, is compared against
`ctx->returnType`; on incompatibility the diagnostic is attached to
`Node->r` (null when absent — that branch is unreachable, see the C10
theorem). -/
def analyzerReturn (ctx : analyzerCtx) (node : ast) : nres :=
  let Rres := analyzerValueOpt ctx node.r
  let R := Rres.dt
  let chk : Nat × List String :=
    if !typeIsCompatible R ctx.returnType then
      analyzerErrorExpectedType node.r "return" ctx.returnType R
    else (0, [])
  ⟨node.setR Rres.node, Rres.errors + chk.1, Rres.out ++ chk.2⟩

mutual

/-- analyzer.c `analyzerNode` (lines 133..173): statement dispatch, with
the hoisted child statement walks passed to the handlers.
`astEmpty`/`astInvalid`/`astBreak` only log; the unhandled branch only
logs. -/
def analyzerNode (ctx : analyzerCtx) : ast → nres
  | node@(.mk cls o litCls children l r symbol dt literal line col) =>
    if cls == .astEmpty then ⟨node, 0, []⟩
    else if cls == .astInvalid then ⟨node, 0, []⟩
    else if cls == .astFnImpl then
      analyzerFnImpl ctx node
        (analyzerNodeOpt { ctx with returnType := fnImplReturnType node } r)
    else if cls == .astDeclStruct then analyzerDeclStruct ctx node
    else if cls == .astDecl then analyzerDecl ctx node
    else if cls == .astCode then analyzerCode ctx node (analyzerNodeList ctx children)
    else if cls == .astBranch then
      analyzerBranch ctx node (analyzerNodeOpt ctx l) (analyzerNodeOpt ctx r)
    else if cls == .astLoop then
      analyzerLoop ctx node
        (if loopIsDo node then analyzerNodeOpt ctx l else analyzerNodeOpt ctx r)
    else if cls == .astIter then
      analyzerIter ctx node (analyzerNodeHead ctx children) (analyzerNodeOpt ctx l)
    else if cls == .astReturn then analyzerReturn ctx node
    else if cls == .astBreak then ⟨node, 0, []⟩
    else if astIsValueClass cls then
      let rv := analyzerValue ctx node
      ⟨rv.node, rv.errors, rv.out⟩
    else ⟨node, 0, []⟩

/-- Statement analysis of a possibly-null child pointer. -/
def analyzerNodeOpt (ctx : analyzerCtx) : Option ast → Option ast × Nat × List String
  | some n =>
      let r := analyzerNode ctx n
      (some r.node, r.errors, r.out)
  | none => (none, 0, [])

/-- The sibling-chain walk shared by `analyzerModule` and
`analyzerCode`. -/
def analyzerNodeList (ctx : analyzerCtx) : List ast → lres
  | [] => ⟨[], 0, []⟩
  | c :: rest =>
      let rc := analyzerNode ctx c
      let rr := analyzerNodeList ctx rest
      ⟨rc.node :: rr.children, rc.errors + rr.errors, rc.out ++ rr.out⟩

/-- Statement walk of the first child inside its sibling list (used for a
declaration in a `for` header). -/
def analyzerNodeHead (ctx : analyzerCtx) : List ast → lres
  | c :: rest =>
      let rc := analyzerNode ctx c
      ⟨rc.node :: rest, rc.errors, rc.out⟩
  | [] => ⟨[], 0, []⟩

end

/-- analyzer.c `analyzerModule` (lines 122..131). -/
def analyzerModule (ctx : analyzerCtx) (node : ast) : nres :=
  let r := analyzerNodeList ctx node.children
  ⟨node.setChildren r.children, r.errors, r.out⟩

/-- analyzer.c `analyzerResult` (the error and warning counts returned to
the driver). -/
structure analyzerResult where
  errors : Nat
  warnings : Nat

/-- analyzer.c `analyzer` (lines 112..120): run the module walk with a
fresh context (errors = warnings = 0; nothing in src/ increments
warnings).  Returns the mutated tree, the result counts and the emitted
diagnostic lines. -/
def analyzer (tree : ast) (types : builtins) : ast × analyzerResult × List String :=
  let ctx : analyzerCtx := ⟨types, typeCreateInvalid⟩
  let r := analyzerModule ctx tree
  (r.node, ⟨r.errors, 0⟩, r.out)

/-! ## Field lemmas for the node setters -/

@[simp] theorem ast.cls_setDt (n : ast) (t : type) : (n.setDt t).cls = n.cls := by cases n; rfl

@[simp] theorem ast.o_setDt (n : ast) (t : type) : (n.setDt t).o = n.o := by cases n; rfl

@[simp] theorem ast.litCls_setDt (n : ast) (t : type) : (n.setDt t).litCls = n.litCls := by cases n; rfl

@[simp] theorem ast.children_setDt (n : ast) (t : type) : (n.setDt t).children = n.children := by cases n; rfl

@[simp] theorem ast.l_setDt (n : ast) (t : type) : (n.setDt t).l = n.l := by cases n; rfl

@[simp] theorem ast.r_setDt (n : ast) (t : type) : (n.setDt t).r = n.r := by cases n; rfl

@[simp] theorem ast.symbol_setDt (n : ast) (t : type) : (n.setDt t).symbol = n.symbol := by cases n; rfl

@[simp] theorem ast.dt_setDt (n : ast) (t : type) : (n.setDt t).dt = some t := by cases n; rfl

@[simp] theorem ast.literal_setDt (n : ast) (t : type) : (n.setDt t).literal = n.literal := by cases n; rfl

@[simp] theorem ast.line_setDt (n : ast) (t : type) : (n.setDt t).line = n.line := by cases n; rfl

@[simp] theorem ast.col_setDt (n : ast) (t : type) : (n.setDt t).col = n.col := by cases n; rfl

@[simp] theorem ast.cls_setSymbol (n : ast) (s2 : Option sym) : (n.setSymbol s2).cls = n.cls := by cases n; rfl

@[simp] theorem ast.o_setSymbol (n : ast) (s2 : Option sym) : (n.setSymbol s2).o = n.o := by cases n; rfl

@[simp] theorem ast.litCls_setSymbol (n : ast) (s2 : Option sym) : (n.setSymbol s2).litCls = n.litCls := by cases n; rfl

@[simp] theorem ast.children_setSymbol (n : ast) (s2 : Option sym) : (n.setSymbol s2).children = n.children := by cases n; rfl

@[simp] theorem ast.l_setSymbol (n : ast) (s2 : Option sym) : (n.setSymbol s2).l = n.l := by cases n; rfl

@[simp] theorem ast.r_setSymbol (n : ast) (s2 : Option sym) : (n.setSymbol s2).r = n.r := by cases n; rfl

@[simp] theorem ast.symbol_setSymbol (n : ast) (s2 : Option sym) : (n.setSymbol s2).symbol = s2 := by cases n; rfl

@[simp] theorem ast.dt_setSymbol (n : ast) (s2 : Option sym) : (n.setSymbol s2).dt = n.dt := by cases n; rfl

@[simp] theorem ast.literal_setSymbol (n : ast) (s2 : Option sym) : (n.setSymbol s2).literal = n.literal := by cases n; rfl

@[simp] theorem ast.line_setSymbol (n : ast) (s2 : Option sym) : (n.setSymbol s2).line = n.line := by cases n; rfl

@[simp] theorem ast.col_setSymbol (n : ast) (s2 : Option sym) : (n.setSymbol s2).col = n.col := by cases n; rfl

@[simp] theorem ast.cls_setL (n : ast) (x : Option ast) : (n.setL x).cls = n.cls := by cases n; rfl

@[simp] theorem ast.o_setL (n : ast) (x : Option ast) : (n.setL x).o = n.o := by cases n; rfl

@[simp] theorem ast.litCls_setL (n : ast) (x : Option ast) : (n.setL x).litCls = n.litCls := by cases n; rfl

@[simp] theorem ast.children_setL (n : ast) (x : Option ast) : (n.setL x).children = n.children := by cases n; rfl

@[simp] theorem ast.l_setL (n : ast) (x : Option ast) : (n.setL x).l = x := by cases n; rfl

@[simp] theorem ast.r_setL (n : ast) (x : Option ast) : (n.setL x).r = n.r := by cases n; rfl

@[simp] theorem ast.symbol_setL (n : ast) (x : Option ast) : (n.setL x).symbol = n.symbol := by cases n; rfl

@[simp] theorem ast.dt_setL (n : ast) (x : Option ast) : (n.setL x).dt = n.dt := by cases n; rfl

@[simp] theorem ast.literal_setL (n : ast) (x : Option ast) : (n.setL x).literal = n.literal := by cases n; rfl

@[simp] theorem ast.line_setL (n : ast) (x : Option ast) : (n.setL x).line = n.line := by cases n; rfl

@[simp] theorem ast.col_setL (n : ast) (x : Option ast) : (n.setL x).col = n.col := by cases n; rfl

@[simp] theorem ast.cls_setR (n : ast) (x : Option ast) : (n.setR x).cls = n.cls := by cases n; rfl

@[simp] theorem ast.o_setR (n : ast) (x : Option ast) : (n.setR x).o = n.o := by cases n; rfl

@[simp] theorem ast.litCls_setR (n : ast) (x : Option ast) : (n.setR x).litCls = n.litCls := by cases n; rfl

@[simp] theorem ast.children_setR (n : ast) (x : Option ast) : (n.setR x).children = n.children := by cases n; rfl

@[simp] theorem ast.l_setR (n : ast) (x : Option ast) : (n.setR x).l = n.l := by cases n; rfl

@[simp] theorem ast.r_setR (n : ast) (x : Option ast) : (n.setR x).r = x := by cases n; rfl

@[simp] theorem ast.symbol_setR (n : ast) (x : Option ast) : (n.setR x).symbol = n.symbol := by cases n; rfl

@[simp] theorem ast.dt_setR (n : ast) (x : Option ast) : (n.setR x).dt = n.dt := by cases n; rfl

@[simp] theorem ast.literal_setR (n : ast) (x : Option ast) : (n.setR x).literal = n.literal := by cases n; rfl

@[simp] theorem ast.line_setR (n : ast) (x : Option ast) : (n.setR x).line = n.line := by cases n; rfl

@[simp] theorem ast.col_setR (n : ast) (x : Option ast) : (n.setR x).col = n.col := by cases n; rfl

@[simp] theorem ast.cls_setChildren (n : ast) (ch2 : List ast) : (n.setChildren ch2).cls = n.cls := by cases n; rfl

@[simp] theorem ast.o_setChildren (n : ast) (ch2 : List ast) : (n.setChildren ch2).o = n.o := by cases n; rfl

@[simp] theorem ast.litCls_setChildren (n : ast) (ch2 : List ast) : (n.setChildren ch2).litCls = n.litCls := by cases n; rfl

@[simp] theorem ast.children_setChildren (n : ast) (ch2 : List ast) : (n.setChildren ch2).children = ch2 := by cases n; rfl

@[simp] theorem ast.l_setChildren (n : ast) (ch2 : List ast) : (n.setChildren ch2).l = n.l := by cases n; rfl

@[simp] theorem ast.r_setChildren (n : ast) (ch2 : List ast) : (n.setChildren ch2).r = n.r := by cases n; rfl

@[simp] theorem ast.symbol_setChildren (n : ast) (ch2 : List ast) : (n.setChildren ch2).symbol = n.symbol := by cases n; rfl

@[simp] theorem ast.dt_setChildren (n : ast) (ch2 : List ast) : (n.setChildren ch2).dt = n.dt := by cases n; rfl

@[simp] theorem ast.literal_setChildren (n : ast) (ch2 : List ast) : (n.setChildren ch2).literal = n.literal := by cases n; rfl

@[simp] theorem ast.line_setChildren (n : ast) (ch2 : List ast) : (n.setChildren ch2).line = n.line := by cases n; rfl

@[simp] theorem ast.col_setChildren (n : ast) (ch2 : List ast) : (n.setChildren ch2).col = n.col := by cases n; rfl

/-! ## Parser token helpers (parser-helpers.c lines 16..165)

The lexer (out of scope per spec 2) is modelled per its contract (spec
6.1): a stream of classified tokens with locations, consumed through
`peek`/`advance`.  A token list plus an index models the stream; past the
end the lexer reports EOF with empty text.  The parser context carries the
lexer, the mirrored current location, and — as with the analyzer — the
error counter together with the diagnostic lines actually emitted. -/

inductive tokenClass where
  | tokenOther | tokenEOF | tokenIdent | tokenInt
deriving DecidableEq, Repr

structure token where
  cls : tokenClass
  text : String
  line : Nat
  col : Nat
deriving DecidableEq, Repr

structure lexerSt where
  tokens : List token
  idx : Nat
deriving DecidableEq, Repr

def lexerEOFToken : token := ⟨.tokenEOF, "", 0, 0⟩

/-- The current token (C: `ctx->lexer` fields). -/
def lexerSt.cur (lx : lexerSt) : token := lx.tokens.getD lx.idx lexerEOFToken

/-- `ctx->lexer->buffer`: the current token's text. -/
def lexerSt.buffer (lx : lexerSt) : String := lx.cur.text

/-- `ctx->lexer->token`: the current token's class. -/
def lexerSt.token (lx : lexerSt) : tokenClass := lx.cur.cls

/-- `lexerNext`: advance the stream by exactly one token. -/
def lexerNext (lx : lexerSt) : lexerSt := ⟨lx.tokens, lx.idx + 1⟩

/-- parser.h `parserCtx`, restricted to the fields parser-helpers.c reads:
the lexer, the mirrored location (`ctx->location.line`/`lineChar`), and
the error counter (plus the emitted lines). -/
structure parserCtx where
  lexer : lexerSt
  locLine : Nat
  locCol : Nat
  errors : Nat
  out : List String
deriving DecidableEq, Repr

/-- A single apostrophe (the quotes the C format strings put around found
text and expected token text). -/
def squote : String := String.singleton (Char.ofNat 39)

/-- parser-helpers.c `error` (lines 16..28): prints
`error(LINE:COL): ` at the mirrored location, the message, then
`puts(".")` — so the line ends with a period — and increments
`ctx->errors` by one.  The `getchar()` pause is a development artifact
(spec 9: implementations must not block) with no effect on the outputs
modelled here. -/
def error (ctx : parserCtx) (msg : String) : parserCtx :=
  { ctx with
      errors := ctx.errors + 1,
      out := ctx.out ++
        ["error(" ++ toString ctx.locLine ++ ":" ++ toString ctx.locCol ++ "): " ++ msg ++ "."] }

/-- parser-helpers.c `errorExpected` (lines 30..32). -/
def errorExpected (ctx : parserCtx) (expected : String) : parserCtx :=
  error ctx ("expected " ++ expected ++ ", found " ++ squote ++ ctx.lexer.buffer ++ squote)

/-- parser-helpers.c `errorUndefSym` (lines 34..36). -/
def errorUndefSym (ctx : parserCtx) : parserCtx :=
  error ctx ("undefined symbol " ++ squote ++ ctx.lexer.buffer ++ squote)

/-- parser-helpers.c `errorIllegalBreak` (lines 38..40). -/
def errorIllegalBreak (ctx : parserCtx) : parserCtx :=
  error ctx "cannot break when not in loop or switch"

/-- parser-helpers.c `errorIdentOutsideDecl` (lines 42..44). -/
def errorIdentOutsideDecl (ctx : parserCtx) : parserCtx :=
  error ctx "identifier given outside declaration"

/-- parser-helpers.c `errorDuplicateSym` (lines 46..48). -/
def errorDuplicateSym (ctx : parserCtx) : parserCtx :=
  error ctx ("duplicated identifier " ++ squote ++ ctx.lexer.buffer ++ squote)

/-- parser-helpers.c `tokenIs` (lines 52..54). -/
def tokenIs (ctx : parserCtx) (m : String) : Bool :=
  ctx.lexer.buffer == m

/-- parser-helpers.c `tokenIsIdent` (lines 56..58). -/
def tokenIsIdent (ctx : parserCtx) : Bool :=
  ctx.lexer.token == .tokenIdent

/-- parser-helpers.c `tokenIsInt` (lines 60..62). -/
def tokenIsInt (ctx : parserCtx) : Bool :=
  ctx.lexer.token == .tokenInt

/-- parser-helpers.c `tokenNext` (lines 73..78): advance the lexer and
mirror the stream position into `ctx->location` (modelled as the location
carried by the new current token). -/
def tokenNext (ctx : parserCtx) : parserCtx :=
  let lx := lexerNext ctx.lexer
  { ctx with lexer := lx, locLine := lx.cur.line, locCol := lx.cur.col }

/-- parser-helpers.c `tokenMatch` (lines 80..86): debug log plus
`tokenNext`. -/
def tokenMatch (ctx : parserCtx) : parserCtx :=
  tokenNext ctx

/-- parser-helpers.c `tokenDupMatch` (lines 88..94). -/
def tokenDupMatch (ctx : parserCtx) : String × parserCtx :=
  (ctx.lexer.buffer, tokenMatch ctx)

/-- parser-helpers.c `tokenClassGetStr` (lines 99..116); the token class
enum has exactly the four classes of spec 3.2, so the unhandled branch is
unreachable. -/
def tokenClassGetStr : tokenClass → String
  | .tokenOther => "other"
  | .tokenEOF => "end of file"
  | .tokenIdent => "identifier"
  | .tokenInt => "int"

/-- parser-helpers.c `tokenMatchToken` (lines 118..126): on a class
mismatch, emit one expected-diagnostic and advance one token via
`lexerNext` (which, unlike `tokenNext`, leaves `ctx->location` as it
was); parsing continues normally either way. -/
def tokenMatchToken (ctx : parserCtx) (m : tokenClass) : parserCtx :=
  if ctx.lexer.token == m then
    tokenMatch ctx
  else
    let ctx2 := errorExpected ctx (tokenClassGetStr m)
    { ctx2 with lexer := lexerNext ctx2.lexer }

/-- parser-helpers.c `tokenMatchStr` (lines 128..140): on a text
mismatch, emit one expected-diagnostic (the expected text in quotes) and
advance one token via `lexerNext`. -/
def tokenMatchStr (ctx : parserCtx) (m : String) : parserCtx :=
  if tokenIs ctx m then
    tokenMatch ctx
  else
    let ctx2 := errorExpected ctx (squote ++ m ++ squote)
    { ctx2 with lexer := lexerNext ctx2.lexer }

/-- parser-helpers.c `tokenTryMatchStr` (lines 142..149). -/
def tokenTryMatchStr (ctx : parserCtx) (m : String) : Bool × parserCtx :=
  if tokenIs ctx m then
    (true, tokenMatch ctx)
  else
    (false, ctx)

/-- parser-helpers.c `tokenMatchInt` (lines 151..157); C's `atoi` on the
buffered text is modelled by `String.toInt?` defaulting to 0. -/
def tokenMatchInt (ctx : parserCtx) : Int × parserCtx :=
  ((ctx.lexer.buffer.toInt?).getD 0, tokenMatchToken ctx .tokenInt)

/-- parser-helpers.c `tokenMatchIdent` (lines 159..165). -/
def tokenMatchIdent (ctx : parserCtx) : String × parserCtx :=
  (ctx.lexer.buffer, tokenMatchToken ctx .tokenIdent)

/-! ## Concrete fixtures

Small symbols, contexts and nodes used by the concrete instances below.
The built-in `Type` symbols are those the spec's startup contract(6.2)
pre-populates. -/

def intSym : sym := ⟨.symType, "int", .invalid, []⟩

def boolSym : sym := ⟨.symType, "bool", .invalid, []⟩

def charSym : sym := ⟨.symType, "char", .invalid, []⟩

def voidSym : sym := ⟨.symType, "void", .invalid, []⟩

def builtins0 : builtins := ⟨intSym, boolSym⟩

def ctx0 : analyzerCtx := ⟨builtins0, .invalid⟩

/-- An integer literal node (`1` at 1:1). -/
def intLit : ast := .mk .astLiteral "" .literalInt [] none none none none "" 1 1

/-- An identifier-literal node bound to a given symbol. -/
def identLit (s : sym) (line col : Nat) : ast :=
  .mk .astLiteral "" .literalIdent [] none none (some s) none s.ident line col

/-! ## Dispatchable (expression-class) nodes and the dt-totality predicate -/

/-- The classes `analyzerValue` can be dispatched on: the value classes
plus `astInvalid` (which it types as Invalid). -/
def isExprClass (c : astClass) : Bool :=
  astIsValueClass c || c == .astInvalid

mutual

/-- Every expression-class node in the whole subtree (children, `l`, `r`)
carries a non-null `dt`. -/
def dtTotal : ast → Bool
  | .mk cls _ _ children l r _ dt _ _ _ =>
      (if isExprClass cls then dt.isSome else true)
        && dtTotalOpt l && dtTotalOpt r && dtTotalList children

def dtTotalOpt : Option ast → Bool
  | some n => dtTotal n
  | none => true

def dtTotalList : List ast → Bool
  | [] => true
  | c :: rest => dtTotal c && dtTotalList rest

end

/-! ## Every expression handler stores the type it returns in the node -/

theorem analyzerBOP_node_dt (ctx : analyzerCtx) (node : ast) (Lr Rr : ores) :
    (analyzerBOP ctx node Lr Rr).node.dt = some (analyzerBOP ctx node Lr Rr).dt := by
  unfold analyzerBOP
  simp

theorem analyzerComparisonBOP_node_dt (ctx : analyzerCtx) (node : ast) (Lr Rr : ores) :
    (analyzerComparisonBOP ctx node Lr Rr).node.dt
      = some (analyzerComparisonBOP ctx node Lr Rr).dt := by
  unfold analyzerComparisonBOP
  simp

theorem analyzerMemberBOP_node_dt (ctx : analyzerCtx) (node : ast) (Lr : ores) :
    (analyzerMemberBOP ctx node Lr).node.dt = some (analyzerMemberBOP ctx node Lr).dt := by
  unfold analyzerMemberBOP
  repeat' split
  all_goals simp
  all_goals repeat' split
  all_goals simp

theorem analyzerCommaBOP_node_dt (ctx : analyzerCtx) (node : ast) (Rr : ores) :
    (analyzerCommaBOP ctx node Rr).node.dt = some (analyzerCommaBOP ctx node Rr).dt := by
  unfold analyzerCommaBOP
  simp

theorem analyzerUOP_node_dt (ctx : analyzerCtx) (node : ast) (Rr : ores) :
    (analyzerUOP ctx node Rr).node.dt = some (analyzerUOP ctx node Rr).dt := by
  unfold analyzerUOP
  simp

theorem analyzerTernary_node_dt (ctx : analyzerCtx) (node : ast) (Cr : hres) (Lr Rr : ores) :
    (analyzerTernary ctx node Cr Lr Rr).node.dt
      = some (analyzerTernary ctx node Cr Lr Rr).dt := by
  unfold analyzerTernary
  simp

theorem analyzerIndex_node_dt (ctx : analyzerCtx) (node : ast) (Lr Rr : ores) :
    (analyzerIndex ctx node Lr Rr).node.dt = some (analyzerIndex ctx node Lr Rr).dt := by
  unfold analyzerIndex
  simp

theorem analyzerCall_node_dt (ctx : analyzerCtx) (node : ast) (Lr : ores) (argsRes : ares) :
    (analyzerCall ctx node Lr argsRes).node.dt = some (analyzerCall ctx node Lr argsRes).dt := by
  unfold analyzerCall
  repeat' split
  all_goals simp
  all_goals repeat' split
  all_goals simp

theorem analyzerLiteral_node_dt (ctx : analyzerCtx) (node : ast) :
    (analyzerLiteral ctx node).node.dt = some (analyzerLiteral ctx node).dt := by
  unfold analyzerLiteral
  simp

theorem analyzerArrayLiteral_node_dt (ctx : analyzerCtx) (node : ast) (Hr : hres) :
    (analyzerArrayLiteral ctx node Hr).node.dt = some (analyzerArrayLiteral ctx node Hr).dt := by
  unfold analyzerArrayLiteral
  simp

/-- `analyzerValue` always stores the type it returns in the dispatched
node's `dt` (spec 4.3.1: "always sets `node.dt` and returns a borrow of
it"). -/
theorem analyzerValue_node_dt (ctx : analyzerCtx) (node : ast) :
    (analyzerValue ctx node).node.dt = some (analyzerValue ctx node).dt := by
  cases node with
  | mk cls o lc ch l r symb d lit li co =>
    simp only [analyzerValue]
    repeat' split
    all_goals first
      | exact analyzerBOP_node_dt _ _ _ _
      | exact analyzerComparisonBOP_node_dt _ _ _ _
      | exact analyzerMemberBOP_node_dt _ _ _
      | exact analyzerCommaBOP_node_dt _ _ _
      | exact analyzerUOP_node_dt _ _ _
      | exact analyzerTernary_node_dt _ _ _ _ _
      | exact analyzerIndex_node_dt _ _ _ _
      | exact analyzerCall_node_dt _ _ _ _
      | exact analyzerLiteral_node_dt _ _
      | exact analyzerArrayLiteral_node_dt _ _ _
      | simp

/-! ## Claim C1 -/

/-- For C1: the comma expression statement `1, 1;` as the parser builds
it — a Module whose only child is the comma BOP; the comma operands are
integer literals. -/
def commaC1 : ast := .mk .astBOP "," .literalInt [] (some intLit) (some intLit) none none "" 1 3

def moduleC1 : ast := .mk .astModule "" .literalInt [commaC1] none none none none "" 1 1

/-- C1, counterexample: claim C1 states that after the analyzer runs,
every expression-class node — every node `analyzerValue` can be
dispatched on — has a non-null `dt`.  False: `analyzerCommaBOP` analyzes
only the right operand of a comma, so after running the analyzer on the
module for `1, 1;` the left operand (an expression-class Literal node)
still has a null `dt`. -/
theorem C1_counterexample : dtTotal (analyzer moduleC1 builtins0).1 = false := by rfl

/-- C1, amended: `analyzerValue` does set a non-null `dt` on every node
it is actually dispatched on (for every context and every node, the
returned node's `dt` is non-null); the original claim fails only for the
subexpressions the walk never visits (a comma's left operand, a member
access's field-name literal, array-literal elements after the first, and
the arguments of a call whose callee is not callable or whose arity
mismatches). -/
theorem C1_value_always_sets_dt (ctx : analyzerCtx) (node : ast) :
    ((analyzerValue ctx node).node.dt).isSome = true := by
  rw [analyzerValue_node_dt]
  rfl

/-! ## Claim C2 -/

/-- For C2: `int f(int a, int b)` — an `Id` symbol of Function type with
two `Param` children. -/
def fSym : sym :=
  ⟨.symId, "f", .func (.basic intSym) 2,
   [⟨.symParam, "a", .basic intSym, []⟩, ⟨.symParam, "b", .basic intSym, []⟩]⟩

/-- For C2: the call `f(1)` — one argument against two parameters. -/
def callC2 : ast :=
  .mk .astCall "" .literalInt [intLit] (some (identLit fSym 3 5)) none (some fSym) none "" 3 5

/-- C2, confirmed: for every Call node (callee expression `l`, called
symbol `s`) whose callee's analyzed type is callable, `analyzerCall` sets
the node's result type to `typeDeriveReturn` of the called symbol's type
— with no hypothesis on the argument count or the argument types, so it
holds in particular when they mismatch the parameters. -/
theorem C2_call_result_is_deriveReturn (ctx : analyzerCtx) (node : ast) (s : sym)
    (hcls : node.cls = .astCall) (hsym : node.symbol = some s)
    (hc : typeIsCallable (analyzerValueOpt ctx node.l).dt = true) :
    (analyzerValue ctx node).dt = typeDeriveReturn s.dt
      ∧ (analyzerValue ctx node).node.dt = some (typeDeriveReturn s.dt) := by
  cases node with
  | mk cls o lc ch l r symb d lit li co =>
    simp only [ast.cls] at hcls
    simp only [ast.symbol] at hsym
    simp only [ast.l] at hc
    subst hcls
    subst hsym
    have hdisp : analyzerValue ctx (ast.mk .astCall o lc ch l r (some s) d lit li co)
        = analyzerCall ctx (ast.mk .astCall o lc ch l r (some s) d lit li co)
            (analyzerValueOpt ctx l)
            (analyzerCallArgs ctx (ast.mk .astCall o lc ch l r (some s) d lit li co)
              s.children ch 0) := rfl
    rw [hdisp]
    unfold analyzerCall
    simp only [hc, Bool.not_true, Bool.false_eq_true, if_false, ast.symbol]
    repeat' split
    all_goals exact ⟨rfl, rfl⟩

/-- C2, witness: the call `f(1)` of the binary function `f` — arity 1
given against 2 expected, so a degree diagnostic is emitted — still gets
result type `deriveReturn(f.dt) = int`. -/
theorem C2_witness :
    callC2.cls = .astCall
      ∧ callC2.symbol = some fSym
      ∧ typeIsCallable (analyzerValueOpt ctx0 callC2.l).dt = true
      ∧ (analyzerValue ctx0 callC2).errors = 1
      ∧ typeDeriveReturn fSym.dt = .basic intSym
      ∧ (analyzerValue ctx0 callC2).dt = typeDeriveReturn fSym.dt :=
  ⟨rfl, rfl, rfl, rfl, rfl,
   (C2_call_result_is_deriveReturn ctx0 callC2 fSym rfl rfl rfl).1⟩

/-! ## Claim C3 -/

theorem ordinal_not_numeric_not_assignment (o : String) (h : isOrdinalBOP o = true) :
    isNumericBOP o = false ∧ isAssignmentBOP o = false := by
  unfold isOrdinalBOP at h
  simp only [Bool.or_eq_true, beq_iff_eq] at h
  rcases h with ((h | h) | h) | h <;> subst h <;> exact ⟨rfl, rfl⟩

/-- `deriveFromTwo` of two numeric types is numeric (it is the wider of
the two, or Invalid when one operand is Invalid — and Invalid is numeric
by silent propagation). -/
theorem typeDeriveFromTwo_numeric (l r : type)
    (hl : typeIsNumeric l = true) (hr : typeIsNumeric r = true) :
    typeIsNumeric (typeDeriveFromTwo l r) = true := by
  unfold typeDeriveFromTwo
  split
  · rfl
  · split
    · simp_all [typeIsNumeric]
    · simp_all [typeIsNumeric]
    · split <;> assumption

/-- For C3: `int *p`, `int *q` and the comparison `p < q`. -/
def pSymC3 : sym := ⟨.symId, "p", .ptr (.basic intSym), []⟩

def qSymC3 : sym := ⟨.symId, "q", .ptr (.basic intSym), []⟩

def cmpC3 : ast :=
  .mk .astBOP "<" .literalInt []
    (some (identLit pSymC3 2 5)) (some (identLit qSymC3 2 9)) none none "" 2 7

/-- C3, counterexample: claim C3 states that an ordinal comparison with
compatible operands records a fresh *numeric* type.  False: for
`p < q` with `p q : int*` both operands are ordinal and compatible, no
diagnostic is emitted, and the recorded type is `int*` — not numeric
(`typeDeriveFromTwo` yields the pointer when a pointer is compared). -/
theorem C3_counterexample :
    (analyzerValue ctx0 cmpC3).errors = 0
      ∧ (analyzerValue ctx0 cmpC3).node.dt = some (.ptr (.basic intSym))
      ∧ typeIsNumeric (.ptr (.basic intSym)) = false :=
  ⟨rfl, rfl, rfl⟩

/-- C3, amended: for every ordinal-operator (`< > <= >=`) BOP node the
analyzer requires both operand types to be ordinal (exactly one
`operatorRequires` diagnostic when one is not) and, when the operand
types are compatible, records as the node's type their unification
`typeDeriveFromTwo` — which is a fresh numeric type whenever both
operands are numeric, and the compared pointer type when a pointer is
involved. -/
theorem C3_ordinal_comparison (ctx : analyzerCtx) (node : ast)
    (hcls : node.cls = .astBOP) (ho : isOrdinalBOP node.o = true) :
    ((analyzerValue ctx node).errors
        = (analyzerValueOpt ctx node.l).errors + (analyzerValueOpt ctx node.r).errors
          + (if (!typeIsOrdinal (analyzerValueOpt ctx node.l).dt
                  || !typeIsOrdinal (analyzerValueOpt ctx node.r).dt) then 1 else 0)
          + (if typeIsCompatible (analyzerValueOpt ctx node.l).dt
                  (analyzerValueOpt ctx node.r).dt then 0 else 1))
      ∧ (typeIsCompatible (analyzerValueOpt ctx node.l).dt (analyzerValueOpt ctx node.r).dt = true →
           (analyzerValue ctx node).dt
             = typeDeriveFromTwo (analyzerValueOpt ctx node.l).dt (analyzerValueOpt ctx node.r).dt)
      ∧ (typeIsNumeric (analyzerValueOpt ctx node.l).dt = true →
         typeIsNumeric (analyzerValueOpt ctx node.r).dt = true →
           typeIsNumeric (typeDeriveFromTwo (analyzerValueOpt ctx node.l).dt
             (analyzerValueOpt ctx node.r).dt) = true) := by
  cases node with
  | mk cls o lc ch l r symb d lit li co =>
    simp only [ast.cls] at hcls
    simp only [ast.o] at ho
    simp only [ast.l, ast.r]
    subst hcls
    obtain ⟨hnum, hasg⟩ := ordinal_not_numeric_not_assignment o ho
    have hdisp : analyzerValue ctx (ast.mk .astBOP o lc ch l r symb d lit li co)
        = analyzerComparisonBOP ctx (ast.mk .astBOP o lc ch l r symb d lit li co)
            (analyzerValueOpt ctx l) (analyzerValueOpt ctx r) := by
      simp only [analyzerValue]
      simp [hnum, hasg, ho]
    rw [hdisp]
    unfold analyzerComparisonBOP
    simp only [ast.o, ho, if_true]
    refine ⟨?_, ?_, ?_⟩
    · repeat' split
      all_goals rfl
    · intro hcompat
      simp [hcompat]
    · intro hl hr
      exact typeDeriveFromTwo_numeric _ _ hl hr

/-- For C3's witness: the numeric comparison `1 < 1`. -/
def cmpC3w : ast :=
  .mk .astBOP "<" .literalInt [] (some intLit) (some intLit) none none "" 4 3

/-- C3, witness: at `1 < 1` both operands are int (numeric, ordinal,
compatible) and the amended theorem applies: the recorded type is the
unification, which here evaluates to `int`. -/
theorem C3_witness :
    cmpC3w.cls = .astBOP
      ∧ isOrdinalBOP cmpC3w.o = true
      ∧ typeIsCompatible (analyzerValueOpt ctx0 cmpC3w.l).dt (analyzerValueOpt ctx0 cmpC3w.r).dt = true
      ∧ (analyzerValue ctx0 cmpC3w).dt
          = typeDeriveFromTwo (analyzerValueOpt ctx0 cmpC3w.l).dt (analyzerValueOpt ctx0 cmpC3w.r).dt
      ∧ typeDeriveFromTwo (analyzerValueOpt ctx0 cmpC3w.l).dt (analyzerValueOpt ctx0 cmpC3w.r).dt
          = .basic intSym :=
  ⟨rfl, rfl, rfl, (C3_ordinal_comparison ctx0 cmpC3w rfl rfl).2.1 rfl, rfl⟩


/-! ## Size induction for nodes -/

theorem ast.sizeInduction (P : ast → Prop)
    (step : ∀ node : ast, (∀ m : ast, sizeOf m < sizeOf node → P m) → P node) :
    ∀ node, P node := by
  have H : ∀ n (nd : ast), sizeOf nd ≤ n → P nd := by
    intro n
    induction n with
    | zero =>
        intro nd h
        exact step nd (fun m hm => absurd (Nat.lt_of_lt_of_le hm h) (Nat.not_lt_zero _))
    | succ k ih =>
        intro nd h
        exact step nd (fun m hm => ih m (by omega))
  exact fun node => H (sizeOf node) node (Nat.le_refl _)

theorem ast.sizeOf_of_l_some {n : ast} {m : ast} (h : n.l = some m) : sizeOf m < sizeOf n := by
  have hlt := ast.sizeOf_l_lt n
  rw [h] at hlt
  simp at hlt
  omega

theorem ast.sizeOf_of_r_some {n : ast} {m : ast} (h : n.r = some m) : sizeOf m < sizeOf n := by
  have hlt := ast.sizeOf_r_lt n
  rw [h] at hlt
  simp at hlt
  omega

theorem ast.sizeOf_of_mem_children {n : ast} {m : ast} (h : m ∈ n.children) :
    sizeOf m < sizeOf n :=
  Nat.lt_trans (List.sizeOf_lt_of_mem h) (ast.sizeOf_children_lt n)

/-! ## The error counter moves in lockstep with the emitted lines -/

@[simp] theorem analyzerError_fst (nd : Option ast) (m : String) : (analyzerError nd m).1 = 1 := rfl

@[simp] theorem analyzerError_snd_length (nd : Option ast) (m : String) :
    (analyzerError nd m).2.length = 1 := rfl

theorem analyzerBOP_errs (ctx : analyzerCtx) (node : ast) (Lr Rr : ores)
    (hL : Lr.errors = Lr.out.length) (hR : Rr.errors = Rr.out.length) :
    (analyzerBOP ctx node Lr Rr).errors = (analyzerBOP ctx node Lr Rr).out.length := by
  unfold analyzerBOP
  simp only [analyzerErrorOp, analyzerErrorMismatch]
  repeat' split
  all_goals try simp [hL, hR]
  all_goals try repeat' split
  all_goals try simp [hL, hR]
  all_goals omega

theorem analyzerComparisonBOP_errs (ctx : analyzerCtx) (node : ast) (Lr Rr : ores)
    (hL : Lr.errors = Lr.out.length) (hR : Rr.errors = Rr.out.length) :
    (analyzerComparisonBOP ctx node Lr Rr).errors
      = (analyzerComparisonBOP ctx node Lr Rr).out.length := by
  unfold analyzerComparisonBOP
  simp only [analyzerErrorOp, analyzerErrorMismatch]
  repeat' split
  all_goals try simp [hL, hR]
  all_goals try repeat' split
  all_goals try simp [hL, hR]
  all_goals omega

theorem analyzerMemberBOP_errs (ctx : analyzerCtx) (node : ast) (Lr : ores)
    (hL : Lr.errors = Lr.out.length) :
    (analyzerMemberBOP ctx node Lr).errors = (analyzerMemberBOP ctx node Lr).out.length := by
  unfold analyzerMemberBOP
  simp only [analyzerErrorOp, analyzerErrorMember]
  repeat' split
  all_goals try simp [hL]
  all_goals try repeat' split
  all_goals try simp [hL]
  all_goals omega

theorem analyzerCommaBOP_errs (ctx : analyzerCtx) (node : ast) (Rr : ores)
    (hR : Rr.errors = Rr.out.length) :
    (analyzerCommaBOP ctx node Rr).errors = (analyzerCommaBOP ctx node Rr).out.length := by
  unfold analyzerCommaBOP
  simp only [analyzerErrorOp]
  repeat' split
  all_goals try simp [hR]
  all_goals try repeat' split
  all_goals try simp [hR]
  all_goals omega

theorem analyzerUOP_errs (ctx : analyzerCtx) (node : ast) (Rr : ores)
    (hR : Rr.errors = Rr.out.length) :
    (analyzerUOP ctx node Rr).errors = (analyzerUOP ctx node Rr).out.length := by
  unfold analyzerUOP
  simp only [analyzerErrorOp]
  repeat' split
  all_goals try simp [hR]
  all_goals try repeat' split
  all_goals try simp [hR]
  all_goals omega

theorem analyzerTernary_errs (ctx : analyzerCtx) (node : ast) (Cr : hres) (Lr Rr : ores)
    (hC : Cr.errors = Cr.out.length)
    (hL : Lr.errors = Lr.out.length) (hR : Rr.errors = Rr.out.length) :
    (analyzerTernary ctx node Cr Lr Rr).errors
      = (analyzerTernary ctx node Cr Lr Rr).out.length := by
  unfold analyzerTernary
  simp only [analyzerErrorOp, analyzerErrorMismatch]
  repeat' split
  all_goals try simp [hC, hL, hR]
  all_goals try repeat' split
  all_goals try simp [hC, hL, hR]
  all_goals omega

theorem analyzerIndex_errs (ctx : analyzerCtx) (node : ast) (Lr Rr : ores)
    (hL : Lr.errors = Lr.out.length) (hR : Rr.errors = Rr.out.length) :
    (analyzerIndex ctx node Lr Rr).errors = (analyzerIndex ctx node Lr Rr).out.length := by
  unfold analyzerIndex
  simp only [analyzerErrorOp]
  repeat' split
  all_goals try simp [hL, hR]
  all_goals try repeat' split
  all_goals try simp [hL, hR]
  all_goals omega

theorem analyzerCall_errs (ctx : analyzerCtx) (node : ast) (Lr : ores) (argsRes : ares)
    (hL : Lr.errors = Lr.out.length) (hA : argsRes.errors = argsRes.out.length) :
    (analyzerCall ctx node Lr argsRes).errors = (analyzerCall ctx node Lr argsRes).out.length := by
  unfold analyzerCall
  simp only [analyzerErrorOp, analyzerErrorDegree]
  repeat' split
  all_goals try simp [hL, hA]
  all_goals try repeat' split
  all_goals try simp [hL, hA]
  all_goals omega

theorem analyzerLiteral_errs (ctx : analyzerCtx) (node : ast) :
    (analyzerLiteral ctx node).errors = (analyzerLiteral ctx node).out.length := rfl

theorem analyzerArrayLiteral_errs (ctx : analyzerCtx) (node : ast) (Hr : hres)
    (hH : Hr.errors = Hr.out.length) :
    (analyzerArrayLiteral ctx node Hr).errors = (analyzerArrayLiteral ctx node Hr).out.length := by
  unfold analyzerArrayLiteral
  simp [hH]

theorem analyzerCallArgs_errs (ctx : analyzerCtx) (callNode : ast) :
    ∀ (args : List ast) (params : List sym) (n : Nat),
      (∀ a ∈ args, (analyzerValue ctx a).errors = (analyzerValue ctx a).out.length) →
      (analyzerCallArgs ctx callNode params args n).errors
        = (analyzerCallArgs ctx callNode params args n).out.length := by
  intro args
  induction args with
  | nil => intro params n h; rfl
  | cons a rest ih =>
      intro params n h
      cases params with
      | nil => rfl
      | cons p ps =>
          have ha := h a (by simp)
          have hrest := ih ps (n + 1) (fun x hx => h x (by simp [hx]))
          unfold analyzerCallArgs
          simp only [analyzerErrorParamMismatch]
          repeat' split
          all_goals try simp [ha, hrest]
          all_goals try repeat' split
          all_goals try simp [ha, hrest]
          all_goals omega

/-- `analyzerValue` emits exactly as many diagnostic lines as it counts
errors. -/
theorem analyzerValue_errs (ctx : analyzerCtx) :
    ∀ node, (analyzerValue ctx node).errors = (analyzerValue ctx node).out.length := by
  refine ast.sizeInduction _ ?_
  intro node ih
  cases node with
  | mk cls o lc ch l r symb d lit li co =>
    have hl : (analyzerValueOpt ctx l).errors = (analyzerValueOpt ctx l).out.length := by
      cases l with
      | none => rfl
      | some m =>
          have hm := ih m (ast.sizeOf_of_l_some (n := ast.mk cls o lc ch (some m) r symb d lit li co) rfl)
          simpa [analyzerValueOpt] using hm
    have hr : (analyzerValueOpt ctx r).errors = (analyzerValueOpt ctx r).out.length := by
      cases r with
      | none => rfl
      | some m =>
          have hm := ih m (ast.sizeOf_of_r_some (n := ast.mk cls o lc ch l (some m) symb d lit li co) rfl)
          simpa [analyzerValueOpt] using hm
    have hh : (analyzerValueHead ctx ch).errors = (analyzerValueHead ctx ch).out.length := by
      cases ch with
      | nil => rfl
      | cons c rest =>
          have hm := ih c (ast.sizeOf_of_mem_children
            (n := ast.mk cls o lc (c :: rest) l r symb d lit li co) (by simp [ast.children]))
          simpa [analyzerValueHead] using hm
    have hargs : ∀ params n0, (analyzerCallArgs ctx (ast.mk cls o lc ch l r symb d lit li co) params ch n0).errors
        = (analyzerCallArgs ctx (ast.mk cls o lc ch l r symb d lit li co) params ch n0).out.length := by
      intro params n0
      refine analyzerCallArgs_errs ctx _ ch params n0 (fun a ha => ?_)
      exact ih a (ast.sizeOf_of_mem_children
        (n := ast.mk cls o lc ch l r symb d lit li co) (by simpa [ast.children] using ha))
    simp only [analyzerValue]
    repeat' split
    all_goals first
      | exact analyzerBOP_errs _ _ _ _ hl hr
      | exact analyzerComparisonBOP_errs _ _ _ _ hl hr
      | exact analyzerMemberBOP_errs _ _ _ hl
      | exact analyzerCommaBOP_errs _ _ _ hr
      | exact analyzerUOP_errs _ _ _ hr
      | exact analyzerTernary_errs _ _ _ _ _ hh hl hr
      | exact analyzerIndex_errs _ _ _ _ hl hr
      | exact analyzerCall_errs _ _ _ _ hl (hargs _ _)
      | exact analyzerLiteral_errs _ _
      | exact analyzerArrayLiteral_errs _ _ _ hh
      | rfl

theorem analyzerValueOpt_errs (ctx : analyzerCtx) (o : Option ast) :
    (analyzerValueOpt ctx o).errors = (analyzerValueOpt ctx o).out.length := by
  cases o with
  | none => rfl
  | some m => simpa [analyzerValueOpt] using analyzerValue_errs ctx m

theorem analyzerValueHead_errs (ctx : analyzerCtx) (chs : List ast) :
    (analyzerValueHead ctx chs).errors = (analyzerValueHead ctx chs).out.length := by
  cases chs with
  | nil => rfl
  | cons c rest => simpa [analyzerValueHead] using analyzerValue_errs ctx c

/-! statement level -/

theorem analyzerFnImpl_errs (ctx : analyzerCtx) (node : ast) (bres : Option ast × Nat × List String)
    (hB : bres.2.1 = bres.2.2.length) :
    (analyzerFnImpl ctx node bres).errors = (analyzerFnImpl ctx node bres).out.length := by
  unfold analyzerFnImpl analyzerDecl
  repeat' split
  all_goals simp [hB]

theorem analyzerCode_errs (ctx : analyzerCtx) (node : ast) (lsRes : lres)
    (hL : lsRes.errors = lsRes.out.length) :
    (analyzerCode ctx node lsRes).errors = (analyzerCode ctx node lsRes).out.length := by
  unfold analyzerCode
  simp [hL]

theorem analyzerBranch_errs (ctx : analyzerCtx) (node : ast)
    (lRes rRes : Option ast × Nat × List String)
    (hL : lRes.2.1 = lRes.2.2.length) (hR : rRes.2.1 = rRes.2.2.length) :
    (analyzerBranch ctx node lRes rRes).errors = (analyzerBranch ctx node lRes rRes).out.length := by
  unfold analyzerBranch
  simp only [analyzerErrorExpected]
  have hc := analyzerValueHead_errs ctx node.children
  repeat' split
  all_goals try simp [hL, hR, hc]
  all_goals omega

theorem analyzerLoop_errs (ctx : analyzerCtx) (node : ast)
    (codeRes : Option ast × Nat × List String)
    (hC : codeRes.2.1 = codeRes.2.2.length) :
    (analyzerLoop ctx node codeRes).errors = (analyzerLoop ctx node codeRes).out.length := by
  unfold analyzerLoop
  simp only [analyzerErrorExpected]
  have h1 := analyzerValueOpt_errs ctx node.l
  have h2 := analyzerValueOpt_errs ctx node.r
  repeat' split
  all_goals try simp [hC, h1, h2]
  all_goals omega

theorem analyzerIter_errs (ctx : analyzerCtx) (node : ast) (headStmt : lres)
    (codeRes : Option ast × Nat × List String)
    (hH : headStmt.errors = headStmt.out.length)
    (hC : codeRes.2.1 = codeRes.2.2.length) :
    (analyzerIter ctx node headStmt codeRes).errors
      = (analyzerIter ctx node headStmt codeRes).out.length := by
  unfold analyzerIter
  simp only [analyzerErrorExpected]
  repeat' split
  all_goals try simp [hH, hC, analyzerValue_errs]
  all_goals try repeat' split
  all_goals try simp [hH, hC, analyzerValue_errs]
  all_goals omega

theorem analyzerReturn_errs (ctx : analyzerCtx) (node : ast) :
    (analyzerReturn ctx node).errors = (analyzerReturn ctx node).out.length := by
  unfold analyzerReturn
  simp only [analyzerErrorExpectedType, analyzerErrorExpected]
  have h1 := analyzerValueOpt_errs ctx node.r
  repeat' split
  all_goals try simp [h1]
  all_goals omega

theorem analyzerNodeList_errs_of (ctx2 : analyzerCtx) :
    ∀ (chs : List ast),
      (∀ a ∈ chs, (analyzerNode ctx2 a).errors = (analyzerNode ctx2 a).out.length) →
      (analyzerNodeList ctx2 chs).errors = (analyzerNodeList ctx2 chs).out.length := by
  intro chs
  induction chs with
  | nil => intro h; rfl
  | cons c rest ih =>
      intro h
      have hc := h c (by simp)
      have hr := ih (fun x hx => h x (by simp [hx]))
      simp [analyzerNodeList, hc, hr]

theorem analyzerNode_errs (ctx : analyzerCtx) :
    ∀ node, ∀ ctx2 : analyzerCtx, (analyzerNode ctx2 node).errors = (analyzerNode ctx2 node).out.length := by
  refine ast.sizeInduction _ ?_
  intro node ih ctx2
  cases node with
  | mk cls o lc ch l r symb d lit li co =>
    have hlo : ∀ ctx3 : analyzerCtx, (analyzerNodeOpt ctx3 l).2.1 = (analyzerNodeOpt ctx3 l).2.2.length := by
      intro ctx3
      cases l with
      | none => rfl
      | some m =>
          have hm := ih m (ast.sizeOf_of_l_some (n := ast.mk cls o lc ch (some m) r symb d lit li co) rfl) ctx3
          simpa [analyzerNodeOpt] using hm
    have hro : ∀ ctx3 : analyzerCtx, (analyzerNodeOpt ctx3 r).2.1 = (analyzerNodeOpt ctx3 r).2.2.length := by
      intro ctx3
      cases r with
      | none => rfl
      | some m =>
          have hm := ih m (ast.sizeOf_of_r_some (n := ast.mk cls o lc ch l (some m) symb d lit li co) rfl) ctx3
          simpa [analyzerNodeOpt] using hm
    have hls : (analyzerNodeList ctx2 ch).errors = (analyzerNodeList ctx2 ch).out.length := by
      refine analyzerNodeList_errs_of ctx2 ch (fun a ha => ?_)
      exact ih a (ast.sizeOf_of_mem_children
        (n := ast.mk cls o lc ch l r symb d lit li co) (by simpa [ast.children] using ha)) ctx2
    have hhd : (analyzerNodeHead ctx2 ch).errors = (analyzerNodeHead ctx2 ch).out.length := by
      cases ch with
      | nil => rfl
      | cons c rest =>
          have hm := ih c (ast.sizeOf_of_mem_children
            (n := ast.mk cls o lc (c :: rest) l r symb d lit li co) (by simp [ast.children])) ctx2
          simpa [analyzerNodeHead] using hm
    cases cls
    all_goals rw [analyzerNode.eq_1]
    all_goals simp only [beq_iff_eq, reduceCtorEq, reduceIte, if_true, if_false]
    all_goals first
      | rfl
      | exact analyzerFnImpl_errs _ _ _ (hro _)
      | exact analyzerCode_errs _ _ _ hls
      | exact analyzerBranch_errs _ _ _ _ (hlo _) (hro _)
      | (refine analyzerLoop_errs _ _ _ ?_
         split
         · exact hlo _
         · exact hro _)
      | exact analyzerIter_errs _ _ _ _ hhd (hlo _)
      | exact analyzerReturn_errs _ _
      | exact analyzerValue_errs _ _

theorem analyzerNodeList_errs (ctx : analyzerCtx) (chs : List ast) :
    (analyzerNodeList ctx chs).errors = (analyzerNodeList ctx chs).out.length := by
  induction chs with
  | nil => rfl
  | cons c rest ih =>
      simp [analyzerNodeList, analyzerNode_errs ctx c ctx, ih]

theorem analyzerModule_errs (ctx : analyzerCtx) (node : ast) :
    (analyzerModule ctx node).errors = (analyzerModule ctx node).out.length := by
  unfold analyzerModule
  simp [analyzerNodeList_errs]


/-! ## Claim C4 -/

/-- A string's last character is a period. -/
def endsWithPeriod (s : String) : Bool :=
  s.data.getLastD ' ' == '.'

theorem endsWithPeriod_append (s : String) : endsWithPeriod (s ++ ".") = true := by
  unfold endsWithPeriod
  have h : (s ++ ".").data = s.data ++ ['.'] := String.data_append s "."
  rw [h, List.getLastD_concat]
  rfl

/-- For C4: the mismatched call `f(1)` again, at 5:2. -/
def callC4 : ast :=
  .mk .astCall "" .literalInt [intLit] (some (identLit fSym 5 1)) none (some fSym) none "" 5 2

/-- C4, counterexample: claim C4 states every parser AND analyzer
diagnostic line has the exact form `error(LINE:COL): <message>.` ending
with a period.  False for the analyzer: `analyzerError` prints the
message followed by a bare newline (`putchar`), unlike the parser's
`error`, which appends the period with `puts(".")`.  The degree
diagnostic for `f(1)` is a concrete line with no trailing period. -/
theorem C4_counterexample :
    (analyzerValue ctx0 callC4).out = ["error(5:2): 2 parameters expected, 1 given to f"]
      ∧ endsWithPeriod "error(5:2): 2 parameters expected, 1 given to f" = false :=
  ⟨rfl, rfl⟩

/-- C4, amended: every parser diagnostic is one appended line
`error(LINE:COL): <message>.` ending with a period and increments the
error count by exactly one; every analyzer diagnostic is one line
`error(LINE:COL): <message>` — same form but with no trailing period
appended — counted once; and the error count the analyzer returns equals
the number of diagnostic lines it emitted. -/
theorem C4_diagnostic_form_and_count :
    (∀ (pctx : parserCtx) (msg : String),
        (error pctx msg).errors = pctx.errors + 1
          ∧ (error pctx msg).out
              = pctx.out
                ++ ["error(" ++ toString pctx.locLine ++ ":" ++ toString pctx.locCol
                      ++ "): " ++ msg ++ "."]
          ∧ endsWithPeriod ("error(" ++ toString pctx.locLine ++ ":" ++ toString pctx.locCol
                      ++ "): " ++ msg ++ ".") = true)
      ∧ (∀ (nd : Option ast) (msg : String),
            analyzerError nd msg
              = (1, ["error(" ++ toString (astLocLine nd) ++ ":" ++ toString (astLocCol nd)
                       ++ "): " ++ msg]))
      ∧ (∀ (tree : ast) (types : builtins),
            (analyzer tree types).2.1.errors = (analyzer tree types).2.2.length) := by
  refine ⟨fun pctx msg => ⟨rfl, rfl, endsWithPeriod_append _⟩, fun nd msg => rfl,
    fun tree types => ?_⟩
  unfold analyzer
  simp [analyzerModule_errs]




/-! ## Idempotence of the analyzer (C5)

The development below proves that a second analyzer run over the tree
returned by a first run reproduces the first run exactly: the same tree,
the same error count and the same diagnostic lines.  It proceeds
bottom-up: invariants of the value handlers, dispatch lemmas for the
(mutual, structural) dispatchers, idempotence of each handler, and the
two strong-induction masters. -/

/-! ## Setter normalization lemmas (absorption and reordering) -/

@[simp] theorem ast.setChildren_setChildren (n : ast) (x y : List ast) : (n.setChildren x).setChildren y = n.setChildren y := by cases n; rfl

@[simp] theorem ast.setL_setL (n : ast) (x y : Option ast) : (n.setL x).setL y = n.setL y := by cases n; rfl

@[simp] theorem ast.setR_setR (n : ast) (x y : Option ast) : (n.setR x).setR y = n.setR y := by cases n; rfl

@[simp] theorem ast.setSymbol_setSymbol (n : ast) (x y : Option sym) : (n.setSymbol x).setSymbol y = n.setSymbol y := by cases n; rfl

@[simp] theorem ast.setDt_setDt (n : ast) (x y : type) : (n.setDt x).setDt y = n.setDt y := by cases n; rfl

@[simp] theorem ast.setChildren_setL (n : ast) (y : Option ast) (x : List ast) : (n.setL y).setChildren x = (n.setChildren x).setL y := by cases n; rfl

@[simp] theorem ast.setChildren_setR (n : ast) (y : Option ast) (x : List ast) : (n.setR y).setChildren x = (n.setChildren x).setR y := by cases n; rfl

@[simp] theorem ast.setChildren_setSymbol (n : ast) (y : Option sym) (x : List ast) : (n.setSymbol y).setChildren x = (n.setChildren x).setSymbol y := by cases n; rfl

@[simp] theorem ast.setChildren_setDt (n : ast) (y : type) (x : List ast) : (n.setDt y).setChildren x = (n.setChildren x).setDt y := by cases n; rfl

@[simp] theorem ast.setL_setR (n : ast) (y : Option ast) (x : Option ast) : (n.setR y).setL x = (n.setL x).setR y := by cases n; rfl

@[simp] theorem ast.setL_setSymbol (n : ast) (y : Option sym) (x : Option ast) : (n.setSymbol y).setL x = (n.setL x).setSymbol y := by cases n; rfl

@[simp] theorem ast.setL_setDt (n : ast) (y : type) (x : Option ast) : (n.setDt y).setL x = (n.setL x).setDt y := by cases n; rfl

@[simp] theorem ast.setR_setSymbol (n : ast) (y : Option sym) (x : Option ast) : (n.setSymbol y).setR x = (n.setR x).setSymbol y := by cases n; rfl

@[simp] theorem ast.setR_setDt (n : ast) (y : type) (x : Option ast) : (n.setDt y).setR x = (n.setR x).setDt y := by cases n; rfl

@[simp] theorem ast.setSymbol_setDt (n : ast) (y : type) (x : Option sym) : (n.setDt y).setSymbol x = (n.setSymbol x).setDt y := by cases n; rfl


/-! ## Static fields are preserved by expression analysis -/

theorem analyzerBOP_static (ctx : analyzerCtx) (node : ast) (Lr Rr : ores) :
    (analyzerBOP ctx node Lr Rr).node.cls = node.cls
      ∧ (analyzerBOP ctx node Lr Rr).node.o = node.o
      ∧ (analyzerBOP ctx node Lr Rr).node.litCls = node.litCls
      ∧ (analyzerBOP ctx node Lr Rr).node.literal = node.literal
      ∧ (analyzerBOP ctx node Lr Rr).node.line = node.line
      ∧ (analyzerBOP ctx node Lr Rr).node.col = node.col := by
  unfold analyzerBOP
  simp

theorem analyzerComparisonBOP_static (ctx : analyzerCtx) (node : ast) (Lr Rr : ores) :
    (analyzerComparisonBOP ctx node Lr Rr).node.cls = node.cls
      ∧ (analyzerComparisonBOP ctx node Lr Rr).node.o = node.o
      ∧ (analyzerComparisonBOP ctx node Lr Rr).node.litCls = node.litCls
      ∧ (analyzerComparisonBOP ctx node Lr Rr).node.literal = node.literal
      ∧ (analyzerComparisonBOP ctx node Lr Rr).node.line = node.line
      ∧ (analyzerComparisonBOP ctx node Lr Rr).node.col = node.col := by
  unfold analyzerComparisonBOP
  simp

theorem analyzerMemberBOP_static (ctx : analyzerCtx) (node : ast) (Lr : ores) :
    (analyzerMemberBOP ctx node Lr).node.cls = node.cls
      ∧ (analyzerMemberBOP ctx node Lr).node.o = node.o
      ∧ (analyzerMemberBOP ctx node Lr).node.litCls = node.litCls
      ∧ (analyzerMemberBOP ctx node Lr).node.literal = node.literal
      ∧ (analyzerMemberBOP ctx node Lr).node.line = node.line
      ∧ (analyzerMemberBOP ctx node Lr).node.col = node.col := by
  unfold analyzerMemberBOP
  repeat' split
  all_goals simp

theorem analyzerCommaBOP_static (ctx : analyzerCtx) (node : ast) (Rr : ores) :
    (analyzerCommaBOP ctx node Rr).node.cls = node.cls
      ∧ (analyzerCommaBOP ctx node Rr).node.o = node.o
      ∧ (analyzerCommaBOP ctx node Rr).node.litCls = node.litCls
      ∧ (analyzerCommaBOP ctx node Rr).node.literal = node.literal
      ∧ (analyzerCommaBOP ctx node Rr).node.line = node.line
      ∧ (analyzerCommaBOP ctx node Rr).node.col = node.col := by
  unfold analyzerCommaBOP
  simp

theorem analyzerUOP_static (ctx : analyzerCtx) (node : ast) (Rr : ores) :
    (analyzerUOP ctx node Rr).node.cls = node.cls
      ∧ (analyzerUOP ctx node Rr).node.o = node.o
      ∧ (analyzerUOP ctx node Rr).node.litCls = node.litCls
      ∧ (analyzerUOP ctx node Rr).node.literal = node.literal
      ∧ (analyzerUOP ctx node Rr).node.line = node.line
      ∧ (analyzerUOP ctx node Rr).node.col = node.col := by
  unfold analyzerUOP
  simp

theorem analyzerTernary_static (ctx : analyzerCtx) (node : ast) (Cr : hres) (Lr Rr : ores) :
    (analyzerTernary ctx node Cr Lr Rr).node.cls = node.cls
      ∧ (analyzerTernary ctx node Cr Lr Rr).node.o = node.o
      ∧ (analyzerTernary ctx node Cr Lr Rr).node.litCls = node.litCls
      ∧ (analyzerTernary ctx node Cr Lr Rr).node.literal = node.literal
      ∧ (analyzerTernary ctx node Cr Lr Rr).node.line = node.line
      ∧ (analyzerTernary ctx node Cr Lr Rr).node.col = node.col := by
  unfold analyzerTernary
  simp

theorem analyzerIndex_static (ctx : analyzerCtx) (node : ast) (Lr Rr : ores) :
    (analyzerIndex ctx node Lr Rr).node.cls = node.cls
      ∧ (analyzerIndex ctx node Lr Rr).node.o = node.o
      ∧ (analyzerIndex ctx node Lr Rr).node.litCls = node.litCls
      ∧ (analyzerIndex ctx node Lr Rr).node.literal = node.literal
      ∧ (analyzerIndex ctx node Lr Rr).node.line = node.line
      ∧ (analyzerIndex ctx node Lr Rr).node.col = node.col := by
  unfold analyzerIndex
  simp

theorem analyzerCall_static (ctx : analyzerCtx) (node : ast) (Lr : ores) (argsRes : ares) :
    (analyzerCall ctx node Lr argsRes).node.cls = node.cls
      ∧ (analyzerCall ctx node Lr argsRes).node.o = node.o
      ∧ (analyzerCall ctx node Lr argsRes).node.litCls = node.litCls
      ∧ (analyzerCall ctx node Lr argsRes).node.literal = node.literal
      ∧ (analyzerCall ctx node Lr argsRes).node.line = node.line
      ∧ (analyzerCall ctx node Lr argsRes).node.col = node.col
      ∧ (analyzerCall ctx node Lr argsRes).node.symbol = node.symbol
      ∧ (analyzerCall ctx node Lr argsRes).node.l = Lr.node := by
  unfold analyzerCall
  repeat' split
  all_goals try simp
  all_goals repeat' split
  all_goals simp

theorem analyzerLiteral_static (ctx : analyzerCtx) (node : ast) :
    (analyzerLiteral ctx node).node.cls = node.cls
      ∧ (analyzerLiteral ctx node).node.o = node.o
      ∧ (analyzerLiteral ctx node).node.litCls = node.litCls
      ∧ (analyzerLiteral ctx node).node.literal = node.literal
      ∧ (analyzerLiteral ctx node).node.line = node.line
      ∧ (analyzerLiteral ctx node).node.col = node.col := by
  unfold analyzerLiteral
  simp

theorem analyzerArrayLiteral_static (ctx : analyzerCtx) (node : ast) (Hr : hres) :
    (analyzerArrayLiteral ctx node Hr).node.cls = node.cls
      ∧ (analyzerArrayLiteral ctx node Hr).node.o = node.o
      ∧ (analyzerArrayLiteral ctx node Hr).node.litCls = node.litCls
      ∧ (analyzerArrayLiteral ctx node Hr).node.literal = node.literal
      ∧ (analyzerArrayLiteral ctx node Hr).node.line = node.line
      ∧ (analyzerArrayLiteral ctx node Hr).node.col = node.col := by
  unfold analyzerArrayLiteral
  simp

/-- `analyzerValue` never changes the class, operator, literal class,
literal text or location of the node it analyzes. -/
theorem analyzerValue_static (ctx : analyzerCtx) (n : ast) :
    (analyzerValue ctx n).node.cls = n.cls
      ∧ (analyzerValue ctx n).node.o = n.o
      ∧ (analyzerValue ctx n).node.litCls = n.litCls
      ∧ (analyzerValue ctx n).node.literal = n.literal
      ∧ (analyzerValue ctx n).node.line = n.line
      ∧ (analyzerValue ctx n).node.col = n.col := by
  cases n with
  | mk cls o lc ch l r symb d lit li co =>
    simp only [analyzerValue]
    repeat' split
    all_goals first
      | exact analyzerBOP_static _ _ _ _
      | exact analyzerComparisonBOP_static _ _ _ _
      | exact analyzerMemberBOP_static _ _ _
      | exact analyzerCommaBOP_static _ _ _
      | exact analyzerUOP_static _ _ _
      | exact analyzerTernary_static _ _ _ _ _
      | exact analyzerIndex_static _ _ _ _
      | (refine ⟨?_, ?_, ?_, ?_, ?_, ?_⟩
         · exact (analyzerCall_static _ _ _ _).1
         · exact (analyzerCall_static _ _ _ _).2.1
         · exact (analyzerCall_static _ _ _ _).2.2.1
         · exact (analyzerCall_static _ _ _ _).2.2.2.1
         · exact (analyzerCall_static _ _ _ _).2.2.2.2.1
         · exact (analyzerCall_static _ _ _ _).2.2.2.2.2.1)
      | exact analyzerLiteral_static _ _
      | exact analyzerArrayLiteral_static _ _ _
      | simp


/-! ## Operand and child slots after each handler -/

theorem analyzerBOP_fields (ctx : analyzerCtx) (node : ast) (Lr Rr : ores) :
    (analyzerBOP ctx node Lr Rr).node.l = Lr.node
      ∧ (analyzerBOP ctx node Lr Rr).node.r = Rr.node
      ∧ (analyzerBOP ctx node Lr Rr).node.children = node.children
      ∧ (analyzerBOP ctx node Lr Rr).node.symbol = node.symbol := by
  unfold analyzerBOP
  simp

theorem analyzerComparisonBOP_fields (ctx : analyzerCtx) (node : ast) (Lr Rr : ores) :
    (analyzerComparisonBOP ctx node Lr Rr).node.l = Lr.node
      ∧ (analyzerComparisonBOP ctx node Lr Rr).node.r = Rr.node
      ∧ (analyzerComparisonBOP ctx node Lr Rr).node.children = node.children
      ∧ (analyzerComparisonBOP ctx node Lr Rr).node.symbol = node.symbol := by
  unfold analyzerComparisonBOP
  simp

theorem analyzerMemberBOP_fields (ctx : analyzerCtx) (node : ast) (Lr : ores) :
    (analyzerMemberBOP ctx node Lr).node.l = Lr.node
      ∧ (analyzerMemberBOP ctx node Lr).node.r = node.r
      ∧ (analyzerMemberBOP ctx node Lr).node.children = node.children := by
  unfold analyzerMemberBOP
  repeat' split
  all_goals simp

theorem analyzerCommaBOP_fields (ctx : analyzerCtx) (node : ast) (Rr : ores) :
    (analyzerCommaBOP ctx node Rr).node.l = node.l
      ∧ (analyzerCommaBOP ctx node Rr).node.r = Rr.node
      ∧ (analyzerCommaBOP ctx node Rr).node.children = node.children
      ∧ (analyzerCommaBOP ctx node Rr).node.symbol = node.symbol := by
  unfold analyzerCommaBOP
  simp

theorem analyzerUOP_fields (ctx : analyzerCtx) (node : ast) (Rr : ores) :
    (analyzerUOP ctx node Rr).node.l = node.l
      ∧ (analyzerUOP ctx node Rr).node.r = Rr.node
      ∧ (analyzerUOP ctx node Rr).node.children = node.children
      ∧ (analyzerUOP ctx node Rr).node.symbol = node.symbol := by
  unfold analyzerUOP
  simp

theorem analyzerTernary_fields (ctx : analyzerCtx) (node : ast) (Cr : hres) (Lr Rr : ores) :
    (analyzerTernary ctx node Cr Lr Rr).node.l = Lr.node
      ∧ (analyzerTernary ctx node Cr Lr Rr).node.r = Rr.node
      ∧ (analyzerTernary ctx node Cr Lr Rr).node.children = Cr.children
      ∧ (analyzerTernary ctx node Cr Lr Rr).node.symbol = node.symbol := by
  unfold analyzerTernary
  simp

theorem analyzerIndex_fields (ctx : analyzerCtx) (node : ast) (Lr Rr : ores) :
    (analyzerIndex ctx node Lr Rr).node.l = Lr.node
      ∧ (analyzerIndex ctx node Lr Rr).node.r = Rr.node
      ∧ (analyzerIndex ctx node Lr Rr).node.children = node.children
      ∧ (analyzerIndex ctx node Lr Rr).node.symbol = node.symbol := by
  unfold analyzerIndex
  simp

theorem analyzerLiteral_fields (ctx : analyzerCtx) (node : ast) :
    (analyzerLiteral ctx node).node.l = node.l
      ∧ (analyzerLiteral ctx node).node.r = node.r
      ∧ (analyzerLiteral ctx node).node.children = node.children
      ∧ (analyzerLiteral ctx node).node.symbol = node.symbol := by
  unfold analyzerLiteral
  simp

theorem analyzerArrayLiteral_fields (ctx : analyzerCtx) (node : ast) (Hr : hres) :
    (analyzerArrayLiteral ctx node Hr).node.l = node.l
      ∧ (analyzerArrayLiteral ctx node Hr).node.r = node.r
      ∧ (analyzerArrayLiteral ctx node Hr).node.children = Hr.children
      ∧ (analyzerArrayLiteral ctx node Hr).node.symbol = node.symbol := by
  unfold analyzerArrayLiteral
  simp

/-! ## Dispatch lemmas: `analyzerValue` on a node of known class/operator -/

theorem analyzerValue_on_BOPnum (ctx : analyzerCtx) (n : ast)
    (hcls : n.cls = .astBOP)
    (hop : (isNumericBOP n.o || isAssignmentBOP n.o) = true) :
    analyzerValue ctx n
      = analyzerBOP ctx n (analyzerValueOpt ctx n.l) (analyzerValueOpt ctx n.r) := by
  cases n with
  | mk cls o lc ch l r symb d lit li co =>
    simp only [ast.cls] at hcls
    simp only [ast.o] at hop
    subst hcls
    simp only [analyzerValue]
    simp [hop, ast.l, ast.r]

theorem analyzerValue_on_BOPcmp (ctx : analyzerCtx) (n : ast)
    (hcls : n.cls = .astBOP)
    (hop1 : (isNumericBOP n.o || isAssignmentBOP n.o) = false)
    (hop : (isOrdinalBOP n.o || isEqualityBOP n.o) = true) :
    analyzerValue ctx n
      = analyzerComparisonBOP ctx n (analyzerValueOpt ctx n.l) (analyzerValueOpt ctx n.r) := by
  cases n with
  | mk cls o lc ch l r symb d lit li co =>
    simp only [ast.cls] at hcls
    simp only [ast.o] at hop1 hop
    subst hcls
    simp only [analyzerValue]
    simp [hop1, hop, ast.l, ast.r]

theorem analyzerValue_on_member (ctx : analyzerCtx) (n : ast)
    (hcls : n.cls = .astBOP)
    (hop1 : (isNumericBOP n.o || isAssignmentBOP n.o) = false)
    (hop2 : (isOrdinalBOP n.o || isEqualityBOP n.o) = false)
    (hop : isMemberBOP n.o = true) :
    analyzerValue ctx n = analyzerMemberBOP ctx n (analyzerValueOpt ctx n.l) := by
  cases n with
  | mk cls o lc ch l r symb d lit li co =>
    simp only [ast.cls] at hcls
    simp only [ast.o] at hop1 hop2 hop
    subst hcls
    simp only [analyzerValue]
    simp [hop1, hop2, hop, ast.l]

theorem analyzerValue_on_comma (ctx : analyzerCtx) (n : ast)
    (hcls : n.cls = .astBOP)
    (hop1 : (isNumericBOP n.o || isAssignmentBOP n.o) = false)
    (hop2 : (isOrdinalBOP n.o || isEqualityBOP n.o) = false)
    (hop3 : isMemberBOP n.o = false)
    (hop : isCommaBOP n.o = true) :
    analyzerValue ctx n = analyzerCommaBOP ctx n (analyzerValueOpt ctx n.r) := by
  cases n with
  | mk cls o lc ch l r symb d lit li co =>
    simp only [ast.cls] at hcls
    simp only [ast.o] at hop1 hop2 hop3 hop
    subst hcls
    simp only [analyzerValue]
    simp [hop1, hop2, hop3, hop, ast.r]

theorem analyzerValue_on_BOPother (ctx : analyzerCtx) (n : ast)
    (hcls : n.cls = .astBOP)
    (hop1 : (isNumericBOP n.o || isAssignmentBOP n.o) = false)
    (hop2 : (isOrdinalBOP n.o || isEqualityBOP n.o) = false)
    (hop3 : isMemberBOP n.o = false)
    (hop4 : isCommaBOP n.o = false) :
    analyzerValue ctx n = ⟨n.setDt typeCreateInvalid, typeCreateInvalid, 0, []⟩ := by
  cases n with
  | mk cls o lc ch l r symb d lit li co =>
    simp only [ast.cls] at hcls
    simp only [ast.o] at hop1 hop2 hop3 hop4
    subst hcls
    simp only [analyzerValue]
    simp [hop1, hop2, hop3, hop4]

theorem analyzerValue_on_UOP (ctx : analyzerCtx) (n : ast)
    (hcls : n.cls = .astUOP) :
    analyzerValue ctx n = analyzerUOP ctx n (analyzerValueOpt ctx n.r) := by
  cases n with
  | mk cls o lc ch l r symb d lit li co =>
    simp only [ast.cls] at hcls
    subst hcls
    simp only [analyzerValue]
    simp [ast.r]

theorem analyzerValue_on_TOP (ctx : analyzerCtx) (n : ast)
    (hcls : n.cls = .astTOP) :
    analyzerValue ctx n
      = analyzerTernary ctx n (analyzerValueHead ctx n.children)
          (analyzerValueOpt ctx n.l) (analyzerValueOpt ctx n.r) := by
  cases n with
  | mk cls o lc ch l r symb d lit li co =>
    simp only [ast.cls] at hcls
    subst hcls
    simp only [analyzerValue]
    simp [ast.l, ast.r, ast.children]

theorem analyzerValue_on_index (ctx : analyzerCtx) (n : ast)
    (hcls : n.cls = .astIndex) :
    analyzerValue ctx n
      = analyzerIndex ctx n (analyzerValueOpt ctx n.l) (analyzerValueOpt ctx n.r) := by
  cases n with
  | mk cls o lc ch l r symb d lit li co =>
    simp only [ast.cls] at hcls
    subst hcls
    simp only [analyzerValue]
    simp [ast.l, ast.r]

theorem analyzerValue_on_call (ctx : analyzerCtx) (n : ast)
    (hcls : n.cls = .astCall) :
    analyzerValue ctx n
      = analyzerCall ctx n (analyzerValueOpt ctx n.l)
          (analyzerCallArgs ctx n
            (match n.symbol with | some s => s.children | none => []) n.children 0) := by
  cases n with
  | mk cls o lc ch l r symb d lit li co =>
    simp only [ast.cls] at hcls
    subst hcls
    cases symb <;> (simp only [analyzerValue]; simp [ast.l, ast.children, ast.symbol])

theorem analyzerValue_on_litArray (ctx : analyzerCtx) (n : ast)
    (hcls : n.cls = .astLiteral) (hlc : n.litCls = .literalArray) :
    analyzerValue ctx n = analyzerArrayLiteral ctx n (analyzerValueHead ctx n.children) := by
  cases n with
  | mk cls o lc ch l r symb d lit li co =>
    simp only [ast.cls] at hcls
    simp only [ast.litCls] at hlc
    subst hcls
    subst hlc
    simp only [analyzerValue]
    simp [ast.children]

theorem analyzerValue_on_literal (ctx : analyzerCtx) (n : ast)
    (hcls : n.cls = .astLiteral) (hlc : n.litCls ≠ .literalArray) :
    analyzerValue ctx n = analyzerLiteral ctx n := by
  cases n with
  | mk cls o lc ch l r symb d lit li co =>
    simp only [ast.cls] at hcls
    simp only [ast.litCls] at hlc
    subst hcls
    simp only [analyzerValue]
    simp
    intro h
    exact absurd h hlc

theorem analyzerValue_on_invalid (ctx : analyzerCtx) (n : ast)
    (hcls : n.cls = .astInvalid) :
    analyzerValue ctx n = ⟨n.setDt typeCreateInvalid, typeCreateInvalid, 0, []⟩ := by
  cases n with
  | mk cls o lc ch l r symb d lit li co =>
    simp only [ast.cls] at hcls
    subst hcls
    simp only [analyzerValue]
    simp

theorem analyzerValue_on_other (ctx : analyzerCtx) (n : ast)
    (h1 : n.cls ≠ .astBOP) (h2 : n.cls ≠ .astUOP) (h3 : n.cls ≠ .astTOP)
    (h4 : n.cls ≠ .astIndex) (h5 : n.cls ≠ .astCall) (h6 : n.cls ≠ .astLiteral)
    (h7 : n.cls ≠ .astInvalid) :
    analyzerValue ctx n = ⟨n.setDt typeCreateInvalid, typeCreateInvalid, 0, []⟩ := by
  cases n with
  | mk cls o lc ch l r symb d lit li co =>
    simp only [ast.cls] at h1 h2 h3 h4 h5 h6 h7
    simp only [analyzerValue]
    simp [h1, h2, h3, h4, h5, h6, h7]


/-! ## Re-analyzing an analyzed node reproduces the same result -/

theorem analyzerBOP_idem (ctx : analyzerCtx) (node : ast) (Lr Rr : ores) :
    analyzerBOP ctx (analyzerBOP ctx node Lr Rr).node Lr Rr = analyzerBOP ctx node Lr Rr := by
  unfold analyzerBOP analyzerErrorMismatch analyzerErrorOp analyzerError astLocLine astLocCol
  simp
  repeat' split
  all_goals simp_all

theorem analyzerComparisonBOP_idem (ctx : analyzerCtx) (node : ast) (Lr Rr : ores) :
    analyzerComparisonBOP ctx (analyzerComparisonBOP ctx node Lr Rr).node Lr Rr
      = analyzerComparisonBOP ctx node Lr Rr := by
  unfold analyzerComparisonBOP analyzerErrorMismatch analyzerErrorOp analyzerError astLocLine astLocCol
  simp
  repeat' split
  all_goals simp_all

theorem analyzerMemberBOP_idem (ctx : analyzerCtx) (node : ast) (Lr : ores) :
    analyzerMemberBOP ctx (analyzerMemberBOP ctx node Lr).node Lr
      = analyzerMemberBOP ctx node Lr := by
  unfold analyzerMemberBOP analyzerErrorMember analyzerErrorOp analyzerError astLocLine astLocCol
  simp
  repeat' split
  all_goals simp_all

theorem analyzerCommaBOP_idem (ctx : analyzerCtx) (node : ast) (Rr : ores) :
    analyzerCommaBOP ctx (analyzerCommaBOP ctx node Rr).node Rr = analyzerCommaBOP ctx node Rr := by
  unfold analyzerCommaBOP analyzerErrorOp analyzerError astLocLine astLocCol
  simp
  repeat' split
  all_goals simp_all

theorem analyzerUOP_idem (ctx : analyzerCtx) (node : ast) (Rr : ores) :
    analyzerUOP ctx (analyzerUOP ctx node Rr).node Rr = analyzerUOP ctx node Rr := by
  unfold analyzerUOP analyzerErrorOp analyzerError astLocLine astLocCol
  simp
  repeat' split
  all_goals simp_all

theorem analyzerIndex_idem (ctx : analyzerCtx) (node : ast) (Lr Rr : ores) :
    analyzerIndex ctx (analyzerIndex ctx node Lr Rr).node Lr Rr = analyzerIndex ctx node Lr Rr := by
  unfold analyzerIndex analyzerErrorOp analyzerError astLocLine astLocCol
  simp
  repeat' split
  all_goals simp_all

theorem analyzerTernary_idem (ctx : analyzerCtx) (node : ast) (Cr : hres) (Lr Rr : ores)
    (hli : astLocLine Cr.children.head? = astLocLine node.children.head?)
    (hco : astLocCol Cr.children.head? = astLocCol node.children.head?) :
    analyzerTernary ctx (analyzerTernary ctx node Cr Lr Rr).node Cr Lr Rr
      = analyzerTernary ctx node Cr Lr Rr := by
  unfold analyzerTernary analyzerErrorMismatch analyzerErrorOp analyzerError
  simp [hli, hco]
  repeat' split
  all_goals simp_all [astLocLine, astLocCol]

theorem analyzerLiteral_idem (ctx : analyzerCtx) (node : ast) :
    analyzerLiteral ctx (analyzerLiteral ctx node).node = analyzerLiteral ctx node := by
  unfold analyzerLiteral
  simp
  repeat' split
  all_goals simp_all

theorem analyzerArrayLiteral_idem (ctx : analyzerCtx) (node : ast) (Hr : hres)
    (hlen : Hr.children.length = node.children.length) :
    analyzerArrayLiteral ctx (analyzerArrayLiteral ctx node Hr).node Hr
      = analyzerArrayLiteral ctx node Hr := by
  unfold analyzerArrayLiteral
  simp [hlen]

/-! ## The call-argument walk: auxiliary facts -/

theorem analyzerCallArgs_congr (ctx : analyzerCtx) (c1 c2 : ast)
    (hs : c1.symbol = c2.symbol) (hl : c1.line = c2.line) (hc : c1.col = c2.col) :
    ∀ (args : List ast) (params : List sym) (n : Nat),
      analyzerCallArgs ctx c1 params args n = analyzerCallArgs ctx c2 params args n := by
  intro args
  induction args with
  | nil => intro params n; rfl
  | cons a rest ih =>
      intro params n
      cases params with
      | nil => rfl
      | cons p ps =>
          simp only [analyzerCallArgs]
          rw [ih ps (n + 1)]
          unfold analyzerErrorParamMismatch analyzerError astLocLine astLocCol
          simp [hs, hl, hc]

theorem analyzerCallArgs_len (ctx : analyzerCtx) (cN : ast) :
    ∀ (args : List ast) (params : List sym) (n : Nat),
      (analyzerCallArgs ctx cN params args n).children.length = args.length := by
  intro args
  induction args with
  | nil => intro params n; rfl
  | cons a rest ih =>
      intro params n
      cases params with
      | nil => rfl
      | cons p ps =>
          simp only [analyzerCallArgs]
          simp [ih ps (n + 1)]

theorem analyzerCallArgs_idem (ctx : analyzerCtx) (cN : ast) :
    ∀ (args : List ast) (params : List sym) (n : Nat),
      (∀ a ∈ args, analyzerValue ctx (analyzerValue ctx a).node = analyzerValue ctx a) →
      analyzerCallArgs ctx cN params (analyzerCallArgs ctx cN params args n).children n
        = analyzerCallArgs ctx cN params args n := by
  intro args
  induction args with
  | nil => intro params n h; rfl
  | cons a rest ih =>
      intro params n h
      cases params with
      | nil => rfl
      | cons p ps =>
          have ha := h a (by simp)
          have hrest := ih ps (n + 1) (fun x hx => h x (by simp [hx]))
          have hchild : (analyzerCallArgs ctx cN (p :: ps) (a :: rest) n).children
              = (analyzerValue ctx a).node :: (analyzerCallArgs ctx cN ps rest (n + 1)).children := by
            simp only [analyzerCallArgs]
          rw [hchild]
          simp only [analyzerCallArgs]
          rw [ha, hrest]


theorem analyzerCall_idem (ctx : analyzerCtx) (nd : ast) (Lr : ores) (argsRes : ares)
    (hlen : argsRes.children.length = nd.children.length) :
    analyzerCall ctx (analyzerCall ctx nd Lr argsRes).node Lr argsRes
      = analyzerCall ctx nd Lr argsRes := by
  unfold analyzerCall analyzerErrorOp analyzerErrorDegree analyzerError astLocLine astLocCol
  simp
  repeat' split
  all_goals simp_all

/-- Second analysis of a node whose class is handled by the final
(unhandled/default) branch. -/
theorem analyzerValue_idem_other (ctx : analyzerCtx) (n : ast)
    (h1 : n.cls ≠ .astBOP) (h2 : n.cls ≠ .astUOP) (h3 : n.cls ≠ .astTOP)
    (h4 : n.cls ≠ .astIndex) (h5 : n.cls ≠ .astCall) (h6 : n.cls ≠ .astLiteral)
    (h7 : n.cls ≠ .astInvalid) :
    analyzerValue ctx (analyzerValue ctx n).node = analyzerValue ctx n := by
  rw [analyzerValue_on_other ctx n h1 h2 h3 h4 h5 h6 h7]
  rw [analyzerValue_on_other ctx (n.setDt typeCreateInvalid) (by simp [h1]) (by simp [h2])
    (by simp [h3]) (by simp [h4]) (by simp [h5]) (by simp [h6]) (by simp [h7])]
  simp

/-- `analyzerValue` is idempotent: re-running it on the node it produced
gives the same node, the same type, the same error count and the same
diagnostic lines. -/
theorem analyzerValue_idem :
    ∀ (n : ast) (ctx : analyzerCtx),
      analyzerValue ctx (analyzerValue ctx n).node = analyzerValue ctx n := by
  refine ast.sizeInduction (fun n => ∀ ctx : analyzerCtx,
    analyzerValue ctx (analyzerValue ctx n).node = analyzerValue ctx n) ?_
  intro node ih ctx
  cases node with
  | mk cls o lc ch l r symb d lit li co =>
    have hLidem : analyzerValueOpt ctx (analyzerValueOpt ctx l).node = analyzerValueOpt ctx l := by
      cases l with
      | none => rfl
      | some m =>
          have hm := ih m (ast.sizeOf_of_l_some
            (n := ast.mk cls o lc ch (some m) r symb d lit li co) rfl) ctx
          simp [analyzerValueOpt, hm]
    have hRidem : analyzerValueOpt ctx (analyzerValueOpt ctx r).node = analyzerValueOpt ctx r := by
      cases r with
      | none => rfl
      | some m =>
          have hm := ih m (ast.sizeOf_of_r_some
            (n := ast.mk cls o lc ch l (some m) symb d lit li co) rfl) ctx
          simp [analyzerValueOpt, hm]
    have hHidem : analyzerValueHead ctx (analyzerValueHead ctx ch).children
        = analyzerValueHead ctx ch := by
      cases ch with
      | nil => rfl
      | cons c rest =>
          have hm := ih c (ast.sizeOf_of_mem_children
            (n := ast.mk cls o lc (c :: rest) l r symb d lit li co) (by simp [ast.children])) ctx
          simp [analyzerValueHead, hm]
    have hHlen : (analyzerValueHead ctx ch).children.length = ch.length := by
      cases ch with
      | nil => rfl
      | cons c rest => simp [analyzerValueHead]
    have hHline : astLocLine (analyzerValueHead ctx ch).children.head? = astLocLine ch.head? := by
      cases ch with
      | nil => rfl
      | cons c rest =>
          simp [analyzerValueHead, astLocLine, (analyzerValue_static ctx c).2.2.2.2.1]
    have hHcol : astLocCol (analyzerValueHead ctx ch).children.head? = astLocCol ch.head? := by
      cases ch with
      | nil => rfl
      | cons c rest =>
          simp [analyzerValueHead, astLocCol, (analyzerValue_static ctx c).2.2.2.2.2]
    have hmemIdem : ∀ a ∈ ch, analyzerValue ctx (analyzerValue ctx a).node = analyzerValue ctx a := by
      intro a ha
      exact ih a (ast.sizeOf_of_mem_children
        (n := ast.mk cls o lc ch l r symb d lit li co) (by simpa [ast.children] using ha)) ctx
    cases cls
    case astBOP =>
      set nd : ast := ast.mk astClass.astBOP o lc ch l r symb d lit li co with hnd
      have hclsB : nd.cls = astClass.astBOP := by simp [hnd, ast.cls]
      have hoB : nd.o = o := by simp [hnd, ast.o]
      have hlB : nd.l = l := by simp [hnd, ast.l]
      have hrB : nd.r = r := by simp [hnd, ast.r]
      by_cases hnum : (isNumericBOP o || isAssignmentBOP o) = true
      · rw [analyzerValue_on_BOPnum ctx nd hclsB (by simpa [hoB] using hnum)]
        rw [hlB, hrB]
        have hst := analyzerBOP_static ctx nd (analyzerValueOpt ctx l) (analyzerValueOpt ctx r)
        have hfl := analyzerBOP_fields ctx nd (analyzerValueOpt ctx l) (analyzerValueOpt ctx r)
        rw [analyzerValue_on_BOPnum ctx
          (analyzerBOP ctx nd (analyzerValueOpt ctx l) (analyzerValueOpt ctx r)).node
          (by rw [hst.1]; exact hclsB) (by rw [hst.2.1]; simpa [hoB] using hnum)]
        rw [hfl.1, hfl.2.1, hLidem, hRidem]
        exact analyzerBOP_idem ctx nd _ _
      · by_cases hcmp : (isOrdinalBOP o || isEqualityBOP o) = true
        · rw [analyzerValue_on_BOPcmp ctx nd hclsB (by simpa [hoB] using hnum)
            (by simpa [hoB] using hcmp)]
          rw [hlB, hrB]
          have hst := analyzerComparisonBOP_static ctx nd (analyzerValueOpt ctx l)
            (analyzerValueOpt ctx r)
          have hfl := analyzerComparisonBOP_fields ctx nd (analyzerValueOpt ctx l)
            (analyzerValueOpt ctx r)
          rw [analyzerValue_on_BOPcmp ctx
            (analyzerComparisonBOP ctx nd (analyzerValueOpt ctx l) (analyzerValueOpt ctx r)).node
            (by rw [hst.1]; exact hclsB) (by rw [hst.2.1]; simpa [hoB] using hnum)
            (by rw [hst.2.1]; simpa [hoB] using hcmp)]
          rw [hfl.1, hfl.2.1, hLidem, hRidem]
          exact analyzerComparisonBOP_idem ctx nd _ _
        · by_cases hmem : isMemberBOP o = true
          · rw [analyzerValue_on_member ctx nd hclsB (by simpa [hoB] using hnum)
              (by simpa [hoB] using hcmp) (by simpa [hoB] using hmem)]
            rw [hlB]
            have hst := analyzerMemberBOP_static ctx nd (analyzerValueOpt ctx l)
            have hfl := analyzerMemberBOP_fields ctx nd (analyzerValueOpt ctx l)
            rw [analyzerValue_on_member ctx
              (analyzerMemberBOP ctx nd (analyzerValueOpt ctx l)).node
              (by rw [hst.1]; exact hclsB) (by rw [hst.2.1]; simpa [hoB] using hnum)
              (by rw [hst.2.1]; simpa [hoB] using hcmp) (by rw [hst.2.1]; simpa [hoB] using hmem)]
            rw [hfl.1, hLidem]
            exact analyzerMemberBOP_idem ctx nd _
          · by_cases hcom : isCommaBOP o = true
            · rw [analyzerValue_on_comma ctx nd hclsB (by simpa [hoB] using hnum)
                (by simpa [hoB] using hcmp) (by simpa [hoB] using hmem) (by simpa [hoB] using hcom)]
              rw [hrB]
              have hst := analyzerCommaBOP_static ctx nd (analyzerValueOpt ctx r)
              have hfl := analyzerCommaBOP_fields ctx nd (analyzerValueOpt ctx r)
              rw [analyzerValue_on_comma ctx
                (analyzerCommaBOP ctx nd (analyzerValueOpt ctx r)).node
                (by rw [hst.1]; exact hclsB) (by rw [hst.2.1]; simpa [hoB] using hnum)
                (by rw [hst.2.1]; simpa [hoB] using hcmp) (by rw [hst.2.1]; simpa [hoB] using hmem)
                (by rw [hst.2.1]; simpa [hoB] using hcom)]
              rw [hfl.2.1, hRidem]
              exact analyzerCommaBOP_idem ctx nd _
            · rw [analyzerValue_on_BOPother ctx nd hclsB (by simpa [hoB] using hnum)
                (by simpa [hoB] using hcmp) (by simpa [hoB] using hmem) (by simpa [hoB] using hcom)]
              rw [analyzerValue_on_BOPother ctx (nd.setDt typeCreateInvalid)
                (by simp [hclsB]) (by simpa [hoB] using hnum) (by simpa [hoB] using hcmp)
                (by simpa [hoB] using hmem) (by simpa [hoB] using hcom)]
              simp
    case astUOP =>
      set nd : ast := ast.mk astClass.astUOP o lc ch l r symb d lit li co with hnd
      have hclsB : nd.cls = astClass.astUOP := by simp [hnd, ast.cls]
      have hrB : nd.r = r := by simp [hnd, ast.r]
      rw [analyzerValue_on_UOP ctx nd hclsB]
      rw [hrB]
      have hst := analyzerUOP_static ctx nd (analyzerValueOpt ctx r)
      have hfl := analyzerUOP_fields ctx nd (analyzerValueOpt ctx r)
      rw [analyzerValue_on_UOP ctx (analyzerUOP ctx nd (analyzerValueOpt ctx r)).node
        (by rw [hst.1]; exact hclsB)]
      rw [hfl.2.1, hRidem]
      exact analyzerUOP_idem ctx nd _
    case astTOP =>
      set nd : ast := ast.mk astClass.astTOP o lc ch l r symb d lit li co with hnd
      have hclsB : nd.cls = astClass.astTOP := by simp [hnd, ast.cls]
      have hlB : nd.l = l := by simp [hnd, ast.l]
      have hrB : nd.r = r := by simp [hnd, ast.r]
      have hchB : nd.children = ch := by simp [hnd, ast.children]
      rw [analyzerValue_on_TOP ctx nd hclsB]
      rw [hlB, hrB, hchB]
      have hst := analyzerTernary_static ctx nd (analyzerValueHead ctx ch)
        (analyzerValueOpt ctx l) (analyzerValueOpt ctx r)
      have hfl := analyzerTernary_fields ctx nd (analyzerValueHead ctx ch)
        (analyzerValueOpt ctx l) (analyzerValueOpt ctx r)
      rw [analyzerValue_on_TOP ctx
        (analyzerTernary ctx nd (analyzerValueHead ctx ch) (analyzerValueOpt ctx l)
          (analyzerValueOpt ctx r)).node
        (by rw [hst.1]; exact hclsB)]
      rw [hfl.1, hfl.2.1, hfl.2.2.1, hLidem, hRidem, hHidem]
      refine analyzerTernary_idem ctx nd _ _ _ ?_ ?_
      · rw [hchB]
        exact hHline
      · rw [hchB]
        exact hHcol
    case astIndex =>
      set nd : ast := ast.mk astClass.astIndex o lc ch l r symb d lit li co with hnd
      have hclsB : nd.cls = astClass.astIndex := by simp [hnd, ast.cls]
      have hlB : nd.l = l := by simp [hnd, ast.l]
      have hrB : nd.r = r := by simp [hnd, ast.r]
      rw [analyzerValue_on_index ctx nd hclsB]
      rw [hlB, hrB]
      have hst := analyzerIndex_static ctx nd (analyzerValueOpt ctx l) (analyzerValueOpt ctx r)
      have hfl := analyzerIndex_fields ctx nd (analyzerValueOpt ctx l) (analyzerValueOpt ctx r)
      rw [analyzerValue_on_index ctx
        (analyzerIndex ctx nd (analyzerValueOpt ctx l) (analyzerValueOpt ctx r)).node
        (by rw [hst.1]; exact hclsB)]
      rw [hfl.1, hfl.2.1, hLidem, hRidem]
      exact analyzerIndex_idem ctx nd _ _
    case astLiteral =>
      set nd : ast := ast.mk astClass.astLiteral o lc ch l r symb d lit li co with hnd
      have hclsB : nd.cls = astClass.astLiteral := by simp [hnd, ast.cls]
      have hlcB : nd.litCls = lc := by simp [hnd, ast.litCls]
      have hchB : nd.children = ch := by simp [hnd, ast.children]
      by_cases harr : lc = .literalArray
      · rw [analyzerValue_on_litArray ctx nd hclsB (by rw [hlcB]; exact harr)]
        rw [hchB]
        have hst := analyzerArrayLiteral_static ctx nd (analyzerValueHead ctx ch)
        have hfl := analyzerArrayLiteral_fields ctx nd (analyzerValueHead ctx ch)
        rw [analyzerValue_on_litArray ctx
          (analyzerArrayLiteral ctx nd (analyzerValueHead ctx ch)).node
          (by rw [hst.1]; exact hclsB) (by rw [hst.2.2.1, hlcB]; exact harr)]
        rw [hfl.2.2.1, hHidem]
        refine analyzerArrayLiteral_idem ctx nd _ ?_
        rw [hchB]
        exact hHlen
      · rw [analyzerValue_on_literal ctx nd hclsB (by rw [hlcB]; exact harr)]
        have hst := analyzerLiteral_static ctx nd
        rw [analyzerValue_on_literal ctx (analyzerLiteral ctx nd).node
          (by rw [hst.1]; exact hclsB) (by rw [hst.2.2.1, hlcB]; exact harr)]
        exact analyzerLiteral_idem ctx nd
    case astInvalid =>
      set nd : ast := ast.mk astClass.astInvalid o lc ch l r symb d lit li co with hnd
      have hclsB : nd.cls = astClass.astInvalid := by simp [hnd, ast.cls]
      rw [analyzerValue_on_invalid ctx nd hclsB]
      rw [analyzerValue_on_invalid ctx (nd.setDt typeCreateInvalid) (by simp [hclsB])]
      simp
    case astCall =>
      cases symb with
      | none =>
          set nd : ast := ast.mk astClass.astCall o lc ch l r (none : Option sym) d lit li co with hnd
          have hclsB : nd.cls = astClass.astCall := by simp [hnd, ast.cls]
          have hlB : nd.l = l := by simp [hnd, ast.l]
          have hchB : nd.children = ch := by simp [hnd, ast.children]
          have hsyB : nd.symbol = (none : Option sym) := by simp [hnd, ast.symbol]
          rw [analyzerValue_on_call ctx nd hclsB]
          simp only [hlB, hchB, hsyB]
          set Lr0 : ores := analyzerValueOpt ctx l with hLr0
          set args0 : ares := analyzerCallArgs ctx nd ([] : List sym) ch 0 with hargs0
          have hst := analyzerCall_static ctx nd Lr0 args0
          have hlen : args0.children.length = nd.children.length := by
            rw [hargs0, analyzerCallArgs_len, hchB]
          rw [analyzerValue_on_call ctx (analyzerCall ctx nd Lr0 args0).node
            (by rw [hst.1]; exact hclsB)]
          rw [hst.2.2.2.2.2.2.2, hLidem]
          simp only [hst.2.2.2.2.2.2.1, hsyB]
          rw [analyzerCallArgs_congr ctx (analyzerCall ctx nd Lr0 args0).node nd
            (by rw [hst.2.2.2.2.2.2.1]) (by rw [hst.2.2.2.2.1]) (by rw [hst.2.2.2.2.2.1])]
          by_cases hc1 : (!typeIsCallable Lr0.dt) = true
          · have hch2 : (analyzerCall ctx nd Lr0 args0).node.children = nd.children := by
              unfold analyzerCall
              simp [hc1]
            rw [hch2, hchB, ← hargs0]
            exact analyzerCall_idem ctx nd Lr0 args0 hlen
          · by_cases hc2 : ((if typeIsPtr Lr0.dt = true then Lr0.dt.base.params
                  else Lr0.dt.params) != nd.children.length) = true
            · have hch2 : (analyzerCall ctx nd Lr0 args0).node.children = nd.children := by
                unfold analyzerCall
                simp only [hc1, Bool.false_eq_true, if_false]
                simp [hc2]
              rw [hch2, hchB, ← hargs0]
              exact analyzerCall_idem ctx nd Lr0 args0 hlen
            · have hch2 : (analyzerCall ctx nd Lr0 args0).node.children = args0.children := by
                unfold analyzerCall
                simp only [hc1, Bool.false_eq_true, if_false]
                simp [hc2]
              rw [hch2, hargs0, analyzerCallArgs_idem ctx nd ch ([] : List sym) 0 hmemIdem, ← hargs0]
              exact analyzerCall_idem ctx nd Lr0 args0 hlen
      | some fs =>
          set nd : ast := ast.mk astClass.astCall o lc ch l r (some fs) d lit li co with hnd
          have hclsB : nd.cls = astClass.astCall := by simp [hnd, ast.cls]
          have hlB : nd.l = l := by simp [hnd, ast.l]
          have hchB : nd.children = ch := by simp [hnd, ast.children]
          have hsyB : nd.symbol = (some fs) := by simp [hnd, ast.symbol]
          rw [analyzerValue_on_call ctx nd hclsB]
          simp only [hlB, hchB, hsyB]
          set Lr0 : ores := analyzerValueOpt ctx l with hLr0
          set args0 : ares := analyzerCallArgs ctx nd fs.children ch 0 with hargs0
          have hst := analyzerCall_static ctx nd Lr0 args0
          have hlen : args0.children.length = nd.children.length := by
            rw [hargs0, analyzerCallArgs_len, hchB]
          rw [analyzerValue_on_call ctx (analyzerCall ctx nd Lr0 args0).node
            (by rw [hst.1]; exact hclsB)]
          rw [hst.2.2.2.2.2.2.2, hLidem]
          simp only [hst.2.2.2.2.2.2.1, hsyB]
          rw [analyzerCallArgs_congr ctx (analyzerCall ctx nd Lr0 args0).node nd
            (by rw [hst.2.2.2.2.2.2.1]) (by rw [hst.2.2.2.2.1]) (by rw [hst.2.2.2.2.2.1])]
          by_cases hc1 : (!typeIsCallable Lr0.dt) = true
          · have hch2 : (analyzerCall ctx nd Lr0 args0).node.children = nd.children := by
              unfold analyzerCall
              simp [hc1]
            rw [hch2, hchB, ← hargs0]
            exact analyzerCall_idem ctx nd Lr0 args0 hlen
          · by_cases hc2 : ((if typeIsPtr Lr0.dt = true then Lr0.dt.base.params
                  else Lr0.dt.params) != nd.children.length) = true
            · have hch2 : (analyzerCall ctx nd Lr0 args0).node.children = nd.children := by
                unfold analyzerCall
                simp only [hc1, Bool.false_eq_true, if_false]
                simp [hc2]
              rw [hch2, hchB, ← hargs0]
              exact analyzerCall_idem ctx nd Lr0 args0 hlen
            · have hch2 : (analyzerCall ctx nd Lr0 args0).node.children = args0.children := by
                unfold analyzerCall
                simp only [hc1, Bool.false_eq_true, if_false]
                simp [hc2]
              rw [hch2, hargs0, analyzerCallArgs_idem ctx nd ch fs.children 0 hmemIdem, ← hargs0]
              exact analyzerCall_idem ctx nd Lr0 args0 hlen
    all_goals
      exact analyzerValue_idem_other ctx _ (by simp [ast.cls]) (by simp [ast.cls])
        (by simp [ast.cls]) (by simp [ast.cls]) (by simp [ast.cls]) (by simp [ast.cls])
        (by simp [ast.cls])


/-! ## Statement-level helper lemmas -/

theorem ast.setL_l (n : ast) : n.setL n.l = n := by cases n; rfl

theorem ast.setR_r (n : ast) : n.setR n.r = n := by cases n; rfl

theorem ast.setChildren_children (n : ast) : n.setChildren n.children = n := by cases n; rfl

/-- A diagnostic depends on its node argument only through the printed
location. -/
theorem analyzerError_congr (n1 n2 : Option ast) (m : String)
    (hl : astLocLine n1 = astLocLine n2) (hc : astLocCol n1 = astLocCol n2) :
    analyzerError n1 m = analyzerError n2 m := by
  unfold analyzerError
  rw [hl, hc]

theorem analyzerErrorExpected_congr (n1 n2 : Option ast) (w e : String) (f : type)
    (hl : astLocLine n1 = astLocLine n2) (hc : astLocCol n1 = astLocCol n2) :
    analyzerErrorExpected n1 w e f = analyzerErrorExpected n2 w e f := by
  unfold analyzerErrorExpected
  exact analyzerError_congr n1 n2 _ hl hc

theorem analyzerErrorExpectedType_congr (n1 n2 : Option ast) (w : String) (e f : type)
    (hl : astLocLine n1 = astLocLine n2) (hc : astLocCol n1 = astLocCol n2) :
    analyzerErrorExpectedType n1 w e f = analyzerErrorExpectedType n2 w e f := by
  unfold analyzerErrorExpectedType
  exact analyzerErrorExpected_congr n1 n2 _ _ _ hl hc

theorem ast.cls_mk (c : astClass) (o : String) (lc : literalClass) (ch : List ast)
    (l r : Option ast) (s : Option sym) (d : Option type) (lit : String) (li co : Nat) :
    (ast.mk c o lc ch l r s d lit li co).cls = c := rfl

theorem analyzerValue_node_cls (ctx : analyzerCtx) (n : ast) :
    (analyzerValue ctx n).node.cls = n.cls :=
  (analyzerValue_static ctx n).1

theorem analyzerValue_node_line (ctx : analyzerCtx) (n : ast) :
    (analyzerValue ctx n).node.line = n.line :=
  (analyzerValue_static ctx n).2.2.2.2.1

theorem analyzerValue_node_col (ctx : analyzerCtx) (n : ast) :
    (analyzerValue ctx n).node.col = n.col :=
  (analyzerValue_static ctx n).2.2.2.2.2

theorem analyzerValueOpt_line (ctx : analyzerCtx) (o : Option ast) :
    astLocLine (analyzerValueOpt ctx o).node = astLocLine o := by
  cases o with
  | none => rfl
  | some m => simp [analyzerValueOpt, astLocLine, analyzerValue_node_line]

theorem analyzerValueOpt_col (ctx : analyzerCtx) (o : Option ast) :
    astLocCol (analyzerValueOpt ctx o).node = astLocCol o := by
  cases o with
  | none => rfl
  | some m => simp [analyzerValueOpt, astLocCol, analyzerValue_node_col]

theorem analyzerValueOpt_idem (ctx : analyzerCtx) (o : Option ast) :
    analyzerValueOpt ctx (analyzerValueOpt ctx o).node = analyzerValueOpt ctx o := by
  cases o with
  | none => rfl
  | some m => simp [analyzerValueOpt, analyzerValue_idem]

theorem analyzerValueHead_idem (ctx : analyzerCtx) (ch : List ast) :
    analyzerValueHead ctx (analyzerValueHead ctx ch).children = analyzerValueHead ctx ch := by
  cases ch with
  | nil => rfl
  | cons c rest => simp [analyzerValueHead, analyzerValue_idem]

theorem analyzerValueHead_line (ctx : analyzerCtx) (ch : List ast) :
    astLocLine (analyzerValueHead ctx ch).children.head? = astLocLine ch.head? := by
  cases ch with
  | nil => rfl
  | cons c rest => simp [analyzerValueHead, astLocLine, analyzerValue_node_line]

theorem analyzerValueHead_col (ctx : analyzerCtx) (ch : List ast) :
    astLocCol (analyzerValueHead ctx ch).children.head? = astLocCol ch.head? := by
  cases ch with
  | nil => rfl
  | cons c rest => simp [analyzerValueHead, astLocCol, analyzerValue_node_col]

/-- The statement walk never changes the class of the node it returns. -/
theorem analyzerNode_static (ctx : analyzerCtx) (n : ast) :
    (analyzerNode ctx n).node.cls = n.cls := by
  cases n with
  | mk cls o lc ch l r symb d lit li co =>
    cases cls <;>
      (rw [analyzerNode.eq_1];
       simp only [beq_iff_eq, reduceCtorEq, reduceIte, if_true, if_false, astIsValueClass])
    all_goals
      simp [analyzerFnImpl, analyzerDeclStruct, analyzerDecl, analyzerCode, analyzerBranch,
        analyzerLoop, analyzerIter, analyzerReturn, analyzerValue_node_cls, ast.cls_mk]


/-! ## Dispatch lemmas for `analyzerNode` -/

theorem analyzerNode_on_module (ctx : analyzerCtx) (n : ast) (hcls : n.cls = .astModule) :
    analyzerNode ctx n = ⟨n, 0, []⟩ := by
  cases n with
  | mk cls o lc ch l r symb d lit li co =>
    simp only [ast.cls_mk] at hcls
    subst hcls
    rw [analyzerNode.eq_1]
    simp [astIsValueClass]

theorem analyzerNode_on_struct (ctx : analyzerCtx) (n : ast) (hcls : n.cls = .astStruct) :
    analyzerNode ctx n = ⟨n, 0, []⟩ := by
  cases n with
  | mk cls o lc ch l r symb d lit li co =>
    simp only [ast.cls_mk] at hcls
    subst hcls
    rw [analyzerNode.eq_1]
    simp [astIsValueClass]

theorem analyzerNode_on_union (ctx : analyzerCtx) (n : ast) (hcls : n.cls = .astUnion) :
    analyzerNode ctx n = ⟨n, 0, []⟩ := by
  cases n with
  | mk cls o lc ch l r symb d lit li co =>
    simp only [ast.cls_mk] at hcls
    subst hcls
    rw [analyzerNode.eq_1]
    simp [astIsValueClass]

theorem analyzerNode_on_empty (ctx : analyzerCtx) (n : ast) (hcls : n.cls = .astEmpty) :
    analyzerNode ctx n = ⟨n, 0, []⟩ := by
  cases n with
  | mk cls o lc ch l r symb d lit li co =>
    simp only [ast.cls_mk] at hcls
    subst hcls
    rw [analyzerNode.eq_1]
    simp

theorem analyzerNode_on_invalid (ctx : analyzerCtx) (n : ast) (hcls : n.cls = .astInvalid) :
    analyzerNode ctx n = ⟨n, 0, []⟩ := by
  cases n with
  | mk cls o lc ch l r symb d lit li co =>
    simp only [ast.cls_mk] at hcls
    subst hcls
    rw [analyzerNode.eq_1]
    simp

theorem analyzerNode_on_break (ctx : analyzerCtx) (n : ast) (hcls : n.cls = .astBreak) :
    analyzerNode ctx n = ⟨n, 0, []⟩ := by
  cases n with
  | mk cls o lc ch l r symb d lit li co =>
    simp only [ast.cls_mk] at hcls
    subst hcls
    rw [analyzerNode.eq_1]
    simp

theorem analyzerNode_on_fnImpl (ctx : analyzerCtx) (n : ast) (hcls : n.cls = .astFnImpl) :
    analyzerNode ctx n
      = analyzerFnImpl ctx n
          (analyzerNodeOpt { ctx with returnType := fnImplReturnType n } n.r) := by
  cases n with
  | mk cls o lc ch l r symb d lit li co =>
    simp only [ast.cls_mk] at hcls
    subst hcls
    rw [analyzerNode.eq_1]
    simp [ast.r]

theorem analyzerNode_on_declStruct (ctx : analyzerCtx) (n : ast) (hcls : n.cls = .astDeclStruct) :
    analyzerNode ctx n = analyzerDeclStruct ctx n := by
  cases n with
  | mk cls o lc ch l r symb d lit li co =>
    simp only [ast.cls_mk] at hcls
    subst hcls
    rw [analyzerNode.eq_1]
    simp

theorem analyzerNode_on_decl (ctx : analyzerCtx) (n : ast) (hcls : n.cls = .astDecl) :
    analyzerNode ctx n = analyzerDecl ctx n := by
  cases n with
  | mk cls o lc ch l r symb d lit li co =>
    simp only [ast.cls_mk] at hcls
    subst hcls
    rw [analyzerNode.eq_1]
    simp

theorem analyzerNode_on_code (ctx : analyzerCtx) (n : ast) (hcls : n.cls = .astCode) :
    analyzerNode ctx n = analyzerCode ctx n (analyzerNodeList ctx n.children) := by
  cases n with
  | mk cls o lc ch l r symb d lit li co =>
    simp only [ast.cls_mk] at hcls
    subst hcls
    rw [analyzerNode.eq_1]
    simp [ast.children]

theorem analyzerNode_on_branch (ctx : analyzerCtx) (n : ast) (hcls : n.cls = .astBranch) :
    analyzerNode ctx n
      = analyzerBranch ctx n (analyzerNodeOpt ctx n.l) (analyzerNodeOpt ctx n.r) := by
  cases n with
  | mk cls o lc ch l r symb d lit li co =>
    simp only [ast.cls_mk] at hcls
    subst hcls
    rw [analyzerNode.eq_1]
    simp [ast.l, ast.r]

theorem analyzerNode_on_loop (ctx : analyzerCtx) (n : ast) (hcls : n.cls = .astLoop) :
    analyzerNode ctx n
      = analyzerLoop ctx n
          (if loopIsDo n then analyzerNodeOpt ctx n.l else analyzerNodeOpt ctx n.r) := by
  cases n with
  | mk cls o lc ch l r symb d lit li co =>
    simp only [ast.cls_mk] at hcls
    subst hcls
    rw [analyzerNode.eq_1]
    simp [ast.l, ast.r]

theorem analyzerNode_on_iter (ctx : analyzerCtx) (n : ast) (hcls : n.cls = .astIter) :
    analyzerNode ctx n
      = analyzerIter ctx n (analyzerNodeHead ctx n.children) (analyzerNodeOpt ctx n.l) := by
  cases n with
  | mk cls o lc ch l r symb d lit li co =>
    simp only [ast.cls_mk] at hcls
    subst hcls
    rw [analyzerNode.eq_1]
    simp [ast.l, ast.children]

theorem analyzerNode_on_return (ctx : analyzerCtx) (n : ast) (hcls : n.cls = .astReturn) :
    analyzerNode ctx n = analyzerReturn ctx n := by
  cases n with
  | mk cls o lc ch l r symb d lit li co =>
    simp only [ast.cls_mk] at hcls
    subst hcls
    rw [analyzerNode.eq_1]
    simp

theorem analyzerNode_on_value (ctx : analyzerCtx) (n : ast)
    (hv : astIsValueClass n.cls = true) :
    analyzerNode ctx n
      = ⟨(analyzerValue ctx n).node, (analyzerValue ctx n).errors, (analyzerValue ctx n).out⟩ := by
  cases n with
  | mk cls o lc ch l r symb d lit li co =>
    simp only [ast.cls_mk] at hv
    cases cls
    all_goals first
      | exact absurd hv (by decide)
      | (rw [analyzerNode.eq_1]; simp [astIsValueClass])


/-! ## Idempotence of the statement handlers -/

theorem analyzerFnImpl_eq (ctx : analyzerCtx) (node : ast)
    (bres : Option ast × Nat × List String) :
    analyzerFnImpl ctx node bres = ⟨node.setR bres.1, bres.2.1, bres.2.2⟩ := by
  cases node with
  | mk cls o lc ch l r symb d lit li co =>
    cases l <;> simp [analyzerFnImpl, analyzerDecl, ast.setL, ast.setR, ast.l]

theorem analyzerNodeList_idem_of (ctx : analyzerCtx) :
    ∀ (chs : List ast),
      (∀ a ∈ chs, analyzerNode ctx (analyzerNode ctx a).node = analyzerNode ctx a) →
      analyzerNodeList ctx (analyzerNodeList ctx chs).children = analyzerNodeList ctx chs := by
  intro chs
  induction chs with
  | nil => intro h; rfl
  | cons a rest ihh =>
      intro h
      have ha := h a (by simp)
      have hr := ihh (fun b hb => h b (List.mem_cons_of_mem _ hb))
      simp only [analyzerNodeList] at *
      simp [ha, hr]

theorem analyzerReturn_idem (ctx : analyzerCtx) (node : ast) :
    analyzerReturn ctx (analyzerReturn ctx node).node = analyzerReturn ctx node := by
  unfold analyzerReturn
  simp only [ast.r_setR]
  rw [analyzerValueOpt_idem]
  rw [analyzerErrorExpectedType_congr ((analyzerValueOpt ctx node.r).node) (node.r) "return"
    ctx.returnType (analyzerValueOpt ctx node.r).dt
    (analyzerValueOpt_line ctx node.r) (analyzerValueOpt_col ctx node.r)]
  simp

theorem analyzerBranch_idem (ctx : analyzerCtx) (node : ast)
    (lRes rRes : Option ast × Nat × List String) :
    analyzerBranch ctx (analyzerBranch ctx node lRes rRes).node lRes rRes
      = analyzerBranch ctx node lRes rRes := by
  unfold analyzerBranch
  simp only [ast.children_setR, ast.children_setL, ast.children_setChildren,
    ast.l_setR, ast.l_setL, ast.r_setR]
  rw [analyzerValueHead_idem]
  rw [analyzerErrorExpected_congr ((analyzerValueHead ctx node.children).children.head?)
    (node.children.head?) "if" "condition" (analyzerValueHead ctx node.children).dt
    (analyzerValueHead_line ctx node.children) (analyzerValueHead_col ctx node.children)]
  simp

theorem analyzerLoop_eq_do (ctx : analyzerCtx) (node : ast)
    (codeRes : Option ast × Nat × List String) (hdo : loopIsDo node = true) :
    analyzerLoop ctx node codeRes =
      ⟨(node.setL codeRes.1).setR (analyzerValueOpt ctx node.r).node,
       (analyzerValueOpt ctx node.r).errors
         + (if !typeIsCondition (analyzerValueOpt ctx node.r).dt then
              analyzerErrorExpected node.r "do loop" "condition" (analyzerValueOpt ctx node.r).dt
            else (0, [])).1
         + codeRes.2.1,
       (analyzerValueOpt ctx node.r).out
         ++ (if !typeIsCondition (analyzerValueOpt ctx node.r).dt then
              analyzerErrorExpected node.r "do loop" "condition" (analyzerValueOpt ctx node.r).dt
            else (0, [])).2
         ++ codeRes.2.2⟩ := by
  unfold analyzerLoop
  simp [hdo]

theorem analyzerLoop_eq_nondo (ctx : analyzerCtx) (node : ast)
    (codeRes : Option ast × Nat × List String) (hdo : loopIsDo node = false) :
    analyzerLoop ctx node codeRes =
      ⟨(node.setL (analyzerValueOpt ctx node.l).node).setR codeRes.1,
       (analyzerValueOpt ctx node.l).errors
         + (if !typeIsCondition (analyzerValueOpt ctx node.l).dt then
              analyzerErrorExpected node.l "do loop" "condition" (analyzerValueOpt ctx node.l).dt
            else (0, [])).1
         + codeRes.2.1,
       (analyzerValueOpt ctx node.l).out
         ++ (if !typeIsCondition (analyzerValueOpt ctx node.l).dt then
              analyzerErrorExpected node.l "do loop" "condition" (analyzerValueOpt ctx node.l).dt
            else (0, [])).2
         ++ codeRes.2.2⟩ := by
  unfold analyzerLoop
  simp [hdo]


/-- The init-slot computation of analyzer.c `analyzerIter` (lines
247..257), factored out for the idempotence proofs; `analyzerIter_cons`
proves the factoring against `analyzerIter`. -/
def iterInitRes (ctx : analyzerCtx) (init : ast) (headStmt : lres) : ast × Nat × List String :=
  if init.cls == .astDecl then
    match headStmt.children with
    | i :: _ => (i, headStmt.errors, headStmt.out)
    | [] => (init, 0, [])
  else if init.cls != .astEmpty then
    let r := analyzerValue ctx init
    (r.node, r.errors, r.out)
  else (init, 0, [])

/-- The cond-slot computation of analyzer.c `analyzerIter` (lines
259..266), factored out for the idempotence proofs. -/
def iterCondRes (ctx : analyzerCtx) (cond : ast) : ast × Nat × List String :=
  if cond.cls != .astEmpty then
    let r := analyzerValue ctx cond
    let chk : Nat × List String :=
      if !typeIsCondition r.dt then
        analyzerErrorExpected (some cond) "for loop" "condition" r.dt
      else (0, [])
    (r.node, r.errors + chk.1, r.out ++ chk.2)
  else (cond, 0, [])

/-- The iter-slot computation of analyzer.c `analyzerIter` (lines
268..271), factored out for the idempotence proofs. -/
def iterIterRes (ctx : analyzerCtx) (iter0 : ast) : ast × Nat × List String :=
  if iter0.cls != .astEmpty then
    let r := analyzerValue ctx iter0
    (r.node, r.errors, r.out)
  else (iter0, 0, [])

/-- `analyzerIter` on a header with fewer than the three for-header
children leaves the header unwalked. -/
theorem analyzerIter_short (ctx : analyzerCtx) (node : ast) (headStmt : lres)
    (codeRes : Option ast × Nat × List String)
    (hlen : node.children.length < 3) :
    analyzerIter ctx node headStmt codeRes
      = ⟨node.setL codeRes.1, codeRes.2.1, codeRes.2.2⟩ := by
  unfold analyzerIter
  rcases h : node.children with _ | ⟨a, _ | ⟨b, _ | ⟨c, rest⟩⟩⟩
  · simp only [h]
    rw [← h]
    simp [ast.setChildren_children]
  · simp only [h]
    rw [← h]
    simp [ast.setChildren_children]
  · simp only [h]
    rw [← h]
    simp [ast.setChildren_children]
  · rw [h] at hlen
    simp only [List.length_cons] at hlen
    omega

/-- `analyzerIter` on a full three-slot header, in terms of the factored
slot computations. -/
theorem analyzerIter_cons (ctx : analyzerCtx) (node init cond it3 : ast) (rest : List ast)
    (headStmt : lres) (codeRes : Option ast × Nat × List String)
    (hch : node.children = init :: cond :: it3 :: rest) :
    analyzerIter ctx node headStmt codeRes
      = ⟨(node.setChildren
            ((iterInitRes ctx init headStmt).1 :: (iterCondRes ctx cond).1
              :: (iterIterRes ctx it3).1 :: rest)).setL codeRes.1,
         (iterInitRes ctx init headStmt).2.1 + (iterCondRes ctx cond).2.1
           + (iterIterRes ctx it3).2.1 + codeRes.2.1,
         (iterInitRes ctx init headStmt).2.2 ++ (iterCondRes ctx cond).2.2
           ++ (iterIterRes ctx it3).2.2 ++ codeRes.2.2⟩ := by
  unfold analyzerIter iterInitRes iterCondRes iterIterRes
  rw [hch]

theorem iterCondRes_idem (ctx : analyzerCtx) (cond : ast) :
    iterCondRes ctx (iterCondRes ctx cond).1 = iterCondRes ctx cond := by
  unfold iterCondRes
  by_cases hE : (cond.cls != astClass.astEmpty) = true
  · simp only [hE, if_true, analyzerValue_node_cls, analyzerValue_idem]
    rw [analyzerErrorExpected_congr (some (analyzerValue ctx cond).node) (some cond)
      "for loop" "condition" (analyzerValue ctx cond).dt
      (by simp [astLocLine, analyzerValue_node_line])
      (by simp [astLocCol, analyzerValue_node_col])]
  · simp [hE]

theorem iterIterRes_idem (ctx : analyzerCtx) (it3 : ast) :
    iterIterRes ctx (iterIterRes ctx it3).1 = iterIterRes ctx it3 := by
  unfold iterIterRes
  by_cases hE : (it3.cls != astClass.astEmpty) = true
  · simp only [hE, if_true, analyzerValue_node_cls, analyzerValue_idem]
  · simp [hE]

theorem iterInitRes_idem (ctx : analyzerCtx) (init : ast) (t1 t2 : List ast)
    (hidem : analyzerNode ctx (analyzerNode ctx init).node = analyzerNode ctx init)
    (hvidem : analyzerValue ctx (analyzerValue ctx init).node = analyzerValue ctx init) :
    iterInitRes ctx (iterInitRes ctx init (analyzerNodeHead ctx (init :: t1))).1
        (analyzerNodeHead ctx
          ((iterInitRes ctx init (analyzerNodeHead ctx (init :: t1))).1 :: t2))
      = iterInitRes ctx init (analyzerNodeHead ctx (init :: t1)) := by
  unfold iterInitRes
  by_cases hD : (init.cls == astClass.astDecl) = true
  · simp [hD, analyzerNodeHead, analyzerNode_static, hidem]
  · by_cases hE : (init.cls != astClass.astEmpty) = true
    · simp [hD, hE, analyzerNodeHead, analyzerValue_node_cls, hvidem]
    · simp [hD, hE, analyzerNodeHead]

/-- Second statement walk of a non-do loop node, given the two loop-shape
facts and the idempotence of the body walk. -/
theorem analyzerLoop_idem_nondo (ctx : analyzerCtx) (nd : ast)
    (codeRes : Option ast × Nat × List String)
    (hcls : nd.cls = .astLoop)
    (hIsDo : loopIsDo nd = false)
    (hdo2 : loopIsDo ((nd.setL (analyzerValueOpt ctx nd.l).node).setR codeRes.1) = false)
    (hcode2 : analyzerNodeOpt ctx codeRes.1 = codeRes) :
    analyzerNode ctx (analyzerLoop ctx nd codeRes).node = analyzerLoop ctx nd codeRes := by
  rw [analyzerLoop_eq_nondo ctx nd codeRes hIsDo]
  rw [analyzerNode_on_loop ctx ((nd.setL (analyzerValueOpt ctx nd.l).node).setR codeRes.1)
    (by simp [hcls])]
  rw [if_neg (by simp [hdo2])]
  simp only [ast.r_setR]
  rw [hcode2]
  rw [analyzerLoop_eq_nondo ctx ((nd.setL (analyzerValueOpt ctx nd.l).node).setR codeRes.1)
    codeRes hdo2]
  simp only [ast.l_setR, ast.l_setL]
  rw [analyzerValueOpt_idem]
  rw [analyzerErrorExpected_congr ((analyzerValueOpt ctx nd.l).node) (nd.l)
    "do loop" "condition" (analyzerValueOpt ctx nd.l).dt
    (analyzerValueOpt_line ctx nd.l) (analyzerValueOpt_col ctx nd.l)]
  simp

/-- Second statement walk of a do loop node. -/
theorem analyzerLoop_idem_do (ctx : analyzerCtx) (nd : ast)
    (codeRes : Option ast × Nat × List String)
    (hcls : nd.cls = .astLoop)
    (hIsDo : loopIsDo nd = true)
    (hdo2 : loopIsDo ((nd.setL codeRes.1).setR (analyzerValueOpt ctx nd.r).node) = true)
    (hcode2 : analyzerNodeOpt ctx codeRes.1 = codeRes) :
    analyzerNode ctx (analyzerLoop ctx nd codeRes).node = analyzerLoop ctx nd codeRes := by
  rw [analyzerLoop_eq_do ctx nd codeRes hIsDo]
  rw [analyzerNode_on_loop ctx ((nd.setL codeRes.1).setR (analyzerValueOpt ctx nd.r).node)
    (by simp [hcls])]
  rw [if_pos hdo2]
  simp only [ast.l_setR, ast.l_setL]
  rw [hcode2]
  rw [analyzerLoop_eq_do ctx ((nd.setL codeRes.1).setR (analyzerValueOpt ctx nd.r).node)
    codeRes hdo2]
  simp only [ast.r_setR]
  rw [analyzerValueOpt_idem]
  rw [analyzerErrorExpected_congr ((analyzerValueOpt ctx nd.r).node) (nd.r)
    "do loop" "condition" (analyzerValueOpt ctx nd.r).dt
    (analyzerValueOpt_line ctx nd.r) (analyzerValueOpt_col ctx nd.r)]
  simp


/-- The statement walk is idempotent: a second `analyzerNode` run on the
tree returned by a first run returns the same tree, the same error count
and the same diagnostic lines. -/
theorem analyzerNode_idem :
    ∀ (n : ast) (ctx : analyzerCtx),
      analyzerNode ctx (analyzerNode ctx n).node = analyzerNode ctx n := by
  refine ast.sizeInduction (fun n => ∀ ctx : analyzerCtx,
    analyzerNode ctx (analyzerNode ctx n).node = analyzerNode ctx n) ?_
  intro node ih ctx
  cases node with
  | mk cls o lc ch l r symb d lit li co =>
    have hLidem : ∀ ctx2 : analyzerCtx,
        analyzerNodeOpt ctx2 (analyzerNodeOpt ctx2 l).1 = analyzerNodeOpt ctx2 l := by
      intro ctx2
      cases l with
      | none => rfl
      | some m =>
          have hm := ih m (ast.sizeOf_of_l_some
            (n := ast.mk cls o lc ch (some m) r symb d lit li co) rfl) ctx2
          simp [analyzerNodeOpt, hm]
    have hRidem : ∀ ctx2 : analyzerCtx,
        analyzerNodeOpt ctx2 (analyzerNodeOpt ctx2 r).1 = analyzerNodeOpt ctx2 r := by
      intro ctx2
      cases r with
      | none => rfl
      | some m =>
          have hm := ih m (ast.sizeOf_of_r_some
            (n := ast.mk cls o lc ch l (some m) symb d lit li co) rfl) ctx2
          simp [analyzerNodeOpt, hm]
    have hmemIdem : ∀ a ∈ ch, analyzerNode ctx (analyzerNode ctx a).node = analyzerNode ctx a := by
      intro a ha
      exact ih a (ast.sizeOf_of_mem_children
        (n := ast.mk cls o lc ch l r symb d lit li co) (by simpa [ast.children] using ha)) ctx
    cases cls
    case astModule =>
      rw [analyzerNode_on_module ctx (ast.mk astClass.astModule o lc ch l r symb d lit li co) rfl]
      exact analyzerNode_on_module ctx _ rfl
    case astStruct =>
      rw [analyzerNode_on_struct ctx (ast.mk astClass.astStruct o lc ch l r symb d lit li co) rfl]
      exact analyzerNode_on_struct ctx _ rfl
    case astUnion =>
      rw [analyzerNode_on_union ctx (ast.mk astClass.astUnion o lc ch l r symb d lit li co) rfl]
      exact analyzerNode_on_union ctx _ rfl
    case astEmpty =>
      rw [analyzerNode_on_empty ctx (ast.mk astClass.astEmpty o lc ch l r symb d lit li co) rfl]
      exact analyzerNode_on_empty ctx _ rfl
    case astInvalid =>
      rw [analyzerNode_on_invalid ctx (ast.mk astClass.astInvalid o lc ch l r symb d lit li co) rfl]
      exact analyzerNode_on_invalid ctx _ rfl
    case astBreak =>
      rw [analyzerNode_on_break ctx (ast.mk astClass.astBreak o lc ch l r symb d lit li co) rfl]
      exact analyzerNode_on_break ctx _ rfl
    case astDecl =>
      rw [analyzerNode_on_decl ctx (ast.mk astClass.astDecl o lc ch l r symb d lit li co) rfl]
      exact analyzerNode_on_decl ctx _ rfl
    case astDeclStruct =>
      rw [analyzerNode_on_declStruct ctx
        (ast.mk astClass.astDeclStruct o lc ch l r symb d lit li co) rfl]
      exact analyzerNode_on_declStruct ctx _ rfl
    case astReturn =>
      set nd : ast := ast.mk astClass.astReturn o lc ch l r symb d lit li co with hnd
      have hclsB : nd.cls = astClass.astReturn := by simp [hnd, ast.cls_mk]
      rw [analyzerNode_on_return ctx nd hclsB]
      rw [analyzerNode_on_return ctx (analyzerReturn ctx nd).node
        (by unfold analyzerReturn; simp [hclsB])]
      exact analyzerReturn_idem ctx nd
    case astFnImpl =>
      set nd : ast := ast.mk astClass.astFnImpl o lc ch l r symb d lit li co with hnd
      have hclsB : nd.cls = astClass.astFnImpl := by simp [hnd, ast.cls_mk]
      have hrB : nd.r = r := by simp [hnd, ast.r]
      rw [analyzerNode_on_fnImpl ctx nd hclsB, hrB]
      set ctx2 : analyzerCtx := { ctx with returnType := fnImplReturnType nd } with hctx2
      set bres := analyzerNodeOpt ctx2 r with hbres
      rw [analyzerFnImpl_eq ctx nd bres]
      rw [analyzerNode_on_fnImpl ctx (nd.setR bres.1) (by simp [hclsB])]
      have hrt : fnImplReturnType (nd.setR bres.1) = fnImplReturnType nd := by
        unfold fnImplReturnType
        rw [ast.symbol_setR]
      rw [hrt, ← hctx2, ast.r_setR]
      have hb2 : analyzerNodeOpt ctx2 bres.1 = bres := by
        rw [hbres]
        exact hRidem ctx2
      rw [hb2, analyzerFnImpl_eq]
      simp
    case astCode =>
      set nd : ast := ast.mk astClass.astCode o lc ch l r symb d lit li co with hnd
      have hclsB : nd.cls = astClass.astCode := by simp [hnd, ast.cls_mk]
      have hchB : nd.children = ch := by simp [hnd, ast.children]
      rw [analyzerNode_on_code ctx nd hclsB, hchB]
      set ls := analyzerNodeList ctx ch with hls
      have hcls2 : (analyzerCode ctx nd ls).node.cls = astClass.astCode := by
        simp [analyzerCode, hclsB]
      rw [analyzerNode_on_code ctx (analyzerCode ctx nd ls).node hcls2]
      have hch2 : (analyzerCode ctx nd ls).node.children = ls.children := by
        simp [analyzerCode]
      rw [hch2]
      have hls2 : analyzerNodeList ctx ls.children = ls := by
        rw [hls]
        exact analyzerNodeList_idem_of ctx ch hmemIdem
      rw [hls2]
      simp [analyzerCode]
    case astBranch =>
      set nd : ast := ast.mk astClass.astBranch o lc ch l r symb d lit li co with hnd
      have hclsB : nd.cls = astClass.astBranch := by simp [hnd, ast.cls_mk]
      have hlB : nd.l = l := by simp [hnd, ast.l]
      have hrB : nd.r = r := by simp [hnd, ast.r]
      rw [analyzerNode_on_branch ctx nd hclsB, hlB, hrB]
      set Lb := analyzerNodeOpt ctx l with hLb
      set Rb := analyzerNodeOpt ctx r with hRb
      have hcls2 : (analyzerBranch ctx nd Lb Rb).node.cls = astClass.astBranch := by
        unfold analyzerBranch
        simp [hclsB]
      rw [analyzerNode_on_branch ctx (analyzerBranch ctx nd Lb Rb).node hcls2]
      have hl2 : (analyzerBranch ctx nd Lb Rb).node.l = Lb.1 := by
        unfold analyzerBranch
        simp
      have hr2 : (analyzerBranch ctx nd Lb Rb).node.r = Rb.1 := by
        unfold analyzerBranch
        simp
      rw [hl2, hr2]
      have hbL : analyzerNodeOpt ctx Lb.1 = Lb := by
        rw [hLb]
        exact hLidem ctx
      have hbR : analyzerNodeOpt ctx Rb.1 = Rb := by
        rw [hRb]
        exact hRidem ctx
      rw [hbL, hbR]
      exact analyzerBranch_idem ctx nd Lb Rb
    case astLoop =>
      cases l with
      | none =>
          set nd : ast := ast.mk astClass.astLoop o lc ch none r symb d lit li co with hnd
          have hclsB : nd.cls = astClass.astLoop := by simp [hnd, ast.cls_mk]
          have hlB : nd.l = none := by simp [hnd, ast.l]
          have hrB : nd.r = r := by simp [hnd, ast.r]
          have hIsDo : loopIsDo nd = false := by simp [loopIsDo, hlB]
          rw [analyzerNode_on_loop ctx nd hclsB, if_neg (by simp [hIsDo]), hrB]
          set codeRes := analyzerNodeOpt ctx r with hcode
          refine analyzerLoop_idem_nondo ctx nd codeRes hclsB hIsDo ?_ ?_
          · simp [loopIsDo, hlB, analyzerValueOpt]
          · rw [hcode]
            exact hRidem ctx
      | some body =>
          by_cases hbody : (body.cls == astClass.astCode) = true
          · set nd : ast := ast.mk astClass.astLoop o lc ch (some body) r symb d lit li co with hnd
            have hclsB : nd.cls = astClass.astLoop := by simp [hnd, ast.cls_mk]
            have hlB : nd.l = some body := by simp [hnd, ast.l]
            have hrB : nd.r = r := by simp [hnd, ast.r]
            have hIsDo : loopIsDo nd = true := by simp [loopIsDo, hlB, hbody]
            rw [analyzerNode_on_loop ctx nd hclsB, if_pos hIsDo, hlB]
            set codeRes := analyzerNodeOpt ctx (some body) with hcode
            refine analyzerLoop_idem_do ctx nd codeRes hclsB hIsDo ?_ ?_
            · rw [hcode]
              simp [loopIsDo, analyzerNodeOpt, analyzerNode_static, hbody]
            · rw [hcode]
              exact hLidem ctx
          · set nd : ast := ast.mk astClass.astLoop o lc ch (some body) r symb d lit li co with hnd
            have hclsB : nd.cls = astClass.astLoop := by simp [hnd, ast.cls_mk]
            have hlB : nd.l = some body := by simp [hnd, ast.l]
            have hrB : nd.r = r := by simp [hnd, ast.r]
            have hIsDo : loopIsDo nd = false := by
              simp only [loopIsDo, hlB]
              simp [hbody]
            rw [analyzerNode_on_loop ctx nd hclsB, if_neg (by simp [hIsDo]), hrB]
            set codeRes := analyzerNodeOpt ctx r with hcode
            refine analyzerLoop_idem_nondo ctx nd codeRes hclsB hIsDo ?_ ?_
            · simp only [loopIsDo, hlB, analyzerValueOpt]
              simp [ast.l_setR, ast.l_setL, analyzerValue_node_cls, hbody]
            · rw [hcode]
              exact hRidem ctx
    case astIter =>
      by_cases hlen : ch.length < 3
      · set nd : ast := ast.mk astClass.astIter o lc ch l r symb d lit li co with hnd
        have hclsB : nd.cls = astClass.astIter := by simp [hnd, ast.cls_mk]
        have hchB : nd.children = ch := by simp [hnd, ast.children]
        have hlB : nd.l = l := by simp [hnd, ast.l]
        rw [analyzerNode_on_iter ctx nd hclsB, hchB, hlB]
        set codeRes := analyzerNodeOpt ctx l with hcode
        have hcode2 : analyzerNodeOpt ctx codeRes.1 = codeRes := by
          rw [hcode]
          exact hLidem ctx
        rw [analyzerIter_short ctx nd (analyzerNodeHead ctx ch) codeRes
          (by rw [hchB]; exact hlen)]
        rw [analyzerNode_on_iter ctx (nd.setL codeRes.1) (by simp [hclsB])]
        simp only [ast.children_setL, ast.l_setL]
        rw [hchB, hcode2]
        rw [analyzerIter_short ctx (nd.setL codeRes.1) (analyzerNodeHead ctx ch) codeRes
          (by simp [hchB]; exact hlen)]
        simp
      · rcases ch with _ | ⟨init, _ | ⟨cond, _ | ⟨it3, rest⟩⟩⟩
        · simp at hlen
        · simp at hlen
        · simp at hlen
        · set nd : ast := ast.mk astClass.astIter o lc (init :: cond :: it3 :: rest) l r symb d lit li co with hnd
          have hclsB : nd.cls = astClass.astIter := by simp [hnd, ast.cls_mk]
          have hchB : nd.children = init :: cond :: it3 :: rest := by simp [hnd, ast.children]
          have hlB : nd.l = l := by simp [hnd, ast.l]
          rw [analyzerNode_on_iter ctx nd hclsB, hchB, hlB]
          set codeRes := analyzerNodeOpt ctx l with hcode
          have hcode2 : analyzerNodeOpt ctx codeRes.1 = codeRes := by
            rw [hcode]
            exact hLidem ctx
          rw [analyzerIter_cons ctx nd init cond it3 rest
            (analyzerNodeHead ctx (init :: cond :: it3 :: rest)) codeRes hchB]
          set A := iterInitRes ctx init (analyzerNodeHead ctx (init :: cond :: it3 :: rest)) with hA
          set B := iterCondRes ctx cond with hB
          set C := iterIterRes ctx it3 with hC
          rw [analyzerNode_on_iter ctx
            ((nd.setChildren (A.1 :: B.1 :: C.1 :: rest)).setL codeRes.1) (by simp [hclsB])]
          simp only [ast.children_setL, ast.children_setChildren, ast.l_setL]
          rw [hcode2]
          rw [analyzerIter_cons ctx ((nd.setChildren (A.1 :: B.1 :: C.1 :: rest)).setL codeRes.1)
            A.1 B.1 C.1 rest (analyzerNodeHead ctx (A.1 :: B.1 :: C.1 :: rest)) codeRes (by simp)]
          rw [hA, hB, hC]
          rw [iterInitRes_idem ctx init (cond :: it3 :: rest)
            ((iterCondRes ctx cond).1 :: (iterIterRes ctx it3).1 :: rest)
            (hmemIdem init (by simp)) (analyzerValue_idem init ctx)]
          rw [iterCondRes_idem ctx cond, iterIterRes_idem ctx it3]
          simp
    case astBOP =>
      rw [analyzerNode_on_value ctx (ast.mk astClass.astBOP o lc ch l r symb d lit li co)
        (by rw [ast.cls_mk]; decide)]
      rw [analyzerNode_on_value ctx
        (analyzerValue ctx (ast.mk astClass.astBOP o lc ch l r symb d lit li co)).node
        (by rw [analyzerValue_node_cls, ast.cls_mk]; decide)]
      rw [analyzerValue_idem]
    case astUOP =>
      rw [analyzerNode_on_value ctx (ast.mk astClass.astUOP o lc ch l r symb d lit li co)
        (by rw [ast.cls_mk]; decide)]
      rw [analyzerNode_on_value ctx
        (analyzerValue ctx (ast.mk astClass.astUOP o lc ch l r symb d lit li co)).node
        (by rw [analyzerValue_node_cls, ast.cls_mk]; decide)]
      rw [analyzerValue_idem]
    case astTOP =>
      rw [analyzerNode_on_value ctx (ast.mk astClass.astTOP o lc ch l r symb d lit li co)
        (by rw [ast.cls_mk]; decide)]
      rw [analyzerNode_on_value ctx
        (analyzerValue ctx (ast.mk astClass.astTOP o lc ch l r symb d lit li co)).node
        (by rw [analyzerValue_node_cls, ast.cls_mk]; decide)]
      rw [analyzerValue_idem]
    case astIndex =>
      rw [analyzerNode_on_value ctx (ast.mk astClass.astIndex o lc ch l r symb d lit li co)
        (by rw [ast.cls_mk]; decide)]
      rw [analyzerNode_on_value ctx
        (analyzerValue ctx (ast.mk astClass.astIndex o lc ch l r symb d lit li co)).node
        (by rw [analyzerValue_node_cls, ast.cls_mk]; decide)]
      rw [analyzerValue_idem]
    case astCall =>
      rw [analyzerNode_on_value ctx (ast.mk astClass.astCall o lc ch l r symb d lit li co)
        (by rw [ast.cls_mk]; decide)]
      rw [analyzerNode_on_value ctx
        (analyzerValue ctx (ast.mk astClass.astCall o lc ch l r symb d lit li co)).node
        (by rw [analyzerValue_node_cls, ast.cls_mk]; decide)]
      rw [analyzerValue_idem]
    case astLiteral =>
      rw [analyzerNode_on_value ctx (ast.mk astClass.astLiteral o lc ch l r symb d lit li co)
        (by rw [ast.cls_mk]; decide)]
      rw [analyzerNode_on_value ctx
        (analyzerValue ctx (ast.mk astClass.astLiteral o lc ch l r symb d lit li co)).node
        (by rw [analyzerValue_node_cls, ast.cls_mk]; decide)]
      rw [analyzerValue_idem]


/-- The module walk is idempotent. -/
theorem analyzerModule_idem (ctx : analyzerCtx) (node : ast) :
    analyzerModule ctx (analyzerModule ctx node).node = analyzerModule ctx node := by
  unfold analyzerModule
  simp only [ast.children_setChildren]
  rw [analyzerNodeList_idem_of ctx node.children (fun a ha => analyzerNode_idem a ctx)]
  simp

/-- C5: running the analyzer a second time on the tree returned by a
first run returns that same tree (hence the same `dt` on every node), the
same diagnostics and the same error count, so the total number of errors
over the two runs is exactly double that of one run. -/
theorem C5_second_run_same_tree_doubles_errors (tree : ast) (types : builtins) :
    analyzer (analyzer tree types).1 types = analyzer tree types
      ∧ (analyzer tree types).2.1.errors + (analyzer (analyzer tree types).1 types).2.1.errors
          = 2 * (analyzer tree types).2.1.errors := by
  have h := analyzerModule_idem ⟨types, typeCreateInvalid⟩ tree
  unfold analyzer
  constructor
  · simp [h]
  · simp [h]
    omega


/-! ## Claim C6 -/

theorem member_not_other_classes (o : String) (h : isMemberBOP o = true) :
    isNumericBOP o = false ∧ isAssignmentBOP o = false
      ∧ isOrdinalBOP o = false ∧ isEqualityBOP o = false := by
  unfold isMemberBOP at h
  simp only [Bool.or_eq_true, beq_iff_eq] at h
  rcases h with h | h <;> subst h <;> exact ⟨rfl, rfl, rfl, rfl⟩

/-- C6, confirmed: for every member-access BOP node (`.` or `->`) with a
field-name literal in `r`: (1) one `operatorRequires` diagnostic is
emitted exactly when the left operand's analyzed type fails the
operator's requirement — Pointer whose base is a Record for `->`, Record
for `.`; (2) the node's type is Invalid when no field symbol was found —
with exactly one `errorMember` diagnostic — and a deep clone of the
found field symbol's type otherwise; and (3) whenever the left operand
has the required shape with defining record symbol `recS`, the stored
field symbol is the `symChild` lookup of the field name among `recS`'s
children. -/
theorem C6_member_lookup_and_type (ctx : analyzerCtx) (node : ast) (recS : sym) (rn : ast)
    (hcls : node.cls = .astBOP) (ho : isMemberBOP node.o = true)
    (hr : node.r = some rn) :
    (analyzerValue ctx node).errors
        = (analyzerValueOpt ctx node.l).errors
          + (if isDerefBOP node.o then
               (if !typeIsPtr (analyzerValueOpt ctx node.l).dt then 1
                else if !typeIsRecord (analyzerValueOpt ctx node.l).dt.base then 1 else 0)
             else (if !typeIsRecord (analyzerValueOpt ctx node.l).dt then 1 else 0))
          + (match (analyzerValue ctx node).node.symbol with | some _ => 0 | none => 1)
      ∧ (analyzerValue ctx node).dt
          = (match (analyzerValue ctx node).node.symbol with
             | some f => typeDeepDuplicate f.dt
             | none => typeCreateInvalid)
      ∧ (analyzerValue ctx node).node.dt = some (analyzerValue ctx node).dt
      ∧ ((if isDerefBOP node.o = true
          then (analyzerValueOpt ctx node.l).dt = .ptr (.basic recS)
          else (analyzerValueOpt ctx node.l).dt = .basic recS) →
           (analyzerValue ctx node).node.symbol = symChild recS rn.literal) := by
  obtain ⟨hn, ha, hoo, he⟩ := member_not_other_classes node.o ho
  rw [analyzerValue_on_member ctx node hcls (by simp [hn, ha]) (by simp [hoo, he]) ho]
  unfold analyzerMemberBOP
  rw [hr]
  simp only [ast.symbol_setDt, ast.symbol_setSymbol, ast.dt_setDt]
  refine ⟨?_, ?_, ?_, ?_⟩
  · repeat' split
    all_goals simp_all [analyzerErrorOp, analyzerErrorMember, analyzerError]
  · repeat' split
    all_goals simp_all
  · trivial
  · intro hrec
    by_cases hd : isDerefBOP node.o = true
    · rw [if_pos hd] at hrec
      rw [hrec]
      simp [hd, typeIsPtr, typeIsBasic, type.base, type.basicField]
    · rw [if_neg hd] at hrec
      rw [hrec]
      simp [hd, typeIsPtr, typeIsBasic, type.base, type.basicField]

/-- For C6's witness: `struct S { int a; }`, a variable `s : S`, and the
access `s.b` to an absent field. -/
def structSymC6 : sym := ⟨.symStruct, "S", .invalid, [⟨.symId, "a", .basic intSym, []⟩]⟩

def sVarC6 : sym := ⟨.symId, "s", .basic structSymC6, []⟩

def fieldLitC6 : ast := .mk .astLiteral "" .literalIdent [] none none none none "b" 1 4

def memberC6 : ast :=
  .mk .astBOP "." .literalInt [] (some (identLit sVarC6 1 1)) (some fieldLitC6) none none "" 1 2

/-- For C6's witness, an ill-shaped access: `1 . b` — the left operand is
`int`, not a record, so the operator-requirement diagnostic fires in
addition to the failed lookup. -/
def badMemberC6 : ast :=
  .mk .astBOP "." .literalInt [] (some intLit) (some fieldLitC6) none none "" 3 2

/-- C6, witness: `s.b` with `b` absent from `S` — the requirement holds
(no operator diagnostic), the lookup fails, one diagnostic is emitted and
the recorded type is Invalid; and `1 . b` — the operand is not a record,
so the operator diagnostic fires too, for two diagnostics in total. -/
theorem C6_witness :
    memberC6.cls = .astBOP
      ∧ isMemberBOP memberC6.o = true
      ∧ symChild structSymC6 fieldLitC6.literal = none
      ∧ (analyzerValue ctx0 memberC6).node.symbol = symChild structSymC6 fieldLitC6.literal
      ∧ (analyzerValue ctx0 memberC6).errors = 1
      ∧ (analyzerValue ctx0 memberC6).dt = typeCreateInvalid
      ∧ typeIsRecord (analyzerValueOpt ctx0 badMemberC6.l).dt = false
      ∧ (analyzerValue ctx0 badMemberC6).errors = 2 :=
  ⟨rfl, rfl, rfl,
   (C6_member_lookup_and_type ctx0 memberC6 structSymC6 fieldLitC6 rfl rfl rfl).2.2.2
     (show (analyzerValueOpt ctx0 memberC6.l).dt = .basic structSymC6 from rfl),
   ((C6_member_lookup_and_type ctx0 memberC6 structSymC6 fieldLitC6 rfl rfl rfl).1).trans rfl,
   ((C6_member_lookup_and_type ctx0 memberC6 structSymC6 fieldLitC6 rfl rfl rfl).2.1).trans rfl,
   rfl,
   ((C6_member_lookup_and_type ctx0 badMemberC6 structSymC6 fieldLitC6 rfl rfl rfl).1).trans rfl⟩

/-! ## Claim C7 -/

/-- C7, confirmed: for every Return statement node the analyzer compares
the analyzed type of the returned expression — Invalid when the
expression is absent — against the enclosing `returnType` with
`typeIsCompatible`, and emits exactly one `errorExpectedType` diagnostic
exactly when they are incompatible. -/
theorem C7_return_checks_compatibility (ctx : analyzerCtx) (node : ast)
    (hcls : node.cls = .astReturn) :
    (analyzerNode ctx node).errors
        = (analyzerValueOpt ctx node.r).errors
          + (if typeIsCompatible (analyzerValueOpt ctx node.r).dt ctx.returnType then 0 else 1)
      ∧ (analyzerNode ctx node).out
          = (analyzerValueOpt ctx node.r).out
            ++ (if typeIsCompatible (analyzerValueOpt ctx node.r).dt ctx.returnType then []
                else (analyzerErrorExpectedType node.r "return" ctx.returnType
                        (analyzerValueOpt ctx node.r).dt).2)
      ∧ (node.r = none → (analyzerValueOpt ctx node.r).dt = typeCreateInvalid) := by
  rw [analyzerNode_on_return ctx node hcls]
  unfold analyzerReturn
  refine ⟨?_, ?_, ?_⟩
  · by_cases hcp : typeIsCompatible (analyzerValueOpt ctx node.r).dt ctx.returnType = true
    · simp [hcp]
    · simp [hcp, analyzerErrorExpectedType, analyzerErrorExpected, analyzerError]
  · by_cases hcp : typeIsCompatible (analyzerValueOpt ctx node.r).dt ctx.returnType = true
    · simp [hcp]
    · simp [hcp]
  · intro h
    rw [h]
    rfl

/-- The analyzer context inside a function returning `int` (used by the
C7 and C10 witnesses). -/
def ctxInt : analyzerCtx := ⟨builtins0, .basic intSym⟩

/-- For C7's witness: `return f;` inside a function returning `int`,
where `f` is the binary int function — a function type is incompatible
with `int`. -/
def returnC7 : ast :=
  .mk .astReturn "" .literalInt [] none (some (identLit fSym 5 3)) none none "" 5 1

/-- C7, witness: `return f;` against returnType `int` — the types are
incompatible and exactly one diagnostic is emitted. -/
theorem C7_witness :
    returnC7.cls = .astReturn
      ∧ typeIsCompatible (analyzerValueOpt ctxInt returnC7.r).dt ctxInt.returnType = false
      ∧ (analyzerNode ctxInt returnC7).errors = 1
      ∧ (analyzerNode ctxInt returnC7).out.length = 1 :=
  ⟨rfl, rfl,
   ((C7_return_checks_compatibility ctxInt returnC7 rfl).1).trans rfl,
   by rw [(C7_return_checks_compatibility ctxInt returnC7 rfl).2.1]; rfl⟩

/-! ## Claim C8 -/

theorem comma_not_other_classes (o : String) (h : isCommaBOP o = true) :
    isNumericBOP o = false ∧ isAssignmentBOP o = false
      ∧ isOrdinalBOP o = false ∧ isEqualityBOP o = false ∧ isMemberBOP o = false := by
  unfold isCommaBOP at h
  simp only [beq_iff_eq] at h
  subst h
  exact ⟨rfl, rfl, rfl, rfl, rfl⟩

/-- C8, confirmed: for every comma BOP node only the right-hand side is
checked: a right-hand type that is void *and not Invalid* yields exactly
one diagnostic and result type Invalid; otherwise — in particular for an
Invalid right-hand side, which the handler lets through with an explicit
`typeIsInvalid` test even though `typeIsVoid` accepts Invalid — there is
no diagnostic and the result is a (deep-duplicated) copy of the
right-hand type. -/
theorem C8_comma_void_check (ctx : analyzerCtx) (node : ast)
    (hcls : node.cls = .astBOP) (ho : isCommaBOP node.o = true) :
    (analyzerValue ctx node).errors
        = (analyzerValueOpt ctx node.r).errors
          + (if !typeIsVoid (analyzerValueOpt ctx node.r).dt
                || typeIsInvalid (analyzerValueOpt ctx node.r).dt then 0 else 1)
      ∧ ((!typeIsVoid (analyzerValueOpt ctx node.r).dt
            || typeIsInvalid (analyzerValueOpt ctx node.r).dt) = true →
           (analyzerValue ctx node).dt = typeDeepDuplicate (analyzerValueOpt ctx node.r).dt)
      ∧ ((!typeIsVoid (analyzerValueOpt ctx node.r).dt
            || typeIsInvalid (analyzerValueOpt ctx node.r).dt) = false →
           (analyzerValue ctx node).dt = typeCreateInvalid)
      ∧ (typeIsInvalid (analyzerValueOpt ctx node.r).dt = true →
           typeIsVoid (analyzerValueOpt ctx node.r).dt = true
             ∧ (analyzerValue ctx node).errors = (analyzerValueOpt ctx node.r).errors) := by
  obtain ⟨hn, ha, hoo, he, hm⟩ := comma_not_other_classes node.o ho
  rw [analyzerValue_on_comma ctx node hcls (by simp [hn, ha]) (by simp [hoo, he]) (by simp [hm]) ho]
  unfold analyzerCommaBOP
  refine ⟨?_, ?_, ?_, ?_⟩
  · by_cases hv : (!typeIsVoid (analyzerValueOpt ctx node.r).dt
        || typeIsInvalid (analyzerValueOpt ctx node.r).dt) = true
    · simp [hv]
    · simp only [Bool.not_eq_true] at hv
      simp [hv, analyzerErrorOp, analyzerError]
  · intro hv
    simp [hv]
  · intro hv
    simp [hv]
  · intro hv
    have hvv : typeIsVoid (analyzerValueOpt ctx node.r).dt = true := by
      cases hdt : (analyzerValueOpt ctx node.r).dt <;>
        simp [hdt, typeIsInvalid] at hv ⊢
      rfl
    refine ⟨hvv, ?_⟩
    simp [hv]

/-- For C8's witness: a variable `v : void` and the comma expression
`1, v`. -/
def voidVarC8 : sym := ⟨.symId, "v", .basic voidSym, []⟩

def commaC8 : ast :=
  .mk .astBOP "," .literalInt [] (some intLit) (some (identLit voidVarC8 2 4)) none none "" 2 2

/-- C8, witness: `1, v` with `v : void` — the right-hand side is void and
not Invalid, so one diagnostic is emitted and the result is Invalid. -/
theorem C8_witness :
    commaC8.cls = .astBOP
      ∧ isCommaBOP commaC8.o = true
      ∧ typeIsVoid (analyzerValueOpt ctx0 commaC8.r).dt = true
      ∧ typeIsInvalid (analyzerValueOpt ctx0 commaC8.r).dt = false
      ∧ (analyzerValue ctx0 commaC8).errors = 1
      ∧ (analyzerValue ctx0 commaC8).dt = typeCreateInvalid :=
  ⟨rfl, rfl, rfl, rfl,
   ((C8_comma_void_check ctx0 commaC8 rfl rfl).1).trans rfl,
   (C8_comma_void_check ctx0 commaC8 rfl rfl).2.2.1 rfl⟩

/-! ## Claim C9 -/

/-- C9, confirmed: a failed token match — by class (`tokenMatchToken`)
or by text (`tokenMatchStr`) — appends exactly one expected-diagnostic
line, increments the error count by exactly one, advances the token
stream by exactly one token, and returns a live context (the helpers are
total; nothing unwinds or terminates). -/
theorem C9_failed_match_single_diag_single_advance (ctx : parserCtx)
    (mc : tokenClass) (ms : String)
    (hc : (ctx.lexer.token == mc) = false)
    (hs : tokenIs ctx ms = false) :
    ((tokenMatchToken ctx mc).errors = ctx.errors + 1
       ∧ (tokenMatchToken ctx mc).out
           = ctx.out ++ ["error(" ++ toString ctx.locLine ++ ":" ++ toString ctx.locCol
               ++ "): " ++ ("expected " ++ tokenClassGetStr mc ++ ", found "
               ++ squote ++ ctx.lexer.buffer ++ squote) ++ "."]
       ∧ (tokenMatchToken ctx mc).lexer.idx = ctx.lexer.idx + 1
       ∧ (tokenMatchToken ctx mc).lexer.tokens = ctx.lexer.tokens)
      ∧ ((tokenMatchStr ctx ms).errors = ctx.errors + 1
       ∧ (tokenMatchStr ctx ms).out
           = ctx.out ++ ["error(" ++ toString ctx.locLine ++ ":" ++ toString ctx.locCol
               ++ "): " ++ ("expected " ++ squote ++ ms ++ squote ++ ", found "
               ++ squote ++ ctx.lexer.buffer ++ squote) ++ "."]
       ∧ (tokenMatchStr ctx ms).lexer.idx = ctx.lexer.idx + 1
       ∧ (tokenMatchStr ctx ms).lexer.tokens = ctx.lexer.tokens) := by
  constructor
  · unfold tokenMatchToken
    rw [if_neg (by simp [hc])]
    unfold errorExpected error lexerNext
    refine ⟨rfl, by simp [String.append_assoc], rfl, rfl⟩
  · unfold tokenMatchStr
    rw [if_neg (by simp [hs])]
    unfold errorExpected error lexerNext
    refine ⟨rfl, by simp [String.append_assoc], rfl, rfl⟩

/-- For C9's witness: a stream whose current token is the identifier `x`,
matched against the class `int` and against the text `(`. -/
def pctxC9 : parserCtx :=
  ⟨⟨[⟨.tokenIdent, "x", 1, 5⟩, ⟨.tokenOther, ";", 1, 6⟩], 0⟩, 1, 5, 0, []⟩

/-- C9, witness: at token `x`, matching class `int` and text `(` both
fail; each emits one period-terminated line, counts one error and
advances one token. -/
theorem C9_witness :
    (pctxC9.lexer.token == .tokenInt) = false
      ∧ tokenIs pctxC9 "(" = false
      ∧ (tokenMatchToken pctxC9 .tokenInt).errors = 1
      ∧ (tokenMatchToken pctxC9 .tokenInt).out
          = ["error(1:5): expected int, found " ++ squote ++ "x" ++ squote ++ "."]
      ∧ (tokenMatchToken pctxC9 .tokenInt).lexer.idx = 1
      ∧ (tokenMatchStr pctxC9 "(").errors = 1
      ∧ (tokenMatchStr pctxC9 "(").out
          = ["error(1:5): expected " ++ squote ++ "(" ++ squote ++ ", found "
              ++ squote ++ "x" ++ squote ++ "."]
      ∧ (tokenMatchStr pctxC9 "(").lexer.idx = 1 := by
  have h := C9_failed_match_single_diag_single_advance pctxC9 .tokenInt "(" rfl rfl
  refine ⟨rfl, rfl, (h.1.1).trans rfl, (h.1.2.1).trans (by rfl), (h.1.2.2.1).trans rfl,
    (h.2.1).trans rfl, (h.2.2.1).trans (by rfl), (h.2.2.2.1).trans rfl⟩

/-! ## Claim C10 -/

/-- C10, confirmed: a Return node with no returned expression never
emits a diagnostic, whatever the enclosing return type: the absent
expression is typed Invalid, `typeIsCompatible` accepts Invalid against
everything, so the error branch (which would print the absent node) is
unreachable and the node is returned unchanged. -/
theorem C10_return_without_expr_silent (ctx : analyzerCtx) (node : ast)
    (hcls : node.cls = .astReturn) (hr : node.r = none) :
    (analyzerNode ctx node).errors = 0
      ∧ (analyzerNode ctx node).out = []
      ∧ (analyzerNode ctx node).node = node
      ∧ typeIsCompatible typeCreateInvalid ctx.returnType = true := by
  rw [analyzerNode_on_return ctx node hcls]
  unfold analyzerReturn
  rw [hr]
  refine ⟨?_, ?_, ?_, ?_⟩
  · simp [analyzerValueOpt, typeIsCompatible, typeCreateInvalid]
  · simp [analyzerValueOpt, typeIsCompatible, typeCreateInvalid]
  · show node.setR (analyzerValueOpt ctx none).node = node
    rw [show (analyzerValueOpt ctx none).node = none from rfl, ← hr, ast.setR_r]
  · simp [typeIsCompatible, typeCreateInvalid]

/-- For C10's witness: the bare statement `return;`. -/
def returnC10 : ast := .mk .astReturn "" .literalInt [] none none none none "" 7 1

/-- C10, witness: `return;` inside a function returning `int` — no
diagnostic, no error, node unchanged. -/
theorem C10_witness :
    returnC10.cls = .astReturn
      ∧ returnC10.r = none
      ∧ ctxInt.returnType = .basic intSym
      ∧ (analyzerNode ctxInt returnC10).errors = 0
      ∧ (analyzerNode ctxInt returnC10).out = []
      ∧ (analyzerNode ctxInt returnC10).node = returnC10 :=
  ⟨rfl, rfl, rfl,
   (C10_return_without_expr_silent ctxInt returnC10 rfl rfl).1,
   (C10_return_without_expr_silent ctxInt returnC10 rfl rfl).2.1,
   (C10_return_without_expr_silent ctxInt returnC10 rfl rfl).2.2.1⟩

end Fcc
